import Mathlib

/-!
# jdownloader-go: session protocol of the MyJDownloader client

A shallow embedding of `crypto.go`, `client.go`, `device.go` and `utils.go`.

* Go byte slices are `List Byte` with `Byte = Fin 256`; `[32]byte` is `Key32`.
* Functions of the Go standard library (SHA-256, HMAC, the AES block function,
  base64, hex, JSON, URL escaping) are not code of this package: they are the
  fields of `Lib`, and every definition below takes a `Lib`.
* A Go function returning `(T, error)` becomes a function into `Go T`; a run-time
  panic (index out of range, slice bounds, `CryptBlocks` on a partial block) is
  the separate outcome `Failure.panic`.
* A Go `string` is its bytes (`Str`), so `[]byte(s)` and `string(b)` are the identity.
* `int`/`int64` arithmetic wraps with `wrapInt64`.
* The HTTP exchange is a parameter `Transport`; the requests handed to the HTTP client
  and the calls of the completion callback are recorded in a `World`.
* The model is the behaviour of one caller. The `World` also holds the trace of the
  run: the ids returned by `nextRid`, the `Lock` and `Unlock` of the transport lock
  `j.lock`, the calls of the HTTP client, and the assignments to the two tokens and the
  two key lineages, in program order. `lastCallLock` and log output are left out.
-/

namespace JDownloader

/-! ## Bytes, blocks and keys -/

/-- One Go `byte`. -/
abbrev Byte := Fin 256

/-- Go conversion `byte(n)` of an `int`: the low eight bits. -/
def byteOfInt (n : Int) : Byte := ⟨(n % 256).toNat, by omega⟩

/-- Bitwise exclusive or of two bytes. -/
def xorByte (a b : Byte) : Byte := ⟨(a.val ^^^ b.val) % 256, Nat.mod_lt _ (by decide)⟩

/-- A Go `string`: a sequence of bytes. -/
abbrev Str := List Byte

/-- A Go string literal (ASCII) as its bytes. -/
def lit (s : String) : Str := s.toList.map fun c => byteOfInt c.toNat

/-- Sixteen bytes: one AES block, an AES-128 key, or a CBC initialisation vector. -/
abbrev Block := { l : List Byte // l.length = 16 }

/-- Go `[32]byte`. -/
abbrev Key32 := { l : List Byte // l.length = 32 }

/-- Go `key[:16]` on a `[32]byte`. -/
def Key32.lo (k : Key32) : Block := ⟨k.val.take 16, by simp [k.property]⟩

/-- Go `key[16:]` on a `[32]byte`. -/
def Key32.hi (k : Key32) : List Byte := k.val.drop 16

/-- Two's-complement wrap of a mathematical integer into the `int64` range. -/
def wrapInt64 (x : Int) : Int := (x + 2 ^ 63) % 2 ^ 64 - 2 ^ 63

/-- Largest `int64`. -/
def maxInt64 : Int := 2 ^ 63 - 1

/-- Smallest `int64`. -/
def minInt64 : Int := -(2 ^ 63)

/-! ## Errors and panics -/

/-- The `error` values this package produces or passes on. -/
inductive GoError where
  /-- error returned by `http.Client.Get` / `Post` -/
  | transport
  /-- error of `ioutil.ReadAll` on the response body -/
  | readBody
  /-- result of `errors.Errorf("API doServer failed: %v", e)` on a non-200 status -/
  | apiFailed (detail : Str)
  /-- error of `base64.StdEncoding.DecodeString` -/
  | base64
  /-- error of `json.Unmarshal` / `json.Marshal` -/
  | json
  /-- error of `hex.DecodeString` -/
  | hex
  /-- the `aes.KeySizeError` -/
  | keySize (n : Nat)
  /-- result of `errors.Errorf("mismatched RID, expected: %d, actual: %d", ...)` -/
  | mismatchedRid (expected actual : Int)
  /-- result of `errors.Wrap(err, msg)` and `errors.WithMessagef` -/
  | wrap (msg : String) (cause : GoError)
  deriving DecidableEq, Repr

/-- How a call can end without a value: a returned `error`, or a run-time panic. -/
inductive Failure where
  | error (e : GoError)
  | panic (msg : String)
  deriving DecidableEq, Repr

/-- Outcome of a Go call with result type `α`. -/
abbrev Go (α : Type) := Except Failure α

/-- Decidable equality of outcomes. -/
instance instDecidableEqGo {α : Type} [DecidableEq α] : DecidableEq (Go α) := fun a b =>
  match a, b with
  | .ok x, .ok y => if h : x = y then isTrue (by rw [h]) else isFalse (fun e => h (Except.ok.inj e))
  | .error x, .error y =>
      if h : x = y then isTrue (by rw [h]) else isFalse (fun e => h (Except.error.inj e))
  | .ok _, .error _ => isFalse (fun e => by cases e)
  | .error _, .ok _ => isFalse (fun e => by cases e)

/-! ## Standard-library functions taken as parameters -/

/-- Decoded `sessionInfo` (client.go): the JSON fields `sessiontoken`, `regaintoken`, `rid`. -/
structure sessionInfo where
  SessionToken : Str
  RegainToken : Str
  ResponseID : Int
  deriving DecidableEq, Repr

/-- A dynamic Go value other than nil and strings, identified by a handle. -/
structure Value where
  id : Nat
  deriving DecidableEq, Repr

/-- A Go value of type `interface{}`: nil, a string, or some other value. -/
inductive Iface where
  | nil
  | string (s : Str)
  | value (v : Value)
  deriving DecidableEq, Repr

/-- A decoded `map[string]interface{}`: `none` is the nil map, otherwise the entries. -/
abbrev ErrMap := Option (List (Str × Iface))

/-- Source `DeviceInfo` (types.go); `Typ` is the field `Type`. -/
structure DeviceInfo where
  Id : Str
  Typ : Str
  Name : Str
  Status : Str
  deriving DecidableEq, Repr

/-- Source `DeviceList` (types.go). -/
structure DeviceList where
  ResponseID : Int
  List : List DeviceInfo
  deriving DecidableEq, Repr

/-- Source `actionRequest` (types.go); `Params` is `none` for a nil slice. -/
structure actionRequest where
  Url : Str
  Params : Option (List Iface)
  RequestId : Int
  ApiVersion : Int
  deriving DecidableEq, Repr

/-- Source `DataResponse` (types.go); `Typ` is the field `Type`. -/
structure DataResponse where
  Data : Iface
  Source : Str
  Typ : Str
  ResponseID : Int
  deriving DecidableEq, Repr

/-- The functions of the Go standard library the package calls. They are
parameters of the model: the package's own code is written on top of them. -/
structure Lib where
  /-- Go `sha256.Sum256` -/
  sha256 : List Byte → Key32
  /-- HMAC-SHA256 of a message under a key: `hmac.New(sha256.New, key)`, `Write`, `Sum(nil)` -/
  hmacSha256 : List Byte → List Byte → List Byte
  /-- AES-128 block encryption under a 16-byte key -/
  aesEncryptBlock : Block → Block → Block
  /-- AES-128 block decryption under a 16-byte key -/
  aesDecryptBlock : Block → Block → Block
  /-- Go `base64.StdEncoding.EncodeToString` -/
  base64Encode : List Byte → Str
  /-- Go `base64.StdEncoding.DecodeString`, `none` on error -/
  base64Decode : Str → Option (List Byte)
  /-- Go `hex.DecodeString`, `none` on error -/
  hexDecode : Str → Option (List Byte)
  /-- Go `fmt.Sprintf("%x", b)` of a byte slice -/
  hexEncode : List Byte → Str
  /-- Go `strconv.FormatInt(n, 10)` -/
  formatInt : Int → Str
  /-- Go `url.QueryEscape` -/
  queryEscape : Str → Str
  /-- Go `strings.ToLower` -/
  toLower : Str → Str
  /-- Go `json.Unmarshal` into a `sessionInfo`, `none` on error -/
  unmarshalSession : List Byte → Option sessionInfo
  /-- Go `json.Unmarshal` into a `DeviceList`, `none` on error -/
  unmarshalDeviceList : List Byte → Option DeviceList
  /-- Go `json.Unmarshal` into a `DataResponse`, `none` on error -/
  unmarshalData : List Byte → Option DataResponse
  /-- Go `json.Unmarshal` into a `map[string]interface{}`, `none` on error -/
  unmarshalMap : List Byte → Option ErrMap
  /-- Go `json.Marshal` of one parameter, `none` on error -/
  marshalParam : Iface → Option (List Byte)
  /-- Go `json.Marshal` of an `actionRequest`, `none` on error -/
  marshalAction : actionRequest → Option (List Byte)
  /-- Go formatting `%v` of the parsed error map -/
  formatMap : ErrMap → Str

/-- The block cipher is a cipher: decryption under a key inverts encryption under it. -/
def Lib.AesInverse (lib : Lib) : Prop :=
  ∀ k b : Block, lib.aesDecryptBlock k (lib.aesEncryptBlock k b) = b

/-! ## crypto.go -/

/-- Bytewise exclusive or of two blocks. -/
def xorBlock (a b : Block) : Block :=
  ⟨List.zipWith xorByte a.val b.val, by simp [a.property, b.property]⟩

/-- The first `n` sixteen-byte blocks of a byte slice. -/
def toBlocksAux : Nat → List Byte → List Block
  | 0, _ => []
  | n + 1, l =>
    if h : (l.take 16).length = 16 then ⟨l.take 16, h⟩ :: toBlocksAux n (l.drop 16) else []

/-- A byte slice cut into its full sixteen-byte blocks. -/
def toBlocks (l : List Byte) : List Block := toBlocksAux (l.length / 16) l

/-- Concatenation of blocks. -/
def ofBlocks : List Block → List Byte
  | [] => []
  | b :: bs => b.val ++ ofBlocks bs

/-- CBC encryption of a sequence of blocks: each plaintext block is xored with the
previous ciphertext block (the IV for the first) and encrypted. -/
def cbcEncryptBlocks (enc : Block → Block) : Block → List Block → List Block
  | _, [] => []
  | iv, p :: ps => enc (xorBlock p iv) :: cbcEncryptBlocks enc (enc (xorBlock p iv)) ps

/-- CBC decryption of a sequence of blocks. -/
def cbcDecryptBlocks (dec : Block → Block) : Block → List Block → List Block
  | _, [] => []
  | iv, c :: cs => xorBlock (dec c) iv :: cbcDecryptBlocks dec c cs

/-- Go `aes.NewCipher(key)` as this package calls it, on `key[16:]` of a `[32]byte`:
a 16-byte key selects AES-128; any other length is reported as `KeySizeError`
(24 and 32 bytes, which Go also accepts, cannot arise from a `[32]byte`). -/
def aesNewCipher (key : List Byte) : Go Block :=
  if h : key.length = 16 then .ok ⟨key, h⟩ else .error (.error (.keySize key.length))

/-- The method `CryptBlocks` of `cipher.NewCBCEncrypter(block, iv)`: panics unless the
input is made of full blocks. -/
def cbcEncrypterCryptBlocks (lib : Lib) (key iv : Block) (src : List Byte) : Go (List Byte) :=
  if src.length % 16 ≠ 0 then .error (.panic "crypto/cipher: input not full blocks")
  else .ok (ofBlocks (cbcEncryptBlocks (lib.aesEncryptBlock key) iv (toBlocks src)))

/-- The method `CryptBlocks` of `cipher.NewCBCDecrypter(block, iv)`. -/
def cbcDecrypterCryptBlocks (lib : Lib) (key iv : Block) (src : List Byte) : Go (List Byte) :=
  if src.length % 16 ≠ 0 then .error (.panic "crypto/cipher: input not full blocks")
  else .ok (ofBlocks (cbcDecryptBlocks (lib.aesDecryptBlock key) iv (toBlocks src)))

/-- Source `padPKCS7`: `padding := blockSize - len(topad)%blockSize`, then `padding`
copies of `byte(padding)` are appended. Division by zero and a negative repeat
count panic. -/
def padPKCS7 (topad : List Byte) (blockSize : Int) : Go (List Byte) :=
  if blockSize = 0 then .error (.panic "runtime error: integer divide by zero")
  else
    let padding := wrapInt64 (blockSize - Int.tmod (topad.length : Int) blockSize)
    if padding < 0 then .error (.panic "bytes: negative Repeat count")
    else .ok (topad ++ List.replicate padding.toNat (byteOfInt padding))

/-- Source `trimPKCS5`: `padding := text[len(text)-1]`, result `text[:len(text)-int(padding)]`.
Indexing an empty slice panics, and so does a negative slice bound. -/
def trimPKCS5 (text : List Byte) : Go (List Byte) :=
  match text.getLast? with
  | none => .error (.panic "runtime error: index out of range [-1]")
  | some padding =>
    if padding.val ≤ text.length then .ok (text.take (text.length - padding.val))
    else .error (.panic "runtime error: slice bounds out of range")

/-- Source `decrypt`. -/
def decrypt (lib : Lib) (ciphertext : List Byte) (key : Key32) : Go (List Byte) := do
  let block ← aesNewCipher key.hi
  let plaintext ← cbcDecrypterCryptBlocks lib block key.lo ciphertext
  trimPKCS5 plaintext

/-- Source `encrypt`: the block size of the CBC encrypter is 16. -/
def encrypt (lib : Lib) (plaintext : List Byte) (key : Key32) : Go (List Byte) := do
  let block ← aesNewCipher key.hi
  let paddedPlainText ← padPKCS7 plaintext 16
  cbcEncrypterCryptBlocks lib block key.lo paddedPlainText

/-- Source `decode`: base64-decode, then `decrypt`. -/
def decode (lib : Lib) (body : List Byte) (key : Key32) : Go (List Byte) :=
  match lib.base64Decode body with
  | none => .error (.error (.wrap "can't decode base64 string" .base64))
  | some decoded => decrypt lib decoded key

/-- Source `sign`: lower-case hex of the HMAC-SHA256 of the uri under the key. -/
def sign (lib : Lib) (uri : Str) (key : List Byte) : Str :=
  lib.hexEncode (lib.hmacSha256 key uri)

/-- Source `createSecret`. -/
def createSecret (lib : Lib) (email password domain : Str) : Key32 :=
  lib.sha256 (lib.toLower email ++ password ++ domain)

/-- Source `hashConfigKeys`. -/
def hashConfigKeys (lib : Lib) (email password : Str) : Str :=
  lib.base64Encode (lib.sha256 (email ++ password)).val

/-- Source `updateToken`: SHA-256 of the existing key followed by the new token. -/
def updateToken (lib : Lib) (newToken : List Byte) (existing : Key32) : Key32 :=
  lib.sha256 (existing.val ++ newToken)

/-! ## The HTTP exchange -/

/-- The two ways the client issues a request: `http.Client.Get` and `http.Client.Post`. -/
inductive Method where
  | get
  | post
  deriving DecidableEq, Repr

/-- One request handed to the HTTP client: `Get(url)` or `Post(url, mediaType, body)`;
`body` is `none` for a POST without body. -/
structure Request where
  method : Method
  url : Str
  body : Option (List Byte)
  deriving DecidableEq, Repr

/-- What the HTTP client gives back. -/
inductive Reply where
  /-- the call `Get` / `Post` returned an error -/
  | failed
  /-- a response arrived but `ioutil.ReadAll` of its body failed -/
  | unreadable (status : Int)
  /-- a response with its status code and full body -/
  | response (status : Int) (body : List Byte)
  deriving DecidableEq, Repr

/-- The network and the server: the reply to a request, given the requests made before. -/
abbrev Transport := List Request → Request → Reply

/-- The four fields of the client that hold the session: the two tokens and the two key
lineages. -/
inductive SessionField where
  | sessionToken
  | regainToken
  | serverEncryptionToken
  | deviceEncryptionToken
  deriving DecidableEq, Repr

/-- One step of a run of the client, as one caller performs it. -/
inductive Event where
  /-- a call of `nextRid()` returned `id` -/
  | rid (id : Int)
  /-- the call `j.lock.Lock()` in `do`: the transport lock is taken -/
  | lock
  /-- the call `Get` / `Post` of the HTTP client in `do` -/
  | transport
  /-- the deferred `j.lock.Unlock()` of `do`: the transport lock is released -/
  | unlock
  /-- an assignment to the field `f` of the client -/
  | write (f : SessionField)
  deriving DecidableEq, Repr

/-- Observable effects of a run: the requests handed to the HTTP client, oldest first,
the error argument of every call of the completion callback, and the trace of the run:
the ids returned by `nextRid`, the operations on the transport lock, the calls of the
HTTP client and the assignments to the session fields, in program order. -/
structure World where
  dispatched : List Request
  afterCalls : List (Option GoError)
  events : List Event
  deriving DecidableEq, Repr

/-- The world with the steps `es` added to the end of its trace. -/
def World.log (w : World) (es : List Event) : World := { w with events := w.events ++ es }

/-! ## client.go -/

/-- Source `jDownloaderClient`. `counter` is an `int64`; `lastCall` is a `time.Time`, kept
as nanoseconds of the monotonic clock; `timeout` is `client.Timeout`; `afterCallFn` says
whether a callback is configured (non-nil). The mutexes and the logger are not fields;
what is done with the transport lock `lock` is recorded in the trace of the `World`. -/
structure jDownloaderClient where
  connected : Bool
  email : Str
  counter : Int
  appKey : Str
  loginSecret : Key32
  deviceSecret : Key32
  serverEncryptionToken : Key32
  deviceEncryptionToken : Key32
  timeout : Int
  sessionToken : Str
  regainToken : Str
  configHash : Str
  lastCall : Int
  endpoint : Str
  afterCallFn : Bool
  deriving DecidableEq

/-- Result of running a method of the client: the returned value or failure, the client
afterwards, and the world afterwards. -/
structure Run (α : Type) where
  result : Go α
  client : jDownloaderClient
  world : World

/-- Source `ClientOption`: the four option constructors of the package. -/
inductive ClientOption where
  | ApiEndpoint (url : Str)
  | ApiCallbacks (afterCallFn : Bool)
  | Timeout (timeout : Int)
  | AppKey (app : Str)
  deriving DecidableEq, Repr

/-- Applying a `ClientOption` to the client under construction. -/
def ClientOption.apply (o : ClientOption) (c : jDownloaderClient) : jDownloaderClient :=
  match o with
  | .ApiEndpoint url => { c with endpoint := url }
  | .ApiCallbacks f => { c with afterCallFn := f }
  | .Timeout t => { c with timeout := t }
  | .AppKey app => { c with appKey := app }

/-- Source constant `apiEndpoint`. -/
def apiEndpoint : Str := lit "https://api.jdownloader.org"

/-- Source constant `appName`. -/
def appName : Str := lit "jdownloader-clientgo"

/-- Source constant `paramSessionToken`. -/
def paramSessionToken : Str := lit "sessiontoken"

/-- Source `NewClient` (types.go); `now` is the reading of `time.Now()`. Fields not set
by the composite literal have the zero value. -/
def NewClient (lib : Lib) (now : Int) (email password : Str) (opts : List ClientOption) :
    jDownloaderClient :=
  let c : jDownloaderClient :=
    { connected := false
      email := email
      counter := 0
      appKey := appName
      loginSecret := createSecret lib email password (lit "server")
      deviceSecret := createSecret lib email password (lit "device")
      serverEncryptionToken := ⟨List.replicate 32 0, by simp⟩
      deviceEncryptionToken := ⟨List.replicate 32 0, by simp⟩
      timeout := 15 * 10 ^ 9
      sessionToken := []
      regainToken := []
      configHash := hashConfigKeys lib email password
      lastCall := now
      endpoint := apiEndpoint
      afterCallFn := false }
  opts.foldl (fun c o => o.apply c) c

/-- Source `ConfigHash`. -/
def jDownloaderClient.ConfigHash (j : jDownloaderClient) : Str := j.configHash

/-- Source `IsConnected`. -/
def jDownloaderClient.IsConnected (j : jDownloaderClient) : Bool := j.connected

/-- Source `nextRid`: `atomic.AddInt64(&j.counter, 1)`, returning the new value. -/
def jDownloaderClient.nextRid (j : jDownloaderClient) : Int × jDownloaderClient :=
  (wrapInt64 (j.counter + 1), { j with counter := wrapInt64 (j.counter + 1) })

/-- Source `currentRid`. -/
def jDownloaderClient.currentRid (j : jDownloaderClient) : Int := j.counter

/-- Source `onApiDone`: the callback, when configured, is called with `err`. -/
def jDownloaderClient.onApiDone (j : jDownloaderClient) (w : World) (err : Option GoError) :
    World :=
  if j.afterCallFn then { w with afterCalls := w.afterCalls ++ [err] } else w

/-- Source `qp` (utils.go): `key=QueryEscape(value)`. -/
def qp (lib : Lib) (key value : Str) : Str := key ++ lit "=" ++ lib.queryEscape value

/-- Source `parseError` (utils.go): a direct JSON parse, else `decode` and a JSON parse of
the result, else nil. `decode` can panic, and then so does `parseError`. -/
def parseError (lib : Lib) (data : List Byte) (key : Key32) : Go ErrMap :=
  match lib.unmarshalMap data with
  | some v => .ok v
  | none =>
    match decode lib data key with
    | .error (.panic m) => .error (.panic m)
    | .error (.error _) => .ok none
    | .ok decoded =>
      match lib.unmarshalMap decoded with
      | none => .ok none
      | some v => .ok v

/-- Source `do`. The deferred `j.onApiDone(err, time.Now())` has its arguments evaluated
when the `defer` statement runs, where the named result `err` is still nil, so the
callback receives nil whatever the outcome; it also runs when the body panics. The lock
is taken before the HTTP client is called and released by the deferred `Unlock`, which
runs before the deferred callback. -/
def jDownloaderClient.do_ (lib : Lib) (T : Transport) (j : jDownloaderClient) (w : World)
    (path method : Str) (data : Option (List Byte)) (key : Key32) : Go (List Byte) × World :=
  let uri := j.endpoint ++ path
  let req : Request :=
    if method = lit "GET" then { method := .get, url := uri, body := none }
    else { method := .post, url := uri, body := data }
  let w1 : World :=
    { w with dispatched := w.dispatched ++ [req] }.log [.lock, .transport, .unlock]
  let result : Go (List Byte) :=
    match T w.dispatched req with
    | .failed => .error (.error .transport)
    | .unreadable _ =>
      .error (.error (.wrap "unable to fully consume response body" .readBody))
    | .response status body =>
      if status ≠ 200 then
        match parseError lib body key with
        | .ok e => .error (.error (.apiFailed (lib.formatMap e)))
        | .error f => .error f
      else decode lib body key
  (result, j.onApiDone w1 none)

/-- Source `doServer`; `args` is `none` for a nil slice. The id taken from `nextRid` is
recorded in the trace. -/
def jDownloaderClient.doServer (lib : Lib) (T : Transport) (j : jDownloaderClient) (w : World)
    (path method : Str) (args : Option (List Str)) (data : Option (List Byte)) (key : Key32) :
    Run (List Byte) :=
  let args := match args with
    | none => []
    | some a => a
  let next := j.nextRid
  let args := args ++ [qp lib (lit "rid") (lib.formatInt next.1)]
  let uri := (lit "&").intercalate args
  let uri := path ++ lit "?" ++ uri
  let uri := uri ++ lit "&signature=" ++ sign lib uri key.val
  let r := next.2.do_ lib T (w.log [.rid next.1]) uri method data key
  { result := r.1, client := next.2, world := r.2 }

/-- Source `updateTokens`. -/
def jDownloaderClient.updateTokens (lib : Lib) (j : jDownloaderClient) (newToken : List Byte) :
    jDownloaderClient :=
  let j1 := { j with serverEncryptionToken := updateToken lib newToken j.serverEncryptionToken }
  { j1 with deviceEncryptionToken := updateToken lib newToken j1.deviceEncryptionToken }

/-- Source `Connect`. The trace records the two key assignments at the top and, on
success, the assignments of the two tokens and the two of `updateTokens`. -/
def jDownloaderClient.Connect (lib : Lib) (T : Transport) (j : jDownloaderClient) (w : World) :
    Run Unit :=
  let j1 := { j with serverEncryptionToken := j.loginSecret }
  let j2 := { j1 with deviceEncryptionToken := j1.deviceSecret }
  let j3 := { j2 with connected := false }
  let w2 := w.log [.write .serverEncryptionToken, .write .deviceEncryptionToken]
  let r := j3.doServer lib T w2 (lit "/my/connect") (lit "POST")
    (some [qp lib (lit "email") (lib.toLower j3.email),
           qp lib (lit "appkey") (lib.toLower j3.appKey)]) none j3.loginSecret
  match r.result with
  | .error (.error e) =>
    { result := .error (.error (.wrap "API doServer failed" e)), client := r.client
      world := r.world }
  | .error (.panic m) => { result := .error (.panic m), client := r.client, world := r.world }
  | .ok data =>
    match lib.unmarshalSession data with
    | none =>
      { result := .error (.error (.wrap "invalid payload received from server" .json))
        client := r.client, world := r.world }
    | some session =>
      if r.client.currentRid ≠ session.ResponseID then
        { result := .error (.error (.mismatchedRid r.client.currentRid session.ResponseID))
          client := r.client, world := r.world }
      else
        match lib.hexDecode session.SessionToken with
        | none =>
          { result := .error (.error
              (.wrap "unable to decode session token from response" .hex))
            client := r.client, world := r.world }
        | some newToken =>
          let c1 := { r.client with sessionToken := session.SessionToken }
          let c2 := { c1 with regainToken := session.RegainToken }
          let c3 := c2.updateTokens lib newToken
          { result := .ok (), client := { c3 with connected := true }
            world := r.world.log [.write .sessionToken, .write .regainToken,
              .write .serverEncryptionToken, .write .deviceEncryptionToken] }

/-- Source `Reconnect`. On success the trace records the assignments of the two tokens
and the two of `updateTokens`. -/
def jDownloaderClient.Reconnect (lib : Lib) (T : Transport) (j : jDownloaderClient)
    (w : World) : Run Unit :=
  let r := j.doServer lib T w (lit "/my/reconnect") (lit "GET")
    (some [qp lib paramSessionToken j.sessionToken,
           qp lib (lit "regaintoken") j.regainToken]) none j.serverEncryptionToken
  match r.result with
  | .error f => { result := .error f, client := r.client, world := r.world }
  | .ok data =>
    match lib.unmarshalSession data with
    | none =>
      { result := .error (.error (.wrap "invalid payload received from server" .json))
        client := r.client, world := r.world }
    | some session =>
      if r.client.currentRid ≠ session.ResponseID then
        { result := .error (.error (.mismatchedRid r.client.currentRid session.ResponseID))
          client := r.client, world := r.world }
      else
        match lib.hexDecode session.SessionToken with
        | none =>
          { result := .error (.error
              (.wrap "unable to decode session token from response" .hex))
            client := r.client, world := r.world }
        | some newToken =>
          let c1 := { r.client with sessionToken := session.SessionToken }
          let c2 := { c1 with regainToken := session.RegainToken }
          let c3 := c2.updateTokens lib newToken
          { result := .ok (), client := { c3 with connected := true }
            world := r.world.log [.write .sessionToken, .write .regainToken,
              .write .serverEncryptionToken, .write .deviceEncryptionToken] }

/-- Source `Disconnect`. -/
def jDownloaderClient.Disconnect (lib : Lib) (T : Transport) (j : jDownloaderClient)
    (w : World) : Run Unit :=
  let r := j.doServer lib T w (lit "/my/disconnect") (lit "POST")
    (some [qp lib paramSessionToken j.sessionToken]) none j.serverEncryptionToken
  match r.result with
  | .error f => { result := .error f, client := r.client, world := r.world }
  | .ok _ => { result := .ok (), client := r.client, world := r.world }

/-- Go `t.Sub(u)` on monotonic clock readings: the difference as a `Duration`, an `int64`
of nanoseconds, saturating at the ends of the range. -/
def timeSub (t u : Int) : Int := max minInt64 (min maxInt64 (t - u))

/-- Go `d.Seconds() > 30` on a `Duration` `d`. `Seconds` is the float
`float64(d / 1e9) + float64(d % 1e9) / 1e9`; it is above `30` exactly when `d` is more
than `30e9` nanoseconds (at `30e9` it is `30.0`, and one nanosecond more is far above
the rounding step of a float near `30`). -/
def moreThan30Seconds (d : Int) : Bool := decide (30 * 10 ^ 9 < d)

/-- Source `reconnectIfNecessary`. `nowCheck` is the reading of `time.Now()` in the
condition, `nowSet` the reading stored in `lastCall`. -/
def jDownloaderClient.reconnectIfNecessary (lib : Lib) (T : Transport) (j : jDownloaderClient)
    (w : World) (nowCheck nowSet : Int) : Run Unit :=
  if !j.connected || moreThan30Seconds (timeSub nowCheck j.lastCall) then
    { j with lastCall := nowSet }.Connect lib T w
  else { result := .ok (), client := j, world := w }

/-- Source `ListDevices`. -/
def jDownloaderClient.ListDevices (lib : Lib) (T : Transport) (j : jDownloaderClient)
    (w : World) (nowCheck nowSet : Int) : Run (List DeviceInfo) :=
  let r0 := j.reconnectIfNecessary lib T w nowCheck nowSet
  match r0.result with
  | .error f => { result := .error f, client := r0.client, world := r0.world }
  | .ok _ =>
    let r := r0.client.doServer lib T r0.world (lit "/my/listdevices") (lit "GET")
      (some [qp lib paramSessionToken r0.client.sessionToken]) none
      r0.client.serverEncryptionToken
    match r.result with
    | .error f => { result := .error f, client := r.client, world := r.world }
    | .ok data =>
      match lib.unmarshalDeviceList data with
      | none => { result := .error (.error .json), client := r.client, world := r.world }
      | some dl => { result := .ok dl.List, client := r.client, world := r.world }

/-! ## device.go -/

/-- Source `jDevice`; the client it points to (`impl`) is passed along separately. -/
structure jDevice where
  id : Str
  name : Str
  status : Str
  deriving DecidableEq, Repr

/-- The loop of `serializeParams`. -/
def serializeLoop (lib : Lib) (marshal : Bool) : List Iface → Go (List Iface)
  | [] => .ok []
  | p :: rest =>
    if marshal then
      match lib.marshalParam p with
      | none =>
        .error (.error (.wrap "unable to marshal parameter into json string" .json))
      | some s =>
        match serializeLoop lib marshal rest with
        | .error f => .error f
        | .ok ps => .ok (Iface.string s :: ps)
    else
      match serializeLoop lib marshal rest with
      | .error f => .error f
      | .ok ps => .ok (p :: ps)

/-- Source `serializeParams`; the result is `none` for a nil slice. -/
def serializeParams (lib : Lib) (marshal : Bool) (params : List Iface) :
    Go (Option (List Iface)) :=
  if params.length = 1 ∧ params.head? = some Iface.nil then .ok none
  else
    match serializeLoop lib marshal params with
    | .error f => .error f
    | .ok ps => .ok (some ps)

/-- Source `doDevice`. The id taken from `nextRid` for the envelope is recorded in the
trace. -/
def jDevice.doDevice (lib : Lib) (T : Transport) (d : jDevice) (j : jDownloaderClient)
    (w : World) (nowCheck nowSet : Int) (action : Str) (marshal : Bool) (params : List Iface) :
    Run DataResponse :=
  let r0 := j.reconnectIfNecessary lib T w nowCheck nowSet
  match r0.result with
  | .error f => { result := .error f, client := r0.client, world := r0.world }
  | .ok _ =>
    let qs := lit "t_" ++ lib.queryEscape r0.client.sessionToken ++ lit "_" ++
      lib.queryEscape d.id ++ action
    match serializeParams lib marshal params with
    | .error f => { result := .error f, client := r0.client, world := r0.world }
    | .ok p =>
      let next := r0.client.nextRid
      let data : actionRequest :=
        { Url := action, Params := p, RequestId := next.1, ApiVersion := 1 }
      let w1 := r0.world.log [.rid next.1]
      match lib.marshalAction data with
      | none => { result := .error (.error .json), client := next.2, world := w1 }
      | some plaintext =>
        match encrypt lib plaintext next.2.deviceEncryptionToken with
        | .error f => { result := .error f, client := next.2, world := w1 }
        | .ok ciphertext =>
          let payload := lib.base64Encode ciphertext
          let r := next.2.do_ lib T w1 (lit "/" ++ qs) (lit "POST") (some payload)
            next.2.deviceEncryptionToken
          match r.1 with
          | .error f => { result := .error f, client := next.2, world := r.2 }
          | .ok body =>
            match lib.unmarshalData body with
            | none => { result := .error (.error .json), client := next.2, world := r.2 }
            | some result => { result := .ok result, client := next.2, world := r.2 }

/-! ## The requests the client builds

Closed forms of the requests that `doServer` and `doDevice` hand to the HTTP client,
used to state which exchange a theorem is about. -/

/-- The URI `u ++ "&signature=" ++ sign(u, key)`, where `u` is the path, `?`, and the
fragments of `args` followed by `rid=<ridText>`, joined by `&`. -/
def signedUri (lib : Lib) (path : Str) (args : List Str) (ridText : Str) (key : Key32) : Str :=
  path ++ lit "?" ++ (lit "&").intercalate (args ++ [lit "rid=" ++ ridText]) ++
    lit "&signature=" ++
    sign lib (path ++ lit "?" ++ (lit "&").intercalate (args ++ [lit "rid=" ++ ridText])) key.val

/-- The signed URI `doServer` builds from a path, its fragments, a rid and a key. -/
def serverUri (lib : Lib) (path : Str) (args : List Str) (rid : Int) (key : Key32) : Str :=
  path ++ lit "?" ++ (lit "&").intercalate (args ++ [qp lib (lit "rid") (lib.formatInt rid)]) ++
    lit "&signature=" ++
    sign lib (path ++ lit "?" ++
      (lit "&").intercalate (args ++ [qp lib (lit "rid") (lib.formatInt rid)])) key.val

/-- The request `Connect` sends from client state `j`: rid `j.nextRid.1`, signed with
`loginSecret`. -/
def connectRequest (lib : Lib) (j : jDownloaderClient) : Request :=
  { method := .post
    url := j.endpoint ++ serverUri lib (lit "/my/connect")
      [qp lib (lit "email") (lib.toLower j.email), qp lib (lit "appkey") (lib.toLower j.appKey)]
      j.nextRid.1 j.loginSecret
    body := none }

/-- The request `Reconnect` sends from client state `j`: rid `j.nextRid.1`, signed with
the current `serverEncryptionToken`. -/
def reconnectRequest (lib : Lib) (j : jDownloaderClient) : Request :=
  { method := .get
    url := j.endpoint ++ serverUri lib (lit "/my/reconnect")
      [qp lib paramSessionToken j.sessionToken, qp lib (lit "regaintoken") j.regainToken]
      j.nextRid.1 j.serverEncryptionToken
    body := none }

/-- The request `Disconnect` sends from client state `j`. -/
def disconnectRequest (lib : Lib) (j : jDownloaderClient) : Request :=
  { method := .post
    url := j.endpoint ++ serverUri lib (lit "/my/disconnect")
      [qp lib paramSessionToken j.sessionToken] j.nextRid.1 j.serverEncryptionToken
    body := none }

/-- The request `doDevice` sends for device `d` and action `action` from client state `j`,
carrying `payload`. -/
def deviceRequest (lib : Lib) (d : jDevice) (j : jDownloaderClient) (action : Str)
    (payload : List Byte) : Request :=
  { method := .post
    url := j.endpoint ++ (lit "/" ++ (lit "t_" ++ lib.queryEscape j.sessionToken ++ lit "_" ++
      lib.queryEscape d.id ++ action))
    body := some payload }

/-- What `do` returns for a given reply of the HTTP client and key. -/
def replyResult (lib : Lib) (reply : Reply) (key : Key32) : Go (List Byte) :=
  match reply with
  | .failed => .error (.error .transport)
  | .unreadable _ =>
    .error (.error (.wrap "unable to fully consume response body" .readBody))
  | .response status body =>
    if status ≠ 200 then
      match parseError lib body key with
      | .ok e => .error (.error (.apiFailed (lib.formatMap e)))
      | .error f => .error f
    else decode lib body key

/-- What `Connect` and `Reconnect` do with the decoded payload `data` of a successful
exchange, from client state `c` (the state right after the exchange): decode the session,
check the rid, decode the token, store the tokens, roll both keys, mark connected. -/
def acceptSession (lib : Lib) (c : jDownloaderClient) (w : World) (data : List Byte) :
    Run Unit :=
  match lib.unmarshalSession data with
  | none =>
    { result := .error (.error (.wrap "invalid payload received from server" .json))
      client := c, world := w }
  | some session =>
    if c.counter ≠ session.ResponseID then
      { result := .error (.error (.mismatchedRid c.counter session.ResponseID))
        client := c, world := w }
    else
      match lib.hexDecode session.SessionToken with
      | none =>
        { result := .error (.error (.wrap "unable to decode session token from response" .hex))
          client := c, world := w }
      | some newToken =>
        { result := .ok ()
          client := { c with
            sessionToken := session.SessionToken
            regainToken := session.RegainToken
            serverEncryptionToken := lib.sha256 (c.serverEncryptionToken.val ++ newToken)
            deviceEncryptionToken := lib.sha256 (c.deviceEncryptionToken.val ++ newToken)
            connected := true }
          world := w.log [.write .sessionToken, .write .regainToken,
            .write .serverEncryptionToken, .write .deviceEncryptionToken] }

/-- The world right before the exchange of `Connect`: both key lineages have been
assigned. -/
def connectWorld (w : World) : World :=
  w.log [.write .serverEncryptionToken, .write .deviceEncryptionToken]

/-- The client right after the exchange of `Connect`: keys reset to the root secrets, not
connected, counter advanced. -/
def connectSent (j : jDownloaderClient) : jDownloaderClient :=
  { j with
    serverEncryptionToken := j.loginSecret
    deviceEncryptionToken := j.deviceSecret
    connected := false
    counter := wrapInt64 (j.counter + 1) }

/-- The world after `do` has dispatched `req`: the lock is taken, the HTTP client called,
the lock released, and then the callback runs (when `j` has one). -/
def doWorld (j : jDownloaderClient) (w : World) (req : Request) : World :=
  j.onApiDone
    ({ w with dispatched := w.dispatched ++ [req] }.log [.lock, .transport, .unlock]) none

/-- The world after an exchange that took its rid from client state `j` and dispatched
`req`: the rid is issued, and then `do` runs. -/
def worldAfter (j : jDownloaderClient) (w : World) (req : Request) : World :=
  doWorld j (w.log [.rid j.nextRid.1]) req

/-- The part of `doDevice` after the reconnect policy has returned nil, from the client
state `c` and world `w` it left: build the path, serialise the parameters, take a rid,
marshal and encrypt the envelope, run the exchange, decode the reply. -/
def deviceStep (lib : Lib) (T : Transport) (d : jDevice) (c : jDownloaderClient) (w : World)
    (action : Str) (marshal : Bool) (params : List Iface) : Run DataResponse :=
  match serializeParams lib marshal params with
  | .error f => { result := .error f, client := c, world := w }
  | .ok p =>
    match lib.marshalAction
        { Url := action, Params := p, RequestId := c.nextRid.1, ApiVersion := 1 } with
    | none =>
      { result := .error (.error .json), client := c.nextRid.2
        world := w.log [.rid c.nextRid.1] }
    | some plaintext =>
      match encrypt lib plaintext c.deviceEncryptionToken with
      | .error f =>
        { result := .error f, client := c.nextRid.2, world := w.log [.rid c.nextRid.1] }
      | .ok ciphertext =>
        match replyResult lib (T w.dispatched
            (deviceRequest lib d c action (lib.base64Encode ciphertext)))
            c.deviceEncryptionToken with
        | .error f =>
          { result := .error f, client := c.nextRid.2
            world := worldAfter c w (deviceRequest lib d c action (lib.base64Encode ciphertext)) }
        | .ok body =>
          match lib.unmarshalData body with
          | none =>
            { result := .error (.error .json), client := c.nextRid.2
              world := worldAfter c w
                (deviceRequest lib d c action (lib.base64Encode ciphertext)) }
          | some result =>
            { result := .ok result, client := c.nextRid.2
              world := worldAfter c w
                (deviceRequest lib d c action (lib.base64Encode ciphertext)) }

/-- The request `ListDevices` sends from client state `j`. -/
def listDevicesRequest (lib : Lib) (j : jDownloaderClient) : Request :=
  { method := .get
    url := j.endpoint ++ serverUri lib (lit "/my/listdevices")
      [qp lib paramSessionToken j.sessionToken] j.nextRid.1 j.serverEncryptionToken
    body := none }

/-- The part of `ListDevices` after the reconnect policy has returned nil, from the client
state `c` and world `w` it left. -/
def listStep (lib : Lib) (T : Transport) (c : jDownloaderClient) (w : World) :
    Run (List DeviceInfo) :=
  match replyResult lib (T w.dispatched (listDevicesRequest lib c)) c.serverEncryptionToken with
  | .error f =>
    { result := .error f, client := c.nextRid.2
      world := worldAfter c w (listDevicesRequest lib c) }
  | .ok data =>
    match lib.unmarshalDeviceList data with
    | none =>
      { result := .error (.error .json), client := c.nextRid.2
        world := worldAfter c w (listDevicesRequest lib c) }
    | some dl =>
      { result := .ok dl.List, client := c.nextRid.2
        world := worldAfter c w (listDevicesRequest lib c) }

/-! ## Runs of calls and their traces -/

/-- The assignments `Connect` and `Reconnect` make once the session of the reply is
accepted, in program order: the two tokens, then the two keys in `updateTokens`. -/
def sessionWrites : List Event :=
  [.write .sessionToken, .write .regainToken, .write .serverEncryptionToken,
    .write .deviceEncryptionToken]

/-- The ids returned by `nextRid` in a trace, oldest first. -/
def issuedRids : List Event → List Int
  | [] => []
  | .rid n :: es => n :: issuedRids es
  | .lock :: es => issuedRids es
  | .transport :: es => issuedRids es
  | .unlock :: es => issuedRids es
  | .write _ :: es => issuedRids es

/-- Whether the transport lock is held after the steps of a trace; `held` says whether
it was held before them. -/
def lockHeld (held : Bool) : List Event → Bool
  | [] => held
  | .lock :: es => lockHeld true es
  | .unlock :: es => lockHeld false es
  | .rid _ :: es => lockHeld held es
  | .transport :: es => lockHeld held es
  | .write _ :: es => lockHeld held es

/-- The fields assigned in a trace at a moment when the transport lock is held, oldest
first; `held` says whether the lock was held before the trace. -/
def writesUnderLock (held : Bool) : List Event → List SessionField
  | [] => []
  | .lock :: es => writesUnderLock true es
  | .unlock :: es => writesUnderLock false es
  | .write f :: es =>
    if held then f :: writesUnderLock held es else writesUnderLock held es
  | .rid _ :: es => writesUnderLock held es
  | .transport :: es => writesUnderLock held es

/-- The fields assigned in a trace at a moment when the transport lock is not held,
oldest first; `held` says whether the lock was held before the trace. -/
def writesOutsideLock (held : Bool) : List Event → List SessionField
  | [] => []
  | .lock :: es => writesOutsideLock true es
  | .unlock :: es => writesOutsideLock false es
  | .write f :: es =>
    if held then writesOutsideLock held es else f :: writesOutsideLock held es
  | .rid _ :: es => writesOutsideLock held es
  | .transport :: es => writesOutsideLock held es

/-- The calls of the HTTP client in a trace made at a moment when the transport lock is
not held, counted; `held` says whether the lock was held before the trace. -/
def transportsOutsideLock (held : Bool) : List Event → Nat
  | [] => 0
  | .lock :: es => transportsOutsideLock true es
  | .unlock :: es => transportsOutsideLock false es
  | .transport :: es =>
    if held then transportsOutsideLock held es else transportsOutsideLock held es + 1
  | .rid _ :: es => transportsOutsideLock held es
  | .write _ :: es => transportsOutsideLock held es

/-- One call made on a client by its caller: the three session calls, `ListDevices`, or
a device-scoped call (`doDevice`) with its device, action and parameters. The clock
readings of the reconnect policy come with the calls that run it. -/
inductive Call where
  | connect
  | reconnect
  | disconnect
  | listDevices (nowCheck nowSet : Int)
  | device (d : jDevice) (nowCheck nowSet : Int) (action : Str) (marshal : Bool)
      (params : List Iface)

/-- The client and the world after one call. -/
def runCall (lib : Lib) (T : Transport) (j : jDownloaderClient) (w : World) :
    Call → jDownloaderClient × World
  | .connect => ((j.Connect lib T w).client, (j.Connect lib T w).world)
  | .reconnect => ((j.Reconnect lib T w).client, (j.Reconnect lib T w).world)
  | .disconnect => ((j.Disconnect lib T w).client, (j.Disconnect lib T w).world)
  | .listDevices nowCheck nowSet =>
    ((j.ListDevices lib T w nowCheck nowSet).client,
      (j.ListDevices lib T w nowCheck nowSet).world)
  | .device d nowCheck nowSet action marshal params =>
    ((d.doDevice lib T j w nowCheck nowSet action marshal params).client,
      (d.doDevice lib T j w nowCheck nowSet action marshal params).world)

/-- The client and the world after a sequence of calls on one client instance, made one
after the other. -/
def runCalls (lib : Lib) (T : Transport) :
    jDownloaderClient → World → List Call → jDownloaderClient × World
  | j, w, [] => (j, w)
  | j, w, c :: cs => runCalls lib T (runCall lib T j w c).1 (runCall lib T j w c).2 cs

/-- The ids that `n` successive calls of `nextRid` return from counter value `c`. -/
def ridsFrom (c : Int) : Nat → List Int
  | 0 => []
  | n + 1 => wrapInt64 (c + 1) :: ridsFrom (wrapInt64 (c + 1)) n

/-! ## A small library instance

The theorems below hold for every `Lib`. To evaluate the definitions on concrete
inputs a `Lib` is needed; `demoLib` is a stand-in with the right types (xor with
the key as block cipher, a length-tagged constant as digest). It is used for
evaluation only. -/

/-- Thirty-two copies of one byte. -/
def constKey (b : Byte) : Key32 := ⟨List.replicate 32 b, by simp⟩

/-- A key whose IV half is sixteen bytes `0x11` and whose AES half is sixteen bytes `0x22`. -/
def demoKey : Key32 := ⟨List.replicate 16 0x11 ++ List.replicate 16 0x22, by simp⟩

/-- Stand-in library for evaluating the model on concrete inputs. Its JSON decoders
read the first byte of the payload as the `rid` and return fixed tokens. -/
def demoLib : Lib where
  sha256 := fun l => constKey (byteOfInt l.length)
  hmacSha256 := fun key msg => key ++ msg
  aesEncryptBlock := fun k b => xorBlock b k
  aesDecryptBlock := fun k b => xorBlock b k
  base64Encode := fun l => l
  base64Decode := fun l => some l
  hexDecode := fun s => if s.length % 2 = 0 then some (s.take (s.length / 2)) else none
  hexEncode := fun l => l ++ l
  formatInt := fun n => [byteOfInt n]
  queryEscape := fun s => s
  toLower := fun s => s
  unmarshalSession := fun l =>
    match l with
    | [] => none
    | r :: _ => some { SessionToken := [10, 11], RegainToken := [12], ResponseID := r.val }
  unmarshalDeviceList := fun l =>
    match l with
    | [] => none
    | r :: _ => some { ResponseID := r.val, List := [] }
  unmarshalData := fun l =>
    match l with
    | [] => none
    | r :: _ => some { Data := .nil, Source := [], Typ := [], ResponseID := r.val }
  unmarshalMap := fun l =>
    match l with
    | [] => none
    | _ :: _ => some (some [])
  marshalParam := fun p =>
    match p with
    | .nil => some (lit "null")
    | .string s => some s
    | .value _ => none
  marshalAction := fun a => some [byteOfInt a.RequestId]
  formatMap := fun _ => []

/-! ## Reference implementations of library functions

SHA-256 (FIPS 180-4), HMAC (RFC 2104), lower-case hex, standard base64 (RFC 4648) and
ASCII lower-casing, as executable definitions. They are what the Go library computes for
the fields `sha256`, `hmacSha256`, `hexEncode`, `base64Encode` and (on ASCII strings)
`toLower` of a `Lib`; theorems that need a concrete digest or encoding assume that the
field equals the definition here. -/

/-- The low eight bits of a natural number as a byte. -/
def byteOfNat (n : Nat) : Byte := ⟨n % 256, Nat.mod_lt _ (by decide)⟩

/-- Rotation of a 32-bit word to the right. -/
def rotr32 (x n : Nat) : Nat := ((x >>> n) ||| (x <<< (32 - n))) % 2 ^ 32

/-- The SHA-256 function `Ch`. -/
def shaCh (x y z : Nat) : Nat := (x &&& y) ^^^ ((x ^^^ 0xffffffff) &&& z)

/-- The SHA-256 function `Maj`. -/
def shaMaj (x y z : Nat) : Nat := (x &&& y) ^^^ (x &&& z) ^^^ (y &&& z)

/-- The SHA-256 function capital sigma 0. -/
def bigSigma0 (x : Nat) : Nat := rotr32 x 2 ^^^ rotr32 x 13 ^^^ rotr32 x 22

/-- The SHA-256 function capital sigma 1. -/
def bigSigma1 (x : Nat) : Nat := rotr32 x 6 ^^^ rotr32 x 11 ^^^ rotr32 x 25

/-- The SHA-256 function small sigma 0. -/
def smallSigma0 (x : Nat) : Nat := rotr32 x 7 ^^^ rotr32 x 18 ^^^ (x >>> 3)

/-- The SHA-256 function small sigma 1. -/
def smallSigma1 (x : Nat) : Nat := rotr32 x 17 ^^^ rotr32 x 19 ^^^ (x >>> 10)

/-- The sixty-four round constants of SHA-256. -/
def shaK : List Nat :=
  [0x428a2f98, 0x71374491, 0xb5c0fbcf, 0xe9b5dba5, 0x3956c25b, 0x59f111f1, 0x923f82a4, 0xab1c5ed5,
   0xd807aa98, 0x12835b01, 0x243185be, 0x550c7dc3, 0x72be5d74, 0x80deb1fe, 0x9bdc06a7, 0xc19bf174,
   0xe49b69c1, 0xefbe4786, 0x0fc19dc6, 0x240ca1cc, 0x2de92c6f, 0x4a7484aa, 0x5cb0a9dc, 0x76f988da,
   0x983e5152, 0xa831c66d, 0xb00327c8, 0xbf597fc7, 0xc6e00bf3, 0xd5a79147, 0x06ca6351, 0x14292967,
   0x27b70a85, 0x2e1b2138, 0x4d2c6dfc, 0x53380d13, 0x650a7354, 0x766a0abb, 0x81c2c92e, 0x92722c85,
   0xa2bfe8a1, 0xa81a664b, 0xc24b8b70, 0xc76c51a3, 0xd192e819, 0xd6990624, 0xf40e3585, 0x106aa070,
   0x19a4c116, 0x1e376c08, 0x2748774c, 0x34b0bcb5, 0x391c0cb3, 0x4ed8aa4a, 0x5b9cca4f, 0x682e6ff3,
   0x748f82ee, 0x78a5636f, 0x84c87814, 0x8cc70208, 0x90befffa, 0xa4506ceb, 0xbef9a3f7, 0xc67178f2]

/-- The eight 32-bit working variables of SHA-256. -/
structure ShaState where
  a : Nat
  b : Nat
  c : Nat
  d : Nat
  e : Nat
  f : Nat
  g : Nat
  h : Nat

/-- The initial hash value of SHA-256. -/
def shaInit : ShaState :=
  { a := 0x6a09e667, b := 0xbb67ae85, c := 0x3c6ef372, d := 0xa54ff53a,
    e := 0x510e527f, f := 0x9b05688c, g := 0x1f83d9ab, h := 0x5be0cd19 }

/-- SHA-256 padding: the byte `0x80`, zero bytes up to 56 modulo 64, and the bit length
as eight big-endian bytes. -/
def shaPad (msg : List Byte) : List Byte :=
  msg ++ [(0x80 : Byte)] ++ List.replicate ((55 + 64 - msg.length % 64) % 64) (0 : Byte) ++
    List.map (fun i : Nat => byteOfNat ((8 * msg.length) >>> (8 * i))) [7, 6, 5, 4, 3, 2, 1, 0]

/-- The first `n` big-endian 32-bit words of a byte sequence. -/
def shaWords : Nat → List Byte → List Nat
  | n + 1, a :: b :: c :: d :: rest =>
    (a.val <<< 24 ||| b.val <<< 16 ||| c.val <<< 8 ||| d.val) :: shaWords n rest
  | _, _ => []

/-- The message schedule: `n` more words appended to the words so far. -/
def shaExtend : Nat → List Nat → List Nat
  | 0, w => w
  | n + 1, w =>
    shaExtend n (w ++ [(smallSigma1 (w.getD (w.length - 2) 0) + w.getD (w.length - 7) 0 +
      smallSigma0 (w.getD (w.length - 15) 0) + w.getD (w.length - 16) 0) % 2 ^ 32])

/-- One round of the SHA-256 compression function, with round constant and schedule word. -/
def shaRound (s : ShaState) (kw : Nat × Nat) : ShaState :=
  let t1 := s.h + bigSigma1 s.e + shaCh s.e s.f s.g + kw.1 + kw.2
  let t2 := bigSigma0 s.a + shaMaj s.a s.b s.c
  { a := (t1 + t2) % 2 ^ 32, b := s.a, c := s.b, d := s.c,
    e := (s.d + t1) % 2 ^ 32, f := s.e, g := s.f, h := s.g }

/-- The SHA-256 compression function on one 64-byte block. -/
def shaCompress (s : ShaState) (block : List Byte) : ShaState :=
  let r := (List.zip shaK (shaExtend 48 (shaWords 16 block))).foldl shaRound s
  { a := (s.a + r.a) % 2 ^ 32, b := (s.b + r.b) % 2 ^ 32, c := (s.c + r.c) % 2 ^ 32,
    d := (s.d + r.d) % 2 ^ 32, e := (s.e + r.e) % 2 ^ 32, f := (s.f + r.f) % 2 ^ 32,
    g := (s.g + r.g) % 2 ^ 32, h := (s.h + r.h) % 2 ^ 32 }

/-- Compression of the first `n` 64-byte blocks of a byte sequence. -/
def shaBlocks : Nat → List Byte → ShaState → ShaState
  | 0, _, s => s
  | n + 1, l, s => shaBlocks n (l.drop 64) (shaCompress s (l.take 64))

/-- The four big-endian bytes of a 32-bit word. -/
def wordBytes (x : Nat) : List Byte :=
  [byteOfNat (x >>> 24), byteOfNat (x >>> 16), byteOfNat (x >>> 8), byteOfNat x]

/-- The 32-byte digest of a final state. -/
def ShaState.digest (s : ShaState) : Key32 :=
  ⟨wordBytes s.a ++ wordBytes s.b ++ wordBytes s.c ++ wordBytes s.d ++
   wordBytes s.e ++ wordBytes s.f ++ wordBytes s.g ++ wordBytes s.h, rfl⟩

/-- SHA-256 of a byte sequence (FIPS 180-4). -/
def sha256 (msg : List Byte) : Key32 :=
  (shaBlocks ((shaPad msg).length / 64) (shaPad msg) shaInit).digest

/-- HMAC-SHA256 (RFC 2104) of `msg` under `key`. -/
def hmacSha256 (key msg : List Byte) : List Byte :=
  let k0 := if 64 < key.length then (sha256 key).val else key
  let k := k0 ++ List.replicate (64 - k0.length) (0 : Byte)
  (sha256 (k.map (fun b => xorByte b 0x5c) ++
    (sha256 (k.map (fun b => xorByte b 0x36) ++ msg)).val)).val

/-- The lower-case hexadecimal digit of a value below sixteen. -/
def hexDigit (n : Nat) : Byte := if n < 10 then byteOfNat (48 + n) else byteOfNat (87 + n)

/-- Lower-case hexadecimal encoding, two digits per byte: Go `%x` of a byte slice. -/
def hexLower : List Byte → Str
  | [] => []
  | b :: bs => hexDigit (b.val / 16) :: hexDigit (b.val % 16) :: hexLower bs

/-- A byte is one of the characters `0-9a-f`. -/
def isLowerHex (c : Byte) : Bool :=
  (decide (48 ≤ c.val) && decide (c.val ≤ 57)) || (decide (97 ≤ c.val) && decide (c.val ≤ 102))

/-- The alphabet of standard base64. -/
def b64Alphabet : Str := lit "ABCDEFGHIJKLMNOPQRSTUVWXYZabcdefghijklmnopqrstuvwxyz0123456789+/"

/-- The base64 character of a six-bit value. -/
def b64Char (n : Nat) : Byte := b64Alphabet.getD n 0

/-- Standard base64 encoding with `=` padding (RFC 4648). -/
def base64Std : List Byte → Str
  | [] => []
  | [a] => [b64Char (a.val / 4), b64Char (a.val % 4 * 16), 61, 61]
  | [a, b] =>
    [b64Char (a.val / 4), b64Char (a.val % 4 * 16 + b.val / 16), b64Char (b.val % 16 * 4), 61]
  | a :: b :: c :: rest =>
    b64Char (a.val / 4) :: b64Char (a.val % 4 * 16 + b.val / 16) ::
      b64Char (b.val % 16 * 4 + c.val / 64) :: b64Char (c.val % 64) :: base64Std rest

/-- Lower-casing of the ASCII letters `A-Z`: Go `strings.ToLower` on an ASCII string. -/
def asciiLower (s : Str) : Str :=
  s.map fun b => if 65 ≤ b.val ∧ b.val ≤ 90 then byteOfNat (b.val + 32) else b

/-- The library with the digest, the MAC, the hex and base64 encoders and the lower-casing
taken from the reference implementations, and the decimal rendering of `formatInt`; the
other fields are the stand-ins of `demoLib`. -/
def goLib : Lib :=
  { demoLib with
    sha256 := sha256
    hmacSha256 := hmacSha256
    hexEncode := hexLower
    base64Encode := base64Std
    toLower := asciiLower
    formatInt := fun n => lit (toString n) }

/-- The digest asserted by `TestCreateSecret` (crypto_test.go). -/
def goldenSecret : List Byte :=
  [0xee, 0x06, 0xc8, 0x31, 0x92, 0xf3, 0xc0, 0x33, 0x27, 0xfd, 0x93, 0x0, 0x10,
   0xe8, 0x8f, 0x21, 0x3c, 0x21, 0x10, 0x51, 0x44, 0xe8, 0x6a, 0x64, 0x15, 0xfc,
   0x3c, 0xff, 0x2d, 0xf0, 0x1e, 0x57]

/-- A `[32]byte` of zeros, the zero value of the type. -/
def zeroKey : Key32 := ⟨List.replicate 32 0, by simp⟩

/-- A connected client with distinct keys in all four key fields. -/
def demoClient : jDownloaderClient :=
  { connected := true
    email := lit "a@b"
    counter := 0
    appKey := appName
    loginSecret := demoKey
    deviceSecret := constKey 4
    serverEncryptionToken := constKey 3
    deviceEncryptionToken := constKey 5
    timeout := 15 * 10 ^ 9
    sessionToken := [1, 2]
    regainToken := [3]
    configHash := []
    lastCall := 0
    endpoint := apiEndpoint
    afterCallFn := false }

/-- The client `demoClient` with the connection flag off. -/
def demoDisconnected : jDownloaderClient := { demoClient with connected := false }

/-- A device. -/
def demoDevice : jDevice := { id := [7], name := [8], status := [9] }

/-- The world before any request. -/
def emptyWorld : World := { dispatched := [], afterCalls := [], events := [] }

/-- A transport answering every request with status 200 and the given body. -/
def replyWith (body : List Byte) : Transport := fun _ _ => .response 200 body

/-- A transport answering the first request with `first` and every later one with `later`. -/
def replyFirstThen (first later : Reply) : Transport := fun history _ =>
  match history with
  | [] => first
  | _ :: _ => later

/-- The bytes `b, 15, ..., 15`: under `demoLib` the encryption of the one-byte payload `b`
with the key `constKey 3`. -/
def demoBody (b : Byte) : List Byte := b :: List.replicate 15 15

/-- The bytes `b, 60, ..., 60`: under `demoLib` the encryption of the one-byte payload
`b xor 0x33` with the key `demoKey`. -/
def demoBodyLogin (b : Byte) : List Byte := b :: List.replicate 15 60

/-- A device-scoped call on `demoClient` (connected, `lastCall = 0`) at 29 seconds. -/
def demoFirstCall : Run DataResponse :=
  demoDevice.doDevice demoLib (replyWith (demoBody 1)) demoClient emptyWorld
    (29 * 10 ^ 9) (29 * 10 ^ 9) (lit "/x") false []

/-- A second device-scoped call after `demoFirstCall`, at time `t`. -/
def demoSecondCall (t : Int) : Run DataResponse :=
  demoDevice.doDevice demoLib (replyWith (demoBody 1)) demoFirstCall.client
    demoFirstCall.world t t (lit "/x") false []

/-- A client fresh from `NewClient` at time 0 with empty credentials and no options. -/
def demoFresh : jDownloaderClient := NewClient demoLib 0 [] [] []

/-- A client fresh from `NewClient` with the reference library and the credentials of
`TestCreateSecret`. -/
def goFresh : jDownloaderClient := NewClient goLib 0 (lit "test@acme.tld") (lit "123456") []

/-- A transport answering every request with the given reply. -/
def replyAll (r : Reply) : Transport := fun _ _ => r

/-- A transport on which every call of the HTTP client fails. -/
def failingTransport : Transport := fun _ _ => .failed

/-- The ids `nextRid` returned during a sequence of calls on the client `j`, oldest
first; the trace starts empty. -/
def idsOfRun (lib : Lib) (T : Transport) (j : jDownloaderClient) (calls : List Call) :
    List Int :=
  issuedRids (runCalls lib T j emptyWorld calls).2.events

/-- Between the state `(j, w)` and the later state `(j2, w2)` of a run the ids issued
are the ones successive `nextRid` calls return from the counter of `j`, and the counter
of `j2` is the last of them (the counter of `j` when there is none). -/
def IssuedBetween (j : jDownloaderClient) (w : World) (j2 : jDownloaderClient) (w2 : World) :
    Prop :=
  ∃ n, issuedRids w2.events = issuedRids w.events ++ ridsFrom j.counter n ∧
    j2.counter = (ridsFrom j.counter n).getLastD j.counter

/-- In the trace of `w` the transport lock is free at the end, no session field was
assigned while it was held, and every call of the HTTP client was made while it was
held. -/
def LockDiscipline (w : World) : Prop :=
  lockHeld false w.events = false ∧ writesUnderLock false w.events = [] ∧
    transportsOutsideLock false w.events = 0

/-! ## Theorems -/

theorem xorByte_cancel (a b : Byte) : xorByte (xorByte a b) b = a := by
  apply Fin.ext
  have hx : a.val ^^^ b.val < 2 ^ 8 := Nat.xor_lt_two_pow a.isLt b.isLt
  have hx' : a.val ^^^ b.val < 256 := hx
  show ((a.val ^^^ b.val) % 256 ^^^ b.val) % 256 = a.val
  rw [Nat.mod_eq_of_lt hx', Nat.xor_assoc, Nat.xor_self, Nat.xor_zero,
    Nat.mod_eq_of_lt a.isLt]

theorem zipWith_xor_cancel : ∀ (a b : List Byte), a.length = b.length →
    List.zipWith xorByte (List.zipWith xorByte a b) b = a
  | [], [], _ => rfl
  | [], _ :: _, h => by simp at h
  | _ :: _, [], h => by simp at h
  | x :: a, y :: b, h => by
    simp only [List.zipWith_cons_cons, xorByte_cancel]
    rw [zipWith_xor_cancel a b (by simpa using h)]

theorem xorBlock_cancel (a b : Block) : xorBlock (xorBlock a b) b = a := by
  apply Subtype.ext
  exact zipWith_xor_cancel a.val b.val (by rw [a.property, b.property])

theorem cbc_roundtrip (enc dec : Block → Block) (h : ∀ b, dec (enc b) = b) :
    ∀ (ps : List Block) (iv : Block),
      cbcDecryptBlocks dec iv (cbcEncryptBlocks enc iv ps) = ps
  | [], _ => rfl
  | p :: ps, iv => by
    simp only [cbcEncryptBlocks, cbcDecryptBlocks, h, xorBlock_cancel]
    rw [cbc_roundtrip enc dec h ps]

theorem cbcEncryptBlocks_length (enc : Block → Block) :
    ∀ (ps : List Block) (iv : Block), (cbcEncryptBlocks enc iv ps).length = ps.length
  | [], _ => rfl
  | p :: ps, iv => by
    simp only [cbcEncryptBlocks, List.length_cons]
    rw [cbcEncryptBlocks_length enc ps]

theorem ofBlocks_length : ∀ bs : List Block, (ofBlocks bs).length = 16 * bs.length
  | [] => rfl
  | b :: bs => by
    simp only [ofBlocks, List.length_append, List.length_cons, b.property, ofBlocks_length bs]
    omega

theorem toBlocksAux_ofBlocks : ∀ (bs : List Block) (rest : List Byte),
    toBlocksAux bs.length (ofBlocks bs ++ rest) = bs
  | [], _ => rfl
  | b :: bs, rest => by
    have htake : (b.val ++ ofBlocks bs ++ rest).take 16 = b.val := by
      rw [List.append_assoc, List.take_left' b.property]
    have hdrop : (b.val ++ ofBlocks bs ++ rest).drop 16 = ofBlocks bs ++ rest := by
      rw [List.append_assoc, List.drop_left' b.property]
    simp only [List.length_cons, toBlocksAux, ofBlocks, htake, hdrop, b.property,
      dite_true, toBlocksAux_ofBlocks bs rest]

theorem toBlocks_ofBlocks (bs : List Block) : toBlocks (ofBlocks bs) = bs := by
  have h := toBlocksAux_ofBlocks bs []
  rw [List.append_nil] at h
  unfold toBlocks
  rw [ofBlocks_length, Nat.mul_div_cancel_left _ (by decide : 0 < 16)]
  exact h

theorem ofBlocks_toBlocksAux : ∀ (n : Nat) (l : List Byte), l.length = 16 * n →
    ofBlocks (toBlocksAux n l) = l
  | 0, l, h => by
    have : l = [] := List.length_eq_zero.mp (by omega)
    subst this; rfl
  | n + 1, l, h => by
    have htake : (l.take 16).length = 16 := by rw [List.length_take]; omega
    have hdrop : (l.drop 16).length = 16 * n := by rw [List.length_drop]; omega
    simp only [toBlocksAux, htake, dite_true, ofBlocks, ofBlocks_toBlocksAux n _ hdrop,
      List.take_append_drop]

theorem ofBlocks_toBlocks (l : List Byte) (h : l.length % 16 = 0) :
    ofBlocks (toBlocks l) = l := by
  unfold toBlocks
  exact ofBlocks_toBlocksAux _ l (by omega)

theorem wrapInt64_of_range (v : Int) (h0 : -(2 ^ 63) ≤ v) (h1 : v < 2 ^ 63) : wrapInt64 v = v := by
  unfold wrapInt64
  omega

theorem byteOfInt_val (p : Nat) (h : p < 256) : (byteOfInt (p : Int)).val = p := by
  simp only [byteOfInt]
  omega

theorem padPKCS7_pos (x : List Byte) (b : Nat) (hb : 0 < b) (hb' : b < 2 ^ 63) :
    padPKCS7 x (b : Int) =
      .ok (x ++ List.replicate (b - x.length % b) (byteOfInt ((b - x.length % b : Nat) : Int))) := by
  have hmod : x.length % b < b := Nat.mod_lt _ hb
  have hcast : ((b : Int) - Int.tmod (x.length : Int) (b : Int)) = ((b - x.length % b : Nat) : Int) := by
    rw [← Int.ofNat_tmod]
    omega
  have hne : (b : Int) ≠ 0 := by omega
  unfold padPKCS7
  rw [if_neg hne, hcast]
  rw [wrapInt64_of_range _ (by omega) (by omega)]
  simp only [Int.toNat_ofNat]
  rw [if_neg (by omega)]

theorem trimPKCS5_append_replicate (x : List Byte) (p : Nat) (h1 : 1 ≤ p) (h2 : p < 256) :
    trimPKCS5 (x ++ List.replicate p (byteOfInt (p : Int))) = .ok x := by
  have hlast : (x ++ List.replicate p (byteOfInt (p : Int))).getLast? = some (byteOfInt (p : Int)) := by
    rw [List.getLast?_append, List.getLast?_replicate, if_neg (by omega)]
    rfl
  unfold trimPKCS5
  rw [hlast]
  simp only [byteOfInt_val p h2, List.length_append, List.length_replicate]
  rw [if_pos (by omega), Nat.add_sub_cancel, List.take_left]

theorem aesNewCipher_hi (k : Key32) :
    aesNewCipher k.hi = .ok ⟨k.hi, by simp [Key32.hi, k.property]⟩ := by
  have h : k.hi.length = 16 := by simp [Key32.hi, k.property]
  unfold aesNewCipher
  rw [dif_pos h]

theorem encrypt_eq (lib : Lib) (x : List Byte) (k : Key32) :
    encrypt lib x k = .ok (ofBlocks (cbcEncryptBlocks
      (lib.aesEncryptBlock ⟨k.hi, by simp [Key32.hi, k.property]⟩) k.lo
      (toBlocks (x ++ List.replicate (16 - x.length % 16)
        (byteOfInt ((16 - x.length % 16 : Nat) : Int)))))) := by
  have hpad := padPKCS7_pos x 16 (by decide) (by decide)
  have hlen : (x ++ List.replicate (16 - x.length % 16)
      (byteOfInt ((16 - x.length % 16 : Nat) : Int))).length % 16 = 0 := by
    rw [List.length_append, List.length_replicate]
    omega
  unfold encrypt
  rw [aesNewCipher_hi]
  simp only [Nat.cast_ofNat] at hpad
  simp only [bind, Except.bind, hpad, cbcEncrypterCryptBlocks, hlen, ne_eq, not_true_eq_false,
    if_false]

/-- C1: for every byte sequence `x` (the empty one included) and every 32-byte key `k`,
`encrypt x k` succeeds with some ciphertext `c`, `decrypt c k` succeeds and returns exactly
`x`; and `trimPKCS5` undoes `padPKCS7` with block size 16. The block cipher is any pair of
functions where decryption inverts encryption. -/
theorem decrypt_encrypt (lib : Lib) (hlib : lib.AesInverse) (x : List Byte) (k : Key32) :
    (∃ c, encrypt lib x k = .ok c ∧ decrypt lib c k = .ok x) ∧
    (∃ p, padPKCS7 x 16 = .ok p ∧ trimPKCS5 p = .ok x) := by
  have hp1 : 1 ≤ 16 - x.length % 16 := by omega
  have hp2 : 16 - x.length % 16 < 256 := by omega
  have htrim := trimPKCS5_append_replicate x (16 - x.length % 16) hp1 hp2
  have hpad := padPKCS7_pos x 16 (by decide) (by decide)
  simp only [Nat.cast_ofNat] at hpad
  have hlen : (x ++ List.replicate (16 - x.length % 16)
      (byteOfInt ((16 - x.length % 16 : Nat) : Int))).length % 16 = 0 := by
    rw [List.length_append, List.length_replicate]
    omega
  refine ⟨⟨_, encrypt_eq lib x k, ?_⟩, ⟨_, hpad, htrim⟩⟩
  unfold decrypt
  rw [aesNewCipher_hi]
  simp only [bind, Except.bind, cbcDecrypterCryptBlocks, ofBlocks_length, Nat.mul_mod_right,
    ne_eq, not_true_eq_false, if_false, toBlocks_ofBlocks]
  rw [cbc_roundtrip _ _ (hlib _), ofBlocks_toBlocks _ hlen]
  exact htrim

theorem demoLib_aesInverse : demoLib.AesInverse := fun k b => xorBlock_cancel b k

/-- Witness for C1 on the three-byte plaintext `1, 2, 3`. -/
theorem decrypt_encrypt_witness :
    demoLib.AesInverse ∧
    (∃ c, encrypt demoLib [1, 2, 3] demoKey = .ok c ∧
      decrypt demoLib c demoKey = .ok [1, 2, 3]) ∧
    (∃ p, padPKCS7 [1, 2, 3] 16 = .ok p ∧ trimPKCS5 p = .ok [1, 2, 3]) :=
  ⟨demoLib_aesInverse, decrypt_encrypt demoLib demoLib_aesInverse [1, 2, 3] demoKey⟩

/-! ### The server-scoped call -/

theorem lit_POST_ne_GET : lit "POST" ≠ lit "GET" := by decide

theorem doServer_client (lib : Lib) (T : Transport) (j : jDownloaderClient) (w : World)
    (path method : Str) (args : Option (List Str)) (data : Option (List Byte)) (key : Key32) :
    (j.doServer lib T w path method args data key).client =
      { j with counter := wrapInt64 (j.counter + 1) } := rfl

theorem doServer_post (lib : Lib) (T : Transport) (j : jDownloaderClient) (w : World)
    (path : Str) (args : List Str) (data : Option (List Byte)) (key : Key32) :
    j.doServer lib T w path (lit "POST") (some args) data key =
      { result := replyResult lib (T w.dispatched
          { method := .post, url := j.endpoint ++ serverUri lib path args j.nextRid.1 key
            body := data }) key
        client := j.nextRid.2
        world := worldAfter j w
          { method := .post, url := j.endpoint ++ serverUri lib path args j.nextRid.1 key
            body := data } } := by
  simp only [jDownloaderClient.doServer, jDownloaderClient.do_, if_neg lit_POST_ne_GET]
  rfl

theorem doServer_get (lib : Lib) (T : Transport) (j : jDownloaderClient) (w : World)
    (path : Str) (args : List Str) (data : Option (List Byte)) (key : Key32) :
    j.doServer lib T w path (lit "GET") (some args) data key =
      { result := replyResult lib (T w.dispatched
          { method := .get, url := j.endpoint ++ serverUri lib path args j.nextRid.1 key
            body := none }) key
        client := j.nextRid.2
        world := worldAfter j w
          { method := .get, url := j.endpoint ++ serverUri lib path args j.nextRid.1 key
            body := none } } := by
  simp only [jDownloaderClient.doServer, jDownloaderClient.do_, if_pos]
  rfl

theorem Connect_eq (lib : Lib) (T : Transport) (j : jDownloaderClient) (w : World) :
    j.Connect lib T w =
      match replyResult lib (T w.dispatched (connectRequest lib j)) j.loginSecret with
      | .error (.error e) =>
        { result := .error (.error (.wrap "API doServer failed" e)), client := connectSent j
          world := worldAfter j (connectWorld w) (connectRequest lib j) }
      | .error (.panic m) =>
        { result := .error (.panic m), client := connectSent j
          world := worldAfter j (connectWorld w) (connectRequest lib j) }
      | .ok data =>
        acceptSession lib (connectSent j) (worldAfter j (connectWorld w) (connectRequest lib j))
          data := by
  unfold jDownloaderClient.Connect
  simp only [doServer_post]
  rfl

theorem Reconnect_eq (lib : Lib) (T : Transport) (j : jDownloaderClient) (w : World) :
    j.Reconnect lib T w =
      match replyResult lib (T w.dispatched (reconnectRequest lib j)) j.serverEncryptionToken with
      | .error f =>
        { result := .error f, client := j.nextRid.2
          world := worldAfter j w (reconnectRequest lib j) }
      | .ok data => acceptSession lib j.nextRid.2 (worldAfter j w (reconnectRequest lib j)) data := by
  unfold jDownloaderClient.Reconnect
  simp only [doServer_get]
  rfl

theorem Disconnect_eq (lib : Lib) (T : Transport) (j : jDownloaderClient) (w : World) :
    j.Disconnect lib T w =
      match replyResult lib (T w.dispatched (disconnectRequest lib j)) j.serverEncryptionToken with
      | .error f =>
        { result := .error f, client := j.nextRid.2
          world := worldAfter j w (disconnectRequest lib j) }
      | .ok _ =>
        { result := .ok (), client := j.nextRid.2
          world := worldAfter j w (disconnectRequest lib j) } := by
  unfold jDownloaderClient.Disconnect
  simp only [doServer_post]
  rfl

theorem doWorld_dispatched (j : jDownloaderClient) (w : World) (req : Request) :
    (doWorld j w req).dispatched = w.dispatched ++ [req] := by
  unfold doWorld jDownloaderClient.onApiDone
  split <;> rfl

theorem worldAfter_dispatched (j : jDownloaderClient) (w : World) (req : Request) :
    (worldAfter j w req).dispatched = w.dispatched ++ [req] :=
  doWorld_dispatched j _ req

theorem replyResult_ok (lib : Lib) (body : List Byte) (key : Key32) :
    replyResult lib (.response 200 body) key = decode lib body key := by
  simp [replyResult]

/-! ### Connect -/

theorem Connect_accept (lib : Lib) (T : Transport) (j : jDownloaderClient) (w : World)
    (body data t : List Byte) (s : sessionInfo)
    (hT : T w.dispatched (connectRequest lib j) = .response 200 body)
    (hdec : decode lib body j.loginSecret = .ok data)
    (hjson : lib.unmarshalSession data = some s)
    (hrid : s.ResponseID = j.nextRid.1)
    (hhex : lib.hexDecode s.SessionToken = some t) :
    j.Connect lib T w =
      { result := .ok ()
        client := { connectSent j with
          sessionToken := s.SessionToken
          regainToken := s.RegainToken
          serverEncryptionToken := lib.sha256 (j.loginSecret.val ++ t)
          deviceEncryptionToken := lib.sha256 (j.deviceSecret.val ++ t)
          connected := true }
        world := (worldAfter j (connectWorld w) (connectRequest lib j)).log
          [.write .sessionToken, .write .regainToken, .write .serverEncryptionToken,
            .write .deviceEncryptionToken] } := by
  have hc : (connectSent j).counter = s.ResponseID := by rw [hrid]; rfl
  rw [Connect_eq, hT, replyResult_ok, hdec]
  simp only [acceptSession, hjson, hc, ne_eq, not_true_eq_false, if_false, hhex]
  rfl

/-- C2: if the connect exchange returns (status 200) a payload that decodes under
`loginSecret` to a session whose rid is the rid embedded in the request and whose session
token is valid hex with bytes `t`, then `Connect` returns nil, the tokens are the payload's,
`serverEncryptionToken = SHA-256(loginSecret ++ t)`,
`deviceEncryptionToken = SHA-256(deviceSecret ++ t)` and `IsConnected()` is true, whatever
keys, tokens and connection flag the client held before; the one request dispatched is
the connect request, signed with `loginSecret`. -/
theorem Connect_success (lib : Lib) (T : Transport) (j : jDownloaderClient) (w : World)
    (body data t : List Byte) (s : sessionInfo)
    (hT : T w.dispatched (connectRequest lib j) = .response 200 body)
    (hdec : decode lib body j.loginSecret = .ok data)
    (hjson : lib.unmarshalSession data = some s)
    (hrid : s.ResponseID = j.nextRid.1)
    (hhex : lib.hexDecode s.SessionToken = some t) :
    (j.Connect lib T w).result = .ok () ∧
    (j.Connect lib T w).client.sessionToken = s.SessionToken ∧
    (j.Connect lib T w).client.regainToken = s.RegainToken ∧
    (j.Connect lib T w).client.serverEncryptionToken = lib.sha256 (j.loginSecret.val ++ t) ∧
    (j.Connect lib T w).client.deviceEncryptionToken = lib.sha256 (j.deviceSecret.val ++ t) ∧
    (j.Connect lib T w).client.IsConnected = true ∧
    (j.Connect lib T w).world.dispatched = w.dispatched ++ [connectRequest lib j] := by
  rw [Connect_accept lib T j w body data t s hT hdec hjson hrid hhex]
  exact ⟨rfl, rfl, rfl, rfl, rfl, rfl, worldAfter_dispatched _ _ _⟩

/-- Witness for C2: a connected client holding arbitrary keys, and a reply carrying rid 1. -/
theorem Connect_success_witness :
    (demoClient.Connect demoLib (replyWith (demoBodyLogin 50)) emptyWorld).result = .ok () ∧
    (demoClient.Connect demoLib (replyWith (demoBodyLogin 50)) emptyWorld).client.sessionToken
      = [10, 11] ∧
    (demoClient.Connect demoLib (replyWith (demoBodyLogin 50)) emptyWorld).client.regainToken
      = [12] ∧
    (demoClient.Connect demoLib (replyWith (demoBodyLogin 50)) emptyWorld).client.serverEncryptionToken
      = demoLib.sha256 (demoKey.val ++ [10]) ∧
    (demoClient.Connect demoLib (replyWith (demoBodyLogin 50)) emptyWorld).client.deviceEncryptionToken
      = demoLib.sha256 ((constKey 4).val ++ [10]) ∧
    (demoClient.Connect demoLib (replyWith (demoBodyLogin 50)) emptyWorld).client.IsConnected
      = true ∧
    (demoClient.Connect demoLib (replyWith (demoBodyLogin 50)) emptyWorld).world.dispatched
      = emptyWorld.dispatched ++ [connectRequest demoLib demoClient] :=
  Connect_success demoLib (replyWith (demoBodyLogin 50)) demoClient emptyWorld
    (demoBodyLogin 50) [1] [10] { SessionToken := [10, 11], RegainToken := [12], ResponseID := 1 }
    rfl (by decide) rfl (by decide) rfl

theorem acceptSession_error_connected (lib : Lib) (c : jDownloaderClient) (w : World)
    (data : List Byte) (f : Failure) (h : (acceptSession lib c w data).result = .error f) :
    (acceptSession lib c w data).client = c := by
  cases hs : lib.unmarshalSession data with
  | none => simp only [acceptSession, hs]
  | some s =>
    by_cases hr : c.counter = s.ResponseID
    · cases ht : lib.hexDecode s.SessionToken with
      | none => simp only [acceptSession, hs, hr, ht, ne_eq, not_true_eq_false, if_false]
      | some t =>
        simp only [acceptSession, hs, hr, ht, ne_eq, not_true_eq_false, if_false] at h
        cases h
    · simp only [acceptSession, hs, hr, ne_eq, not_false_eq_true, if_true]

theorem acceptSession_mismatch (lib : Lib) (c : jDownloaderClient) (w : World)
    (data : List Byte) (s : sessionInfo) (hjson : lib.unmarshalSession data = some s)
    (hrid : s.ResponseID ≠ c.counter) :
    acceptSession lib c w data =
      { result := .error (.error (.mismatchedRid c.counter s.ResponseID)), client := c
        world := w } := by
  have hne : c.counter ≠ s.ResponseID := fun h => hrid h.symm
  simp only [acceptSession, hjson, hne, ne_eq, not_false_eq_true, if_true]

/-- C3: whenever `Connect` does not return nil (it returns an error, or panics),
`IsConnected()` is false afterwards, whatever the flag was before; in particular a connect
response whose rid differs from the rid of the request makes `Connect` fail with the
mismatch error and leaves the client disconnected. -/
theorem Connect_failure_disconnected (lib : Lib) (T : Transport) (j : jDownloaderClient)
    (w : World) :
    (∀ f, (j.Connect lib T w).result = .error f →
      (j.Connect lib T w).client.IsConnected = false) ∧
    (∀ (body data : List Byte) (s : sessionInfo),
      T w.dispatched (connectRequest lib j) = .response 200 body →
      decode lib body j.loginSecret = .ok data →
      lib.unmarshalSession data = some s →
      s.ResponseID ≠ j.nextRid.1 →
      (j.Connect lib T w).result = .error (.error (.mismatchedRid j.nextRid.1 s.ResponseID)) ∧
      (j.Connect lib T w).client.IsConnected = false) := by
  constructor
  · intro f hf
    rw [Connect_eq] at hf ⊢
    split at hf
    · rename_i e he
      simp only [he]; rfl
    · rename_i m hm
      simp only [hm]; rfl
    · rename_i data hd
      rw [acceptSession_error_connected lib _ _ data f hf]
      rfl
  · intro body data s hT hdec hjson hrid
    rw [Connect_eq, hT, replyResult_ok, hdec]
    show (acceptSession lib (connectSent j) _ data).result = _ ∧
      (acceptSession lib (connectSent j) _ data).client.IsConnected = false
    rw [acceptSession_mismatch lib _ _ data s hjson hrid]
    exact ⟨rfl, rfl⟩

/-- Witness for C3: a connected client receives a connect reply with rid 9 for request 1. -/
theorem Connect_failure_disconnected_witness :
    (demoClient.Connect demoLib (replyWith (demoBodyLogin 58)) emptyWorld).result =
      .error (.error (.mismatchedRid 1 9)) ∧
    demoClient.IsConnected = true ∧
    (demoClient.Connect demoLib (replyWith (demoBodyLogin 58)) emptyWorld).client.IsConnected
      = false :=
  ⟨((Connect_failure_disconnected demoLib (replyWith (demoBodyLogin 58)) demoClient
      emptyWorld).2 (demoBodyLogin 58) [9]
      { SessionToken := [10, 11], RegainToken := [12], ResponseID := 9 }
      rfl (by decide) rfl (by decide)).1,
   rfl,
   (Connect_failure_disconnected demoLib (replyWith (demoBodyLogin 58)) demoClient
      emptyWorld).1 (.error (.mismatchedRid 1 9))
      ((Connect_failure_disconnected demoLib (replyWith (demoBodyLogin 58)) demoClient
        emptyWorld).2 (demoBodyLogin 58) [9]
        { SessionToken := [10, 11], RegainToken := [12], ResponseID := 9 }
        rfl (by decide) rfl (by decide)).1⟩

/-! ### Reconnect -/

/-- C4: `Reconnect` signs its request with the server key held before the call and decodes
the reply with it; if the reply (status 200) decodes under that key to a session carrying
the rid of the request and a valid hex session token with bytes `t`, then `Reconnect`
returns nil, the tokens are the reply's, each key lineage is rolled from its own prior
value, `SHA-256(serverEncryptionToken ++ t)` and `SHA-256(deviceEncryptionToken ++ t)`,
and `IsConnected()` is true. -/
theorem Reconnect_success (lib : Lib) (T : Transport) (j : jDownloaderClient) (w : World)
    (body data t : List Byte) (s : sessionInfo)
    (hT : T w.dispatched (reconnectRequest lib j) = .response 200 body)
    (hdec : decode lib body j.serverEncryptionToken = .ok data)
    (hjson : lib.unmarshalSession data = some s)
    (hrid : s.ResponseID = j.nextRid.1)
    (hhex : lib.hexDecode s.SessionToken = some t) :
    (j.Reconnect lib T w).result = .ok () ∧
    (j.Reconnect lib T w).client.sessionToken = s.SessionToken ∧
    (j.Reconnect lib T w).client.regainToken = s.RegainToken ∧
    (j.Reconnect lib T w).client.serverEncryptionToken =
      lib.sha256 (j.serverEncryptionToken.val ++ t) ∧
    (j.Reconnect lib T w).client.deviceEncryptionToken =
      lib.sha256 (j.deviceEncryptionToken.val ++ t) ∧
    (j.Reconnect lib T w).client.IsConnected = true ∧
    (j.Reconnect lib T w).world.dispatched = w.dispatched ++ [reconnectRequest lib j] ∧
    (∃ u, (reconnectRequest lib j).url =
      j.endpoint ++ (u ++ lit "&signature=" ++ sign lib u j.serverEncryptionToken.val)) := by
  have hc : (j.nextRid.2).counter = s.ResponseID := by rw [hrid]; rfl
  rw [Reconnect_eq, hT, replyResult_ok, hdec]
  simp only [acceptSession, hjson, hc, ne_eq, not_true_eq_false, if_false, hhex]
  refine ⟨?_, ?_, ?_, ?_, ?_, ?_, worldAfter_dispatched _ _ _, ⟨_, rfl⟩⟩ <;> trivial

/-- Witness for C4: the server key `constKey 3` differs from `loginSecret`. -/
theorem Reconnect_success_witness :
    (demoClient.Reconnect demoLib (replyWith (demoBody 1)) emptyWorld).result = .ok () ∧
    (demoClient.Reconnect demoLib (replyWith (demoBody 1)) emptyWorld).client.serverEncryptionToken
      = demoLib.sha256 ((constKey 3).val ++ [10]) ∧
    (demoClient.Reconnect demoLib (replyWith (demoBody 1)) emptyWorld).client.deviceEncryptionToken
      = demoLib.sha256 ((constKey 5).val ++ [10]) ∧
    (demoClient.Reconnect demoLib (replyWith (demoBody 1)) emptyWorld).client.IsConnected
      = true :=
  have h := Reconnect_success demoLib (replyWith (demoBody 1)) demoClient emptyWorld
    (demoBody 1) [1] [10] { SessionToken := [10, 11], RegainToken := [12], ResponseID := 1 }
    rfl (by decide) rfl (by decide) rfl
  ⟨h.1, h.2.2.2.1, h.2.2.2.2.1, h.2.2.2.2.2.1⟩

theorem Reconnect_mismatch_eq (lib : Lib) (T : Transport) (j : jDownloaderClient) (w : World)
    (body data : List Byte) (s : sessionInfo)
    (hT : T w.dispatched (reconnectRequest lib j) = .response 200 body)
    (hdec : decode lib body j.serverEncryptionToken = .ok data)
    (hjson : lib.unmarshalSession data = some s)
    (hrid : s.ResponseID ≠ j.nextRid.1) :
    j.Reconnect lib T w =
      { result := .error (.error (.mismatchedRid j.nextRid.1 s.ResponseID))
        client := j.nextRid.2
        world := worldAfter j w (reconnectRequest lib j) } := by
  rw [Reconnect_eq, hT, replyResult_ok, hdec]
  exact acceptSession_mismatch lib _ _ data s hjson hrid

/-- C5 on the code: a connected client whose reconnect reply (status 200, decodable under
the server key) carries rid 9 for request 1 gets the mismatch error from `Reconnect`, and
`IsConnected()` is still true afterwards: `Reconnect` has no `j.connected = false`, the
assignment `Connect` makes before its exchange. -/
theorem Reconnect_mismatch_not_disconnected :
    demoClient.IsConnected = true ∧
    decode demoLib (demoBody 9) demoClient.serverEncryptionToken = .ok [9] ∧
    (demoLib.unmarshalSession [9]).map (fun s => s.ResponseID) = some 9 ∧
    demoClient.nextRid.1 = 1 ∧
    (demoClient.Reconnect demoLib (replyWith (demoBody 9)) emptyWorld).result =
      .error (.error (.mismatchedRid 1 9)) ∧
    (demoClient.Reconnect demoLib (replyWith (demoBody 9)) emptyWorld).client.IsConnected
      = true := by
  have h := Reconnect_mismatch_eq demoLib (replyWith (demoBody 9)) demoClient emptyWorld
    (demoBody 9) [9] { SessionToken := [10, 11], RegainToken := [12], ResponseID := 9 }
    rfl (by decide) rfl (by decide)
  refine ⟨rfl, by decide, rfl, by decide, ?_, ?_⟩
  · rw [h]; rfl
  · rw [h]; rfl

/-! ### Disconnect -/

theorem Disconnect_client (lib : Lib) (T : Transport) (j : jDownloaderClient) (w : World) :
    (j.Disconnect lib T w).client = j.nextRid.2 := by
  rw [Disconnect_eq]
  split <;> rfl

theorem Disconnect_ok (lib : Lib) (T : Transport) (j : jDownloaderClient) (w : World)
    (body data : List Byte)
    (hT : T w.dispatched (disconnectRequest lib j) = .response 200 body)
    (hdec : decode lib body j.serverEncryptionToken = .ok data) :
    (j.Disconnect lib T w).result = .ok () := by
  rw [Disconnect_eq, hT, replyResult_ok, hdec]

/-- C6 on the code: `Disconnect` on a connected client, with an exchange that succeeds
(status 200, decodable body), returns nil and `IsConnected()` is still true. -/
theorem Disconnect_leaves_connected :
    demoClient.IsConnected = true ∧
    (demoClient.Disconnect demoLib (replyWith (demoBody 1)) emptyWorld).result = .ok () ∧
    (demoClient.Disconnect demoLib (replyWith (demoBody 1)) emptyWorld).client.IsConnected
      = true := by
  refine ⟨rfl, ?_, ?_⟩
  · exact Disconnect_ok demoLib _ demoClient emptyWorld (demoBody 1) [1] rfl (by decide)
  · rw [Disconnect_client]; rfl

/-- C7: `Disconnect`, whatever the outcome of its exchange, leaves `sessionToken`,
`regainToken`, `serverEncryptionToken` and `deviceEncryptionToken` as they were; the
client afterwards is the client before with only the request counter changed, by the
`int64` increment, which is `counter + 1` below the largest `int64`. -/
theorem Disconnect_frame (lib : Lib) (T : Transport) (j : jDownloaderClient) (w : World) :
    (j.Disconnect lib T w).client = { j with counter := wrapInt64 (j.counter + 1) } ∧
    (j.Disconnect lib T w).client.sessionToken = j.sessionToken ∧
    (j.Disconnect lib T w).client.regainToken = j.regainToken ∧
    (j.Disconnect lib T w).client.serverEncryptionToken = j.serverEncryptionToken ∧
    (j.Disconnect lib T w).client.deviceEncryptionToken = j.deviceEncryptionToken ∧
    (minInt64 ≤ j.counter → j.counter < maxInt64 →
      (j.Disconnect lib T w).client.counter = j.counter + 1) := by
  rw [Disconnect_client]
  refine ⟨rfl, rfl, rfl, rfl, rfl, ?_⟩
  intro h0 h1
  show wrapInt64 (j.counter + 1) = j.counter + 1
  unfold minInt64 at h0
  unfold maxInt64 at h1
  exact wrapInt64_of_range _ (by omega) (by omega)

/-- Witness for C7: an exchange that fails (the empty body cannot be decrypted). -/
theorem Disconnect_frame_witness :
    (demoClient.Disconnect demoLib (replyWith []) emptyWorld).client.counter = 0 + 1 :=
  (Disconnect_frame demoLib (replyWith []) demoClient emptyWorld).2.2.2.2.2
    (by decide) (by decide)

theorem acceptSession_counter (lib : Lib) (c : jDownloaderClient) (w : World)
    (data : List Byte) : (acceptSession lib c w data).client.counter = c.counter := by
  unfold acceptSession
  split
  · rfl
  · split
    · rfl
    · split <;> rfl

theorem acceptSession_dispatched (lib : Lib) (c : jDownloaderClient) (w : World)
    (data : List Byte) : (acceptSession lib c w data).world.dispatched = w.dispatched := by
  unfold acceptSession
  split
  · rfl
  · split
    · rfl
    · split <;> rfl

theorem acceptSession_lastCall (lib : Lib) (c : jDownloaderClient) (w : World)
    (data : List Byte) : (acceptSession lib c w data).client.lastCall = c.lastCall := by
  unfold acceptSession
  split
  · rfl
  · split
    · rfl
    · split <;> rfl

theorem Connect_counter (lib : Lib) (T : Transport) (j : jDownloaderClient) (w : World) :
    (j.Connect lib T w).client.counter = j.nextRid.1 := by
  rw [Connect_eq]
  split
  · rfl
  · rfl
  · exact acceptSession_counter lib _ _ _

theorem Connect_lastCall (lib : Lib) (T : Transport) (j : jDownloaderClient) (w : World) :
    (j.Connect lib T w).client.lastCall = j.lastCall := by
  rw [Connect_eq]
  split
  · rfl
  · rfl
  · exact acceptSession_lastCall lib _ _ _

theorem Connect_dispatched (lib : Lib) (T : Transport) (j : jDownloaderClient) (w : World) :
    (j.Connect lib T w).world.dispatched = w.dispatched ++ [connectRequest lib j] := by
  rw [Connect_eq]
  split
  · exact worldAfter_dispatched _ _ _
  · exact worldAfter_dispatched _ _ _
  · rw [acceptSession_dispatched]
    exact worldAfter_dispatched _ _ _

/-! ### Request ids -/

theorem wrapInt64_succ (x : Int) : wrapInt64 (wrapInt64 x + 1) = wrapInt64 (x + 1) := by
  unfold wrapInt64
  omega

theorem foldl_apply_counter : ∀ (opts : List ClientOption) (c : jDownloaderClient),
    (opts.foldl (fun c o => o.apply c) c).counter = c.counter
  | [], _ => rfl
  | o :: os, c => by
    rw [List.foldl_cons, foldl_apply_counter os]
    cases o <;> rfl

theorem NewClient_counter (lib : Lib) (now : Int) (email password : Str)
    (opts : List ClientOption) : (NewClient lib now email password opts).counter = 0 :=
  (foldl_apply_counter opts _).trans rfl

/-! ### The trace of a call -/

theorem doWorld_events (j : jDownloaderClient) (w : World) (req : Request) :
    (doWorld j w req).events = w.events ++ [.lock, .transport, .unlock] := by
  unfold doWorld jDownloaderClient.onApiDone
  split <;> rfl

theorem worldAfter_events (j : jDownloaderClient) (w : World) (req : Request) :
    (worldAfter j w req).events =
      w.events ++ [.rid j.nextRid.1, .lock, .transport, .unlock] := by
  unfold worldAfter
  rw [doWorld_events]
  show (w.events ++ [Event.rid j.nextRid.1]) ++ _ = _
  rw [List.append_assoc]
  rfl

theorem do_events (lib : Lib) (T : Transport) (j : jDownloaderClient) (w : World)
    (path method : Str) (data : Option (List Byte)) (key : Key32) :
    (j.do_ lib T w path method data key).2.events =
      w.events ++ [.lock, .transport, .unlock] := by
  cases h : j.afterCallFn <;>
    simp [jDownloaderClient.do_, jDownloaderClient.onApiDone, World.log, h]

theorem doServer_events (lib : Lib) (T : Transport) (j : jDownloaderClient) (w : World)
    (path method : Str) (args : Option (List Str)) (data : Option (List Byte)) (key : Key32) :
    (j.doServer lib T w path method args data key).world.events =
      w.events ++ [.rid j.nextRid.1, .lock, .transport, .unlock] := by
  unfold jDownloaderClient.doServer
  simp only [do_events]
  show (w.events ++ [Event.rid j.nextRid.1]) ++ _ = _
  rw [List.append_assoc]
  rfl

theorem acceptSession_events_error (lib : Lib) (c : jDownloaderClient) (w : World)
    (data : List Byte) (f : Failure) (h : (acceptSession lib c w data).result = .error f) :
    (acceptSession lib c w data).world.events = w.events := by
  cases hs : lib.unmarshalSession data with
  | none => simp only [acceptSession, hs]
  | some s =>
    by_cases hr : c.counter = s.ResponseID
    · cases ht : lib.hexDecode s.SessionToken with
      | none => simp only [acceptSession, hs, hr, ht, ne_eq, not_true_eq_false, if_false]
      | some t =>
        simp only [acceptSession, hs, hr, ht, ne_eq, not_true_eq_false, if_false] at h
        cases h
    · simp only [acceptSession, hs, hr, ne_eq, not_false_eq_true, if_true]

theorem acceptSession_events_ok (lib : Lib) (c : jDownloaderClient) (w : World)
    (data : List Byte) (u : Unit) (h : (acceptSession lib c w data).result = .ok u) :
    (acceptSession lib c w data).world.events = w.events ++ sessionWrites := by
  cases hs : lib.unmarshalSession data with
  | none => simp [acceptSession, hs] at h
  | some s =>
    by_cases hr : c.counter = s.ResponseID
    · cases ht : lib.hexDecode s.SessionToken with
      | none => simp [acceptSession, hs, hr, ht] at h
      | some t =>
        simp only [acceptSession, hs, hr, ht, ne_eq, not_true_eq_false, if_false]
        rfl
    · simp [acceptSession, hs, hr] at h

theorem connectWorld_events (j : jDownloaderClient) (w : World) (req : Request) :
    (worldAfter j (connectWorld w) req).events =
      w.events ++ [.write .serverEncryptionToken, .write .deviceEncryptionToken,
        .rid j.nextRid.1, .lock, .transport, .unlock] := by
  rw [worldAfter_events]
  show (w.events ++ [Event.write .serverEncryptionToken, .write .deviceEncryptionToken]) ++ _ = _
  rw [List.append_assoc]
  rfl

theorem Connect_events_error (lib : Lib) (T : Transport) (j : jDownloaderClient) (w : World)
    (f : Failure) (h : (j.Connect lib T w).result = .error f) :
    (j.Connect lib T w).world.events =
      w.events ++ [.write .serverEncryptionToken, .write .deviceEncryptionToken,
        .rid j.nextRid.1, .lock, .transport, .unlock] := by
  rw [Connect_eq] at h ⊢
  split at h
  · rename_i e he
    simp only [he]
    exact connectWorld_events j w _
  · rename_i m hm
    simp only [hm]
    exact connectWorld_events j w _
  · rw [acceptSession_events_error lib _ _ _ f h]
    exact connectWorld_events j w _

theorem Connect_events_ok (lib : Lib) (T : Transport) (j : jDownloaderClient) (w : World)
    (u : Unit) (h : (j.Connect lib T w).result = .ok u) :
    (j.Connect lib T w).world.events =
      w.events ++ [.write .serverEncryptionToken, .write .deviceEncryptionToken,
        .rid j.nextRid.1, .lock, .transport, .unlock, .write .sessionToken,
        .write .regainToken, .write .serverEncryptionToken, .write .deviceEncryptionToken] := by
  rw [Connect_eq] at h ⊢
  split at h
  · cases h
  · cases h
  · rw [acceptSession_events_ok lib _ _ _ u h, connectWorld_events, List.append_assoc]
    rfl

theorem Reconnect_events_error (lib : Lib) (T : Transport) (j : jDownloaderClient)
    (w : World) (f : Failure) (h : (j.Reconnect lib T w).result = .error f) :
    (j.Reconnect lib T w).world.events =
      w.events ++ [.rid j.nextRid.1, .lock, .transport, .unlock] := by
  rw [Reconnect_eq] at h ⊢
  split at h
  · rename_i f' hf'
    simp only [hf']
    exact worldAfter_events j w _
  · rw [acceptSession_events_error lib _ _ _ f h]
    exact worldAfter_events j w _

theorem Reconnect_events_ok (lib : Lib) (T : Transport) (j : jDownloaderClient) (w : World)
    (u : Unit) (h : (j.Reconnect lib T w).result = .ok u) :
    (j.Reconnect lib T w).world.events =
      w.events ++ [.rid j.nextRid.1, .lock, .transport, .unlock, .write .sessionToken,
        .write .regainToken, .write .serverEncryptionToken, .write .deviceEncryptionToken] := by
  rw [Reconnect_eq] at h ⊢
  split at h
  · cases h
  · rw [acceptSession_events_ok lib _ _ _ u h, worldAfter_events, List.append_assoc]
    rfl

theorem Disconnect_events (lib : Lib) (T : Transport) (j : jDownloaderClient) (w : World) :
    (j.Disconnect lib T w).world.events =
      w.events ++ [.rid j.nextRid.1, .lock, .transport, .unlock] := by
  rw [Disconnect_eq]
  split <;> exact worldAfter_events j w _

/-! ### The reconnect policy -/

theorem timeSub_le_iff (t u : Int) : timeSub t u ≤ 30 * 10 ^ 9 ↔ t - u ≤ 30 * 10 ^ 9 := by
  unfold timeSub minInt64 maxInt64
  omega

theorem moreThan30Seconds_timeSub (t u : Int) :
    moreThan30Seconds (timeSub t u) = decide (30 * 10 ^ 9 < t - u) := by
  unfold moreThan30Seconds
  have h := timeSub_le_iff t u
  by_cases hlt : 30 * 10 ^ 9 < t - u
  · rw [decide_eq_true hlt, decide_eq_true (by omega)]
  · rw [decide_eq_false hlt, decide_eq_false (by omega)]

/-- C9: `reconnectIfNecessary` with clock readings `nowCheck` (in the condition) and
`nowSet` (stored): if the client is connected and `nowCheck - lastCall` is at most 30
seconds, it returns nil and changes neither the client nor the world (no request, same
`lastCall`, same counter); otherwise (not connected, or strictly more than 30 seconds) it
sets `lastCall` to `nowSet` and is exactly one call of `Connect` (not `Reconnect`), whose
result it returns: one request is dispatched, the connect request. Times are
nanoseconds. -/
theorem reconnectIfNecessary_spec (lib : Lib) (T : Transport) (j : jDownloaderClient)
    (w : World) (nowCheck nowSet : Int) :
    (j.connected = true → nowCheck - j.lastCall ≤ 30 * 10 ^ 9 →
      j.reconnectIfNecessary lib T w nowCheck nowSet =
        { result := .ok (), client := j, world := w }) ∧
    ((j.connected = false ∨ 30 * 10 ^ 9 < nowCheck - j.lastCall) →
      j.reconnectIfNecessary lib T w nowCheck nowSet =
        { j with lastCall := nowSet }.Connect lib T w ∧
      (j.reconnectIfNecessary lib T w nowCheck nowSet).client.lastCall = nowSet ∧
      (j.reconnectIfNecessary lib T w nowCheck nowSet).world.dispatched =
        w.dispatched ++ [connectRequest lib j]) := by
  constructor
  · intro hc ht
    unfold jDownloaderClient.reconnectIfNecessary
    rw [moreThan30Seconds_timeSub, hc, decide_eq_false (by omega)]
    rfl
  · intro h
    have heq : j.reconnectIfNecessary lib T w nowCheck nowSet =
        { j with lastCall := nowSet }.Connect lib T w := by
      unfold jDownloaderClient.reconnectIfNecessary
      rw [moreThan30Seconds_timeSub]
      rcases h with h | h
      · rw [h]; rfl
      · rw [decide_eq_true h, Bool.or_true]; rfl
    rw [heq]
    exact ⟨rfl, Connect_lastCall lib T _ w, Connect_dispatched lib T _ w⟩

/-- Witness for C9: a connected client checked exactly 30 seconds after `lastCall` is left
alone; checked one nanosecond later it connects and stores the new reading. -/
theorem reconnectIfNecessary_spec_witness :
    demoClient.reconnectIfNecessary demoLib (replyWith []) emptyWorld (30 * 10 ^ 9) 7 =
      { result := .ok (), client := demoClient, world := emptyWorld } ∧
    (demoClient.reconnectIfNecessary demoLib (replyWith []) emptyWorld (30 * 10 ^ 9 + 1)
      (30 * 10 ^ 9 + 2)).client.lastCall = 30 * 10 ^ 9 + 2 :=
  ⟨(reconnectIfNecessary_spec demoLib (replyWith []) demoClient emptyWorld (30 * 10 ^ 9) 7).1
      rfl (by decide),
   ((reconnectIfNecessary_spec demoLib (replyWith []) demoClient emptyWorld
      (30 * 10 ^ 9 + 1) (30 * 10 ^ 9 + 2)).2 (Or.inr (by decide))).2.1⟩

/-! ### The device-scoped call -/

theorem do_post (lib : Lib) (T : Transport) (j : jDownloaderClient) (w : World)
    (path : Str) (data : Option (List Byte)) (key : Key32) :
    j.do_ lib T w path (lit "POST") data key =
      (replyResult lib (T w.dispatched
          { method := .post, url := j.endpoint ++ path, body := data }) key,
        doWorld j w { method := .post, url := j.endpoint ++ path, body := data }) := by
  simp only [jDownloaderClient.do_, if_neg lit_POST_ne_GET]
  rfl

theorem nextRid_fst (c : jDownloaderClient) : c.nextRid.1 = wrapInt64 (c.counter + 1) := rfl

theorem nextRid_snd_counter (c : jDownloaderClient) :
    c.nextRid.2.counter = wrapInt64 (c.counter + 1) := rfl

theorem encrypt_ok (lib : Lib) (x : List Byte) (k : Key32) : ∃ c, encrypt lib x k = .ok c :=
  ⟨_, encrypt_eq lib x k⟩

theorem reconnectIfNecessary_disconnected (lib : Lib) (T : Transport)
    (j : jDownloaderClient) (w : World) (nowCheck nowSet : Int) (hdis : j.connected = false) :
    j.reconnectIfNecessary lib T w nowCheck nowSet =
      { j with lastCall := nowSet }.Connect lib T w := by
  unfold jDownloaderClient.reconnectIfNecessary
  rw [hdis]
  rfl

/-- C10: a device-scoped call issued while the client is disconnected runs exactly one
`Connect` before the device request is built. If that `Connect` fails, `doDevice` returns
its failure, the only request dispatched is the connect request, and the counter has
advanced only by the rid of `Connect`. If it succeeds (and the parameters and the
envelope serialise), exactly two requests are dispatched, the connect request and then
the device request; the device request carries the session token produced by that
`Connect` in its path and the envelope encrypted with the device key produced by it, and
the envelope rid is the `int64` successor of the rid of the connect request (one
greater, below the largest `int64`). -/
theorem doDevice_disconnected (lib : Lib) (T : Transport) (d : jDevice)
    (j : jDownloaderClient) (w : World) (nowCheck nowSet : Int) (action : Str)
    (marshal : Bool) (params : List Iface) (hdis : j.connected = false) :
    (∀ f, ({ j with lastCall := nowSet }.Connect lib T w).result = .error f →
      (d.doDevice lib T j w nowCheck nowSet action marshal params).result = .error f ∧
      (d.doDevice lib T j w nowCheck nowSet action marshal params).world.dispatched =
        w.dispatched ++ [connectRequest lib j] ∧
      (d.doDevice lib T j w nowCheck nowSet action marshal params).client.counter =
        j.nextRid.1) ∧
    (({ j with lastCall := nowSet }.Connect lib T w).result = .ok () →
      ∀ (p : Option (List Iface)) (plaintext : List Byte),
      serializeParams lib marshal params = .ok p →
      lib.marshalAction
        { Url := action, Params := p, RequestId := wrapInt64 (j.nextRid.1 + 1), ApiVersion := 1 }
        = some plaintext →
      ∃ ciphertext,
        encrypt lib plaintext
          ({ j with lastCall := nowSet }.Connect lib T w).client.deviceEncryptionToken
          = .ok ciphertext ∧
        (d.doDevice lib T j w nowCheck nowSet action marshal params).world.dispatched =
          w.dispatched ++ [connectRequest lib j,
            deviceRequest lib d ({ j with lastCall := nowSet }.Connect lib T w).client action
              (lib.base64Encode ciphertext)] ∧
        (d.doDevice lib T j w nowCheck nowSet action marshal params).client.counter =
          wrapInt64 (j.nextRid.1 + 1) ∧
        (minInt64 ≤ j.counter → j.counter + 1 < maxInt64 →
          wrapInt64 (j.nextRid.1 + 1) = j.nextRid.1 + 1)) := by
  have hre := reconnectIfNecessary_disconnected lib T j w nowCheck nowSet hdis
  have hcnt : (jDownloaderClient.Connect lib T { j with lastCall := nowSet } w).client.counter =
      j.nextRid.1 := Connect_counter lib T { j with lastCall := nowSet } w
  have hdisp : (jDownloaderClient.Connect lib T { j with lastCall := nowSet } w).world.dispatched =
      w.dispatched ++ [connectRequest lib j] :=
    Connect_dispatched lib T { j with lastCall := nowSet } w
  constructor
  · intro f hf
    unfold jDevice.doDevice
    simp only [hre, hf]
    exact ⟨trivial, hdisp, hcnt⟩
  · intro hok p plaintext hser hmar
    obtain ⟨ciphertext, henc⟩ := encrypt_ok lib plaintext
      ({ j with lastCall := nowSet }.Connect lib T w).client.deviceEncryptionToken
    have hn : (({ j with lastCall := nowSet }.Connect lib T w).client.nextRid).1 =
        wrapInt64 (j.nextRid.1 + 1) := by
      rw [nextRid_fst (jDownloaderClient.Connect lib T { j with lastCall := nowSet } w).client,
        hcnt]
    have henc' : encrypt lib plaintext
        (({ j with lastCall := nowSet }.Connect lib T w).client.nextRid).2.deviceEncryptionToken
        = .ok ciphertext := henc
    refine ⟨ciphertext, henc, ?_, ?_, ?_⟩
    · unfold jDevice.doDevice
      simp only [hre, hok, hser, hn, hmar, henc', do_post]
      have hw : ∀ (c : jDownloaderClient) (es : List Event),
          (doWorld c (({ j with lastCall := nowSet }.Connect lib T w).world.log es)
          (deviceRequest lib d ({ j with lastCall := nowSet }.Connect lib T w).client action
            (lib.base64Encode ciphertext))).dispatched =
          w.dispatched ++ [connectRequest lib j,
            deviceRequest lib d ({ j with lastCall := nowSet }.Connect lib T w).client action
              (lib.base64Encode ciphertext)] := by
        intro c es
        rw [doWorld_dispatched]
        show ({ j with lastCall := nowSet }.Connect lib T w).world.dispatched ++ _ = _
        rw [hdisp, List.append_assoc]
        rfl
      split
      · exact hw _ _
      · split
        · exact hw _ _
        · exact hw _ _
    · unfold jDevice.doDevice
      simp only [hre, hok, hser, hn, hmar, henc', do_post]
      have hc : (({ j with lastCall := nowSet }.Connect lib T w).client.nextRid).2.counter =
          wrapInt64 (j.nextRid.1 + 1) := by
        rw [nextRid_snd_counter
          (jDownloaderClient.Connect lib T { j with lastCall := nowSet } w).client, hcnt]
      split
      · exact hc
      · split
        · exact hc
        · exact hc
    · intro h0 h1
      have hn : j.nextRid.1 = j.counter + 1 := by
        show wrapInt64 (j.counter + 1) = j.counter + 1
        unfold minInt64 at h0
        unfold maxInt64 at h1
        exact wrapInt64_of_range _ (by omega) (by omega)
      rw [hn]
      unfold minInt64 at h0
      unfold maxInt64 at h1
      exact wrapInt64_of_range _ (by omega) (by omega)

theorem demoDisconnected_Connect_ok :
    (jDownloaderClient.Connect demoLib (replyWith (demoBodyLogin 50))
      { demoDisconnected with lastCall := 5 } emptyWorld).result = .ok () := by
  rw [Connect_accept demoLib (replyWith (demoBodyLogin 50)) { demoDisconnected with lastCall := 5 }
    emptyWorld (demoBodyLogin 50) [1] [10]
    { SessionToken := [10, 11], RegainToken := [12], ResponseID := 1 }
    rfl (by decide) rfl (by decide) rfl]

/-- Witness for C10: a disconnected client whose `Connect` succeeds with rid 1; the
device envelope then carries rid 2. -/
theorem doDevice_disconnected_witness :
    ∃ ciphertext,
      encrypt demoLib [2]
        (jDownloaderClient.Connect demoLib (replyWith (demoBodyLogin 50))
          { demoDisconnected with lastCall := 5 } emptyWorld).client.deviceEncryptionToken
        = .ok ciphertext ∧
      (demoDevice.doDevice demoLib (replyWith (demoBodyLogin 50)) demoDisconnected emptyWorld
        0 5 (lit "/x") false []).world.dispatched =
        emptyWorld.dispatched ++ [connectRequest demoLib demoDisconnected,
          deviceRequest demoLib demoDevice
            (jDownloaderClient.Connect demoLib (replyWith (demoBodyLogin 50))
              { demoDisconnected with lastCall := 5 } emptyWorld).client (lit "/x")
            (demoLib.base64Encode ciphertext)] ∧
      (demoDevice.doDevice demoLib (replyWith (demoBodyLogin 50)) demoDisconnected emptyWorld
        0 5 (lit "/x") false []).client.counter = wrapInt64 (demoDisconnected.nextRid.1 + 1) ∧
      (minInt64 ≤ demoDisconnected.counter → demoDisconnected.counter + 1 < maxInt64 →
        wrapInt64 (demoDisconnected.nextRid.1 + 1) = demoDisconnected.nextRid.1 + 1) :=
  (doDevice_disconnected demoLib (replyWith (demoBodyLogin 50)) demoDevice demoDisconnected
    emptyWorld 0 5 (lit "/x") false [] rfl).2 demoDisconnected_Connect_ok (some []) [2]
    rfl (by decide)

/-! ### Closed forms of the device-scoped call and of `ListDevices` -/

theorem doDevice_eq (lib : Lib) (T : Transport) (d : jDevice) (j : jDownloaderClient)
    (w : World) (nowCheck nowSet : Int) (action : Str) (marshal : Bool) (params : List Iface) :
    d.doDevice lib T j w nowCheck nowSet action marshal params =
      match (j.reconnectIfNecessary lib T w nowCheck nowSet).result with
      | .error f =>
        { result := .error f, client := (j.reconnectIfNecessary lib T w nowCheck nowSet).client
          world := (j.reconnectIfNecessary lib T w nowCheck nowSet).world }
      | .ok _ =>
        deviceStep lib T d (j.reconnectIfNecessary lib T w nowCheck nowSet).client
          (j.reconnectIfNecessary lib T w nowCheck nowSet).world action marshal params := by
  unfold jDevice.doDevice deviceStep
  simp only [do_post]
  rfl

theorem ListDevices_eq (lib : Lib) (T : Transport) (j : jDownloaderClient) (w : World)
    (nowCheck nowSet : Int) :
    j.ListDevices lib T w nowCheck nowSet =
      match (j.reconnectIfNecessary lib T w nowCheck nowSet).result with
      | .error f =>
        { result := .error f, client := (j.reconnectIfNecessary lib T w nowCheck nowSet).client
          world := (j.reconnectIfNecessary lib T w nowCheck nowSet).world }
      | .ok _ =>
        listStep lib T (j.reconnectIfNecessary lib T w nowCheck nowSet).client
          (j.reconnectIfNecessary lib T w nowCheck nowSet).world := by
  unfold jDownloaderClient.ListDevices listStep
  simp only [doServer_get]
  rfl

theorem deviceStep_client (lib : Lib) (T : Transport) (d : jDevice) (c : jDownloaderClient)
    (w : World) (action : Str) (marshal : Bool) (params : List Iface) :
    (deviceStep lib T d c w action marshal params).client = c ∨
    (deviceStep lib T d c w action marshal params).client = c.nextRid.2 := by
  unfold deviceStep
  split
  · exact Or.inl rfl
  · split
    · exact Or.inr rfl
    · split
      · exact Or.inr rfl
      · split
        · exact Or.inr rfl
        · split <;> exact Or.inr rfl

theorem deviceStep_dispatched (lib : Lib) (T : Transport) (d : jDevice)
    (c : jDownloaderClient) (w : World) (action : Str) (marshal : Bool) (params : List Iface) :
    (deviceStep lib T d c w action marshal params).world.dispatched = w.dispatched ∨
    ∃ payload, (deviceStep lib T d c w action marshal params).world.dispatched =
      w.dispatched ++ [deviceRequest lib d c action payload] := by
  unfold deviceStep
  split
  · exact Or.inl rfl
  · split
    · exact Or.inl rfl
    · split
      · exact Or.inl rfl
      · split
        · exact Or.inr ⟨_, worldAfter_dispatched _ _ _⟩
        · split <;> exact Or.inr ⟨_, worldAfter_dispatched _ _ _⟩

theorem listStep_client (lib : Lib) (T : Transport) (c : jDownloaderClient) (w : World) :
    (listStep lib T c w).client = c.nextRid.2 := by
  unfold listStep
  split
  · rfl
  · split <;> rfl

theorem listStep_dispatched (lib : Lib) (T : Transport) (c : jDownloaderClient) (w : World) :
    (listStep lib T c w).world.dispatched = w.dispatched ++ [listDevicesRequest lib c] := by
  unfold listStep
  split
  · exact worldAfter_dispatched _ _ _
  · split <;> exact worldAfter_dispatched _ _ _

theorem reconnectIfNecessary_fresh (lib : Lib) (T : Transport) (j : jDownloaderClient)
    (w : World) (nowCheck nowSet : Int) (hc : j.connected = true)
    (ht : nowCheck - j.lastCall ≤ 30 * 10 ^ 9) :
    j.reconnectIfNecessary lib T w nowCheck nowSet =
      { result := .ok (), client := j, world := w } := by
  unfold jDownloaderClient.reconnectIfNecessary
  rw [moreThan30Seconds_timeSub, hc, decide_eq_false (by omega)]
  rfl

theorem reconnectIfNecessary_triggered (lib : Lib) (T : Transport) (j : jDownloaderClient)
    (w : World) (nowCheck nowSet : Int)
    (h : j.connected = false ∨ 30 * 10 ^ 9 < nowCheck - j.lastCall) :
    j.reconnectIfNecessary lib T w nowCheck nowSet =
      jDownloaderClient.Connect lib T { j with lastCall := nowSet } w := by
  unfold jDownloaderClient.reconnectIfNecessary
  rw [moreThan30Seconds_timeSub]
  rcases h with h | h
  · rw [h]; rfl
  · rw [decide_eq_true h, Bool.or_true]; rfl

theorem acceptSession_ok_connected (lib : Lib) (c : jDownloaderClient) (w : World)
    (data : List Byte) (u : Unit) (h : (acceptSession lib c w data).result = .ok u) :
    (acceptSession lib c w data).client.connected = true := by
  cases hs : lib.unmarshalSession data with
  | none => simp [acceptSession, hs] at h
  | some s =>
    by_cases hr : c.counter = s.ResponseID
    · cases ht : lib.hexDecode s.SessionToken with
      | none => simp [acceptSession, hs, hr, ht] at h
      | some t => simp only [acceptSession, hs, hr, ht, ne_eq, not_true_eq_false, if_false]
    · simp [acceptSession, hs, hr] at h

theorem Connect_ok_connected (lib : Lib) (T : Transport) (j : jDownloaderClient) (w : World)
    (u : Unit) (h : (j.Connect lib T w).result = .ok u) :
    (j.Connect lib T w).client.connected = true := by
  rw [Connect_eq] at h ⊢
  split at h
  · cases h
  · cases h
  · exact acceptSession_ok_connected lib _ _ _ u h

theorem reconnectIfNecessary_ok_connected (lib : Lib) (T : Transport) (j : jDownloaderClient)
    (w : World) (nowCheck nowSet : Int) (u : Unit)
    (h : (j.reconnectIfNecessary lib T w nowCheck nowSet).result = .ok u) :
    (j.reconnectIfNecessary lib T w nowCheck nowSet).client.connected = true := by
  by_cases hc : j.connected = true ∧ nowCheck - j.lastCall ≤ 30 * 10 ^ 9
  · rw [reconnectIfNecessary_fresh lib T j w nowCheck nowSet hc.1 hc.2]
    exact hc.1
  · have htrig : j.connected = false ∨ 30 * 10 ^ 9 < nowCheck - j.lastCall := by
      by_cases h1 : j.connected = true
      · right
        have : ¬ nowCheck - j.lastCall ≤ 30 * 10 ^ 9 := fun h2 => hc ⟨h1, h2⟩
        omega
      · left
        simpa using h1
    rw [reconnectIfNecessary_triggered lib T j w nowCheck nowSet htrig] at h ⊢
    exact Connect_ok_connected lib T _ w u h

theorem deviceStep_connected (lib : Lib) (T : Transport) (d : jDevice)
    (c : jDownloaderClient) (w : World) (action : Str) (marshal : Bool) (params : List Iface) :
    (deviceStep lib T d c w action marshal params).client.connected = c.connected := by
  rcases deviceStep_client lib T d c w action marshal params with h | h
  · rw [h]
  · rw [h]; rfl

theorem deviceStep_lastCall (lib : Lib) (T : Transport) (d : jDevice)
    (c : jDownloaderClient) (w : World) (action : Str) (marshal : Bool) (params : List Iface) :
    (deviceStep lib T d c w action marshal params).client.lastCall = c.lastCall := by
  rcases deviceStep_client lib T d c w action marshal params with h | h
  · rw [h]
  · rw [h]; rfl

theorem doDevice_fresh (lib : Lib) (T : Transport) (d : jDevice) (j : jDownloaderClient)
    (w : World) (nowCheck nowSet : Int) (action : Str) (marshal : Bool) (params : List Iface)
    (hc : j.connected = true) (ht : nowCheck - j.lastCall ≤ 30 * 10 ^ 9) :
    d.doDevice lib T j w nowCheck nowSet action marshal params =
      deviceStep lib T d j w action marshal params := by
  rw [doDevice_eq, reconnectIfNecessary_fresh lib T j w nowCheck nowSet hc ht]

theorem doDevice_lastCall_triggered (lib : Lib) (T : Transport) (d : jDevice)
    (j : jDownloaderClient) (w : World) (nowCheck nowSet : Int) (action : Str)
    (marshal : Bool) (params : List Iface)
    (h : j.connected = false ∨ 30 * 10 ^ 9 < nowCheck - j.lastCall) :
    (d.doDevice lib T j w nowCheck nowSet action marshal params).client.lastCall = nowSet := by
  have hl : (jDownloaderClient.Connect lib T { j with lastCall := nowSet } w).client.lastCall =
      nowSet := Connect_lastCall lib T { j with lastCall := nowSet } w
  rw [doDevice_eq, reconnectIfNecessary_triggered lib T j w nowCheck nowSet h]
  split
  · exact hl
  · rw [deviceStep_lastCall]
    exact hl

theorem doDevice_triggered_dispatched (lib : Lib) (T : Transport) (d : jDevice)
    (j : jDownloaderClient) (w : World) (nowCheck nowSet : Int) (action : Str)
    (marshal : Bool) (params : List Iface)
    (h : j.connected = false ∨ 30 * 10 ^ 9 < nowCheck - j.lastCall) :
    ∃ rest, (d.doDevice lib T j w nowCheck nowSet action marshal params).world.dispatched =
      w.dispatched ++ connectRequest lib j :: rest := by
  have hd : (jDownloaderClient.Connect lib T { j with lastCall := nowSet } w).world.dispatched =
      w.dispatched ++ [connectRequest lib j] :=
    Connect_dispatched lib T { j with lastCall := nowSet } w
  rw [doDevice_eq, reconnectIfNecessary_triggered lib T j w nowCheck nowSet h]
  split
  · exact ⟨[], hd⟩
  · rcases deviceStep_dispatched lib T d
      (jDownloaderClient.Connect lib T { j with lastCall := nowSet } w).client
      (jDownloaderClient.Connect lib T { j with lastCall := nowSet } w).world
      action marshal params with h1 | ⟨payload, h1⟩
    · exact ⟨[], by rw [h1, hd]⟩
    · exact ⟨[_], by rw [h1, hd, List.append_assoc]; rfl⟩

/-! ### Two device-scoped calls -/

theorem demoFirstCall_connected : demoFirstCall.client.connected = true := by
  unfold demoFirstCall
  rw [doDevice_fresh demoLib (replyWith (demoBody 1)) demoDevice demoClient emptyWorld
    (29 * 10 ^ 9) (29 * 10 ^ 9) (lit "/x") false [] rfl (by decide), deviceStep_connected]
  rfl

theorem demoFirstCall_lastCall : demoFirstCall.client.lastCall = 0 := by
  unfold demoFirstCall
  rw [doDevice_fresh demoLib (replyWith (demoBody 1)) demoDevice demoClient emptyWorld
    (29 * 10 ^ 9) (29 * 10 ^ 9) (lit "/x") false [] rfl (by decide), deviceStep_lastCall]
  rfl

/-- C11, as stated, fails: on a connected client whose `lastCall` is 0 (the time of
construction), a device-scoped call at 29 s completes with the client connected and
leaves `lastCall` at 0; a second device-scoped call at 31 s, two seconds after the first,
finds more than 30 seconds elapsed since `lastCall` and dispatches a connect request
before anything else. -/
theorem second_call_reconnects :
    demoFirstCall.client.connected = true ∧
    demoFirstCall.client.lastCall = 0 ∧
    (31 * 10 ^ 9 - 29 * 10 ^ 9 : Int) < 30 * 10 ^ 9 ∧
    ∃ rest, (demoSecondCall (31 * 10 ^ 9)).world.dispatched =
      demoFirstCall.world.dispatched ++ connectRequest demoLib demoFirstCall.client :: rest := by
  refine ⟨demoFirstCall_connected, demoFirstCall_lastCall, by decide, ?_⟩
  unfold demoSecondCall
  apply doDevice_triggered_dispatched
  right
  rw [demoFirstCall_lastCall]
  decide

/-- C11, amended: for any two device-scoped calls on one client, where the client is
connected when the first one completes and the second is checked at most 30 seconds
after the stored `lastCall`, no `Connect` or `Reconnect` exchange occurs between them:
the second call dispatches nothing but (at most) its own device request. `lastCall` is
the clock reading of the first call only when that call itself ran the `Connect` of the
reconnect policy; a first call on a connected, fresh client leaves `lastCall` as it
was. -/
theorem second_call_no_connect (lib : Lib) (T : Transport) (d1 d2 : jDevice)
    (j : jDownloaderClient) (w : World) (t1c t1s t2c t2s : Int) (a1 a2 : Str)
    (m1 m2 : Bool) (p1 p2 : List Iface) :
    ((d1.doDevice lib T j w t1c t1s a1 m1 p1).client.connected = true →
      t2c - (d1.doDevice lib T j w t1c t1s a1 m1 p1).client.lastCall ≤ 30 * 10 ^ 9 →
      ((d2.doDevice lib T (d1.doDevice lib T j w t1c t1s a1 m1 p1).client
          (d1.doDevice lib T j w t1c t1s a1 m1 p1).world t2c t2s a2 m2 p2).world.dispatched =
        (d1.doDevice lib T j w t1c t1s a1 m1 p1).world.dispatched ∨
       ∃ payload,
        (d2.doDevice lib T (d1.doDevice lib T j w t1c t1s a1 m1 p1).client
          (d1.doDevice lib T j w t1c t1s a1 m1 p1).world t2c t2s a2 m2 p2).world.dispatched =
        (d1.doDevice lib T j w t1c t1s a1 m1 p1).world.dispatched ++
          [deviceRequest lib d2 (d1.doDevice lib T j w t1c t1s a1 m1 p1).client a2 payload])) ∧
    ((j.connected = false ∨ 30 * 10 ^ 9 < t1c - j.lastCall) →
      (d1.doDevice lib T j w t1c t1s a1 m1 p1).client.lastCall = t1s) ∧
    (j.connected = true → t1c - j.lastCall ≤ 30 * 10 ^ 9 →
      (d1.doDevice lib T j w t1c t1s a1 m1 p1).client.lastCall = j.lastCall) := by
  refine ⟨?_, ?_, ?_⟩
  · intro hc ht
    rw [doDevice_fresh lib T d2 _ _ t2c t2s a2 m2 p2 hc ht]
    exact deviceStep_dispatched lib T d2 _ _ a2 m2 p2
  · intro h
    exact doDevice_lastCall_triggered lib T d1 j w t1c t1s a1 m1 p1 h
  · intro hc ht
    rw [doDevice_fresh lib T d1 j w t1c t1s a1 m1 p1 hc ht, deviceStep_lastCall]

/-- Witness for the amended C11: the second call comes at 30 s, exactly 30 seconds
after `lastCall`. -/
theorem second_call_no_connect_witness :
    (demoSecondCall (30 * 10 ^ 9)).world.dispatched = demoFirstCall.world.dispatched ∨
    ∃ payload, (demoSecondCall (30 * 10 ^ 9)).world.dispatched =
      demoFirstCall.world.dispatched ++
        [deviceRequest demoLib demoDevice demoFirstCall.client (lit "/x") payload] :=
  (second_call_no_connect demoLib (replyWith (demoBody 1)) demoDevice demoDevice demoClient
    emptyWorld (29 * 10 ^ 9) (29 * 10 ^ 9) (30 * 10 ^ 9) (30 * 10 ^ 9) (lit "/x") (lit "/x")
    false false [] []).1 demoFirstCall_connected
    (by rw [show (demoDevice.doDevice demoLib (replyWith (demoBody 1)) demoClient emptyWorld
      (29 * 10 ^ 9) (29 * 10 ^ 9) (lit "/x") false []).client.lastCall = 0
      from demoFirstCall_lastCall]; decide)

/-! ### Exchanges and the connection state -/

theorem Connect_error_disconnected (lib : Lib) (T : Transport) (j : jDownloaderClient)
    (w : World) (f : Failure) (h : (j.Connect lib T w).result = .error f) :
    (j.Connect lib T w).client.connected = false := by
  rw [Connect_eq] at h ⊢
  split at h
  · rename_i e he
    simp only [he]; rfl
  · rename_i m hm
    simp only [hm]; rfl
  · rename_i data hd
    rw [acceptSession_error_connected lib _ _ data f h]
    rfl

theorem Reconnect_connected (lib : Lib) (T : Transport) (j : jDownloaderClient) (w : World) :
    (∀ f, (j.Reconnect lib T w).result = .error f →
      (j.Reconnect lib T w).client.connected = j.connected) ∧
    (∀ u, (j.Reconnect lib T w).result = .ok u →
      (j.Reconnect lib T w).client.connected = true) := by
  rw [Reconnect_eq]
  split
  · exact ⟨fun _ _ => rfl, fun u h => by cases h⟩
  · constructor
    · intro f h
      rw [acceptSession_error_connected lib _ _ _ f h]
      rfl
    · intro u h
      exact acceptSession_ok_connected lib _ _ _ u h

theorem demoFresh_Connect :
    demoFresh.Connect demoLib (replyWith (demoBody 1)) emptyWorld =
      { result := .ok ()
        client := { connectSent demoFresh with
          sessionToken := [10, 11]
          regainToken := [12]
          serverEncryptionToken := demoLib.sha256 (demoFresh.loginSecret.val ++ [10])
          deviceEncryptionToken := demoLib.sha256 (demoFresh.deviceSecret.val ++ [10])
          connected := true }
        world := (worldAfter demoFresh (connectWorld emptyWorld)
          (connectRequest demoLib demoFresh)).log
          [.write .sessionToken, .write .regainToken, .write .serverEncryptionToken,
            .write .deviceEncryptionToken] } :=
  Connect_accept demoLib (replyWith (demoBody 1)) demoFresh emptyWorld (demoBody 1) [1] [10]
    { SessionToken := [10, 11], RegainToken := [12], ResponseID := 1 }
    rfl (by decide) rfl (by decide) rfl

/-- C12, as stated, fails: on a client fresh from `NewClient`, which is not connected,
a direct call of `Connect` dispatches its server-scoped exchange while the state is
Disconnected, and its success changes the state to Connected without the reconnect
policy having run. -/
theorem Connect_dispatches_while_disconnected :
    demoFresh.IsConnected = false ∧
    (connectSent demoFresh).IsConnected = false ∧
    (demoFresh.Connect demoLib (replyWith (demoBody 1)) emptyWorld).world.dispatched =
      [connectRequest demoLib demoFresh] ∧
    (demoFresh.Connect demoLib (replyWith (demoBody 1)) emptyWorld).result = .ok () ∧
    (demoFresh.Connect demoLib (replyWith (demoBody 1)) emptyWorld).client.IsConnected
      = true := by
  rw [demoFresh_Connect]
  refine ⟨by decide, rfl, ?_, rfl, rfl⟩
  exact worldAfter_dispatched _ _ _

/-- C12, amended: the exchange of a device-scoped call and the exchange of `ListDevices`
are dispatched only after the reconnect policy has returned nil, and then the connection
state is Connected; when the policy fails nothing further is dispatched. The exchanges of
`Connect`, `Reconnect` and `Disconnect` are dispatched whatever the state. The state
becomes Connected exactly when `Connect` (called directly or by the policy) succeeds, or
`Reconnect` succeeds; `Disconnect`, the device exchange and the `ListDevices` exchange
leave the flag as it is. -/
theorem exchanges_and_connection_state (lib : Lib) (T : Transport) (d : jDevice)
    (j : jDownloaderClient) (w : World) (nowCheck nowSet : Int) (action : Str)
    (marshal : Bool) (params : List Iface) :
    (∀ u, (j.reconnectIfNecessary lib T w nowCheck nowSet).result = .ok u →
      (j.reconnectIfNecessary lib T w nowCheck nowSet).client.connected = true ∧
      d.doDevice lib T j w nowCheck nowSet action marshal params =
        deviceStep lib T d (j.reconnectIfNecessary lib T w nowCheck nowSet).client
          (j.reconnectIfNecessary lib T w nowCheck nowSet).world action marshal params ∧
      j.ListDevices lib T w nowCheck nowSet =
        listStep lib T (j.reconnectIfNecessary lib T w nowCheck nowSet).client
          (j.reconnectIfNecessary lib T w nowCheck nowSet).world) ∧
    (∀ f, (j.reconnectIfNecessary lib T w nowCheck nowSet).result = .error f →
      (d.doDevice lib T j w nowCheck nowSet action marshal params).world =
        (j.reconnectIfNecessary lib T w nowCheck nowSet).world ∧
      (j.ListDevices lib T w nowCheck nowSet).world =
        (j.reconnectIfNecessary lib T w nowCheck nowSet).world) ∧
    (deviceStep lib T d j w action marshal params).client.connected = j.connected ∧
    (listStep lib T j w).client.connected = j.connected ∧
    (j.Disconnect lib T w).client.connected = j.connected ∧
    (j.Connect lib T w).world.dispatched = w.dispatched ++ [connectRequest lib j] ∧
    (j.Reconnect lib T w).world.dispatched = w.dispatched ++ [reconnectRequest lib j] ∧
    (j.Disconnect lib T w).world.dispatched = w.dispatched ++ [disconnectRequest lib j] ∧
    ((j.Connect lib T w).client.connected = true ↔ (j.Connect lib T w).result = .ok ()) ∧
    (j.connected = false →
      ((j.Reconnect lib T w).client.connected = true ↔
        (j.Reconnect lib T w).result = .ok ())) := by
  refine ⟨?_, ?_, deviceStep_connected lib T d j w action marshal params, ?_, ?_,
    Connect_dispatched lib T j w, ?_, ?_, ?_, ?_⟩
  · intro u hu
    refine ⟨reconnectIfNecessary_ok_connected lib T j w nowCheck nowSet u hu, ?_, ?_⟩
    · rw [doDevice_eq]
      simp only [hu]
    · rw [ListDevices_eq]
      simp only [hu]
  · intro f hf
    constructor
    · rw [doDevice_eq]
      simp only [hf]
    · rw [ListDevices_eq]
      simp only [hf]
  · rw [listStep_client]; rfl
  · rw [Disconnect_client]; rfl
  · rw [Reconnect_eq]
    split
    · exact worldAfter_dispatched _ _ _
    · rw [acceptSession_dispatched]
      exact worldAfter_dispatched _ _ _
  · rw [Disconnect_eq]
    split <;> exact worldAfter_dispatched _ _ _
  · constructor
    · intro hc
      cases hr : (j.Connect lib T w).result with
      | error f =>
        rw [Connect_error_disconnected lib T j w f hr] at hc
        cases hc
      | ok u => rfl
    · intro hr
      exact Connect_ok_connected lib T j w () hr
  · intro hdis
    constructor
    · intro hc
      cases hr : (j.Reconnect lib T w).result with
      | error f =>
        rw [(Reconnect_connected lib T j w).1 f hr, hdis] at hc
        cases hc
      | ok u => rfl
    · intro hr
      exact (Reconnect_connected lib T j w).2 () hr

/-- Witness for the amended C12: a connected, fresh client; the policy returns nil and
the device call is the device step from a connected state. -/
theorem exchanges_and_connection_state_witness :
    (demoClient.reconnectIfNecessary demoLib (replyWith (demoBody 1)) emptyWorld 5 5).client.connected
      = true ∧
    demoDevice.doDevice demoLib (replyWith (demoBody 1)) demoClient emptyWorld 5 5 (lit "/x")
      false [] =
      deviceStep demoLib (replyWith (demoBody 1)) demoDevice
        (demoClient.reconnectIfNecessary demoLib (replyWith (demoBody 1)) emptyWorld 5 5).client
        (demoClient.reconnectIfNecessary demoLib (replyWith (demoBody 1)) emptyWorld 5 5).world
        (lit "/x") false [] ∧
    demoClient.ListDevices demoLib (replyWith (demoBody 1)) emptyWorld 5 5 =
      listStep demoLib (replyWith (demoBody 1))
        (demoClient.reconnectIfNecessary demoLib (replyWith (demoBody 1)) emptyWorld 5 5).client
        (demoClient.reconnectIfNecessary demoLib (replyWith (demoBody 1)) emptyWorld 5 5).world :=
  (exchanges_and_connection_state demoLib (replyWith (demoBody 1)) demoDevice demoClient
    emptyWorld 5 5 (lit "/x") false []).1 ()
    (by rw [reconnectIfNecessary_fresh demoLib (replyWith (demoBody 1)) demoClient emptyWorld
      5 5 rfl (by decide)])

/-! ### The completion callback -/

theorem do_afterCalls (lib : Lib) (T : Transport) (j : jDownloaderClient) (w : World)
    (path method : Str) (data : Option (List Byte)) (key : Key32) :
    (j.do_ lib T w path method data key).2.afterCalls =
      if j.afterCallFn then w.afterCalls ++ [none] else w.afterCalls := by
  cases h : j.afterCallFn <;>
    simp [jDownloaderClient.do_, jDownloaderClient.onApiDone, World.log, h]

/-- C13 on the code: with a completion callback configured, a call of `do` whose HTTP
request fails returns the transport error, and the callback is invoked once, with nil
as its error argument. -/
theorem callback_receives_nil_on_failure :
    ({ demoClient with afterCallFn := true }.do_ demoLib failingTransport emptyWorld
      (lit "/x") (lit "GET") none demoKey).1 = .error (.error .transport) ∧
    ({ demoClient with afterCallFn := true }.do_ demoLib failingTransport emptyWorld
      (lit "/x") (lit "GET") none demoKey).2.afterCalls = [none] := by
  constructor
  · rfl
  · rw [do_afterCalls]
    rfl

/-! ### The reference digest and encoders -/

theorem sha256_golden :
    (sha256 (lit "test@acme.tld" ++ lit "123456" ++ lit "something")).val = goldenSecret := by
  decide

theorem asciiLower_Test : asciiLower (lit "Test@Acme.tld") = lit "test@acme.tld" := by decide

theorem asciiLower_test : asciiLower (lit "test@acme.tld") = lit "test@acme.tld" := by decide

theorem base64Std_length : ∀ l : List Byte, (base64Std l).length = 4 * ((l.length + 2) / 3)
  | [] => rfl
  | [_] => by simp [base64Std]
  | [_, _] => by simp [base64Std]
  | _ :: _ :: _ :: rest => by
    simp only [base64Std, List.length_cons, base64Std_length rest]
    omega

theorem hexLower_length : ∀ l : List Byte, (hexLower l).length = 2 * l.length
  | [] => rfl
  | _ :: bs => by
    simp only [hexLower, List.length_cons, hexLower_length bs]
    omega

theorem hexDigit_isLowerHex (n : Nat) (h : n < 16) : isLowerHex (hexDigit n) = true := by
  interval_cases n <;> decide

theorem hexLower_isLowerHex : ∀ (l : List Byte) (c : Byte), c ∈ hexLower l → isLowerHex c = true
  | [], c, h => by simp [hexLower] at h
  | b :: bs, c, h => by
    simp only [hexLower, List.mem_cons] at h
    rcases h with h | h | h
    · rw [h]
      exact hexDigit_isLowerHex _ (Nat.div_lt_of_lt_mul (by have := b.isLt; omega))
    · rw [h]
      exact hexDigit_isLowerHex _ (Nat.mod_lt _ (by decide))
    · exact hexLower_isLowerHex bs c h

/-! ### The shape of the server-scoped URI -/

theorem lit_rid : lit "rid" ++ lit "=" = lit "rid=" := by decide

theorem onApiDone_dispatched (j : jDownloaderClient) (w : World) (err : Option GoError) :
    (j.onApiDone w err).dispatched = w.dispatched := by
  unfold jDownloaderClient.onApiDone
  split <;> rfl

theorem do_dispatched (lib : Lib) (T : Transport) (j : jDownloaderClient) (w : World)
    (path method : Str) (data : Option (List Byte)) (key : Key32) :
    ∃ req, (j.do_ lib T w path method data key).2.dispatched = w.dispatched ++ [req] ∧
      req.url = j.endpoint ++ path := by
  unfold jDownloaderClient.do_
  by_cases hm : method = lit "GET"
  · simp only [hm, if_true, onApiDone_dispatched]
    exact ⟨_, rfl, rfl⟩
  · simp only [hm, if_false, onApiDone_dispatched]
    exact ⟨_, rfl, rfl⟩

theorem serverUri_eq_signedUri (lib : Lib) (path : Str) (args : List Str) (rid : Int)
    (key : Key32) :
    serverUri lib path args rid key =
      signedUri lib path args (lib.queryEscape (lib.formatInt rid)) key := by
  unfold serverUri signedUri qp
  rw [lit_rid]

theorem doServer_dispatched (lib : Lib) (T : Transport) (j : jDownloaderClient) (w : World)
    (path method : Str) (args : Option (List Str)) (data : Option (List Byte)) (key : Key32) :
    ∃ req, (j.doServer lib T w path method args data key).world.dispatched =
        w.dispatched ++ [req] ∧
      req.url = j.endpoint ++ signedUri lib path (args.getD [])
        (lib.queryEscape (lib.formatInt (wrapInt64 (j.counter + 1)))) key := by
  have h := do_dispatched lib T j.nextRid.2 (w.log [.rid j.nextRid.1])
    (serverUri lib path (args.getD []) j.nextRid.1 key) method data key
  rw [serverUri_eq_signedUri] at h
  cases args <;> exact h

/-- C14: for every path, method, fragment list `args` (nil or empty allowed), body and
key, `doServer` called with counter value `c` dispatches one request whose URI is
`u ++ "&signature=" ++ sign(u, key)`, with `u` the path, `?`, and the fragments of `args`
in order followed by `rid=` and the escaped decimal of the new counter, joined by `&`;
`sign` is the hex rendering of the HMAC-SHA256 of `u` under the full 32-byte key; the
counter is left at the `int64` increment of `c`. Where `QueryEscape` leaves decimals as
they are and `c` is below the largest `int64`, the rid fragment is `rid=decimal(c+1)` and
the counter is `c + 1`; with `%x` the lower-case hex encoder and a 32-byte MAC, the
signature is 64 lower-case hex characters. -/
theorem doServer_uri (lib : Lib) (T : Transport) (j : jDownloaderClient) (w : World)
    (path method : Str) (args : Option (List Str)) (data : Option (List Byte)) (key : Key32) :
    (∃ req, (j.doServer lib T w path method args data key).world.dispatched =
        w.dispatched ++ [req] ∧
      req.url = j.endpoint ++ signedUri lib path (args.getD [])
        (lib.queryEscape (lib.formatInt (wrapInt64 (j.counter + 1)))) key) ∧
    (∀ u, sign lib u key.val = lib.hexEncode (lib.hmacSha256 key.val u)) ∧
    (j.doServer lib T w path method args data key).client.counter =
      wrapInt64 (j.counter + 1) ∧
    ((∀ n, lib.queryEscape (lib.formatInt n) = lib.formatInt n) →
      minInt64 ≤ j.counter → j.counter < maxInt64 →
      (∃ req, (j.doServer lib T w path method args data key).world.dispatched =
          w.dispatched ++ [req] ∧
        req.url = j.endpoint ++
          signedUri lib path (args.getD []) (lib.formatInt (j.counter + 1)) key) ∧
      (j.doServer lib T w path method args data key).client.counter = j.counter + 1) ∧
    (lib.hexEncode = hexLower → (∀ k m, (lib.hmacSha256 k m).length = 32) →
      ∀ u, (sign lib u key.val).length = 64 ∧
        ∀ c ∈ sign lib u key.val, isLowerHex c = true) := by
  refine ⟨doServer_dispatched lib T j w path method args data key, fun _ => rfl, rfl, ?_, ?_⟩
  · intro hesc h0 h1
    have hw : wrapInt64 (j.counter + 1) = j.counter + 1 := by
      unfold minInt64 at h0
      unfold maxInt64 at h1
      exact wrapInt64_of_range _ (by omega) (by omega)
    obtain ⟨req, hd, hu⟩ := doServer_dispatched lib T j w path method args data key
    rw [hesc, hw] at hu
    exact ⟨⟨req, hd, hu⟩, hw⟩
  · intro hhex hlen u
    unfold sign
    rw [hhex]
    exact ⟨by rw [hexLower_length, hlen], hexLower_isLowerHex _⟩

/-- Witness for C14: `doServer` on `demoClient` (counter 0) with a nil fragment list. -/
theorem doServer_uri_witness :
    ((∃ req, (demoClient.doServer goLib failingTransport emptyWorld (lit "/my/x") (lit "GET")
          none none demoKey).world.dispatched = emptyWorld.dispatched ++ [req] ∧
        req.url = demoClient.endpoint ++
          signedUri goLib (lit "/my/x") [] (goLib.formatInt (0 + 1)) demoKey) ∧
      (demoClient.doServer goLib failingTransport emptyWorld (lit "/my/x") (lit "GET")
          none none demoKey).client.counter = 0 + 1) ∧
    ∀ u, (sign goLib u demoKey.val).length = 64 ∧
      ∀ c ∈ sign goLib u demoKey.val, isLowerHex c = true :=
  ⟨(doServer_uri goLib failingTransport demoClient emptyWorld (lit "/my/x") (lit "GET")
      none none demoKey).2.2.2.1 (fun _ => rfl) (by decide) (by decide),
   (doServer_uri goLib failingTransport demoClient emptyWorld (lit "/my/x") (lit "GET")
      none none demoKey).2.2.2.2 rfl (fun k m => (sha256 _).property)⟩

/-! ### Malformed payloads -/

theorem decrypt_nil (lib : Lib) (k : Key32) :
    decrypt lib [] k = .error (.panic "runtime error: index out of range [-1]") := by
  unfold decrypt
  rw [aesNewCipher_hi]
  rfl

theorem do_result (lib : Lib) (j : jDownloaderClient) (w : World) (r : Reply)
    (path method : Str) (data : Option (List Byte)) (key : Key32) :
    (j.do_ lib (replyAll r) w path method data key).1 = replyResult lib r key := rfl

/-- C15 on the code: a body that is not JSON and whose base64 decoding is empty (the
empty body is one) makes `parseError` panic, in `trimPKCS5` on the empty decrypted
buffer; so for a non-200 response with such a body `do` does not return an error, it
panics. -/
theorem parseError_panics (lib : Lib) (j : jDownloaderClient) (w : World) (body : List Byte)
    (status : Int) (path method : Str) (data : Option (List Byte)) (key : Key32)
    (hjson : lib.unmarshalMap body = none) (hb64 : lib.base64Decode body = some [])
    (hstatus : status ≠ 200) :
    parseError lib body key = .error (.panic "runtime error: index out of range [-1]") ∧
    (j.do_ lib (replyAll (.response status body)) w path method data key).1 =
      .error (.panic "runtime error: index out of range [-1]") := by
  have hp : parseError lib body key =
      .error (.panic "runtime error: index out of range [-1]") := by
    unfold parseError decode
    simp only [hjson, hb64, decrypt_nil]
  refine ⟨hp, ?_⟩
  rw [do_result]
  unfold replyResult
  simp only [hstatus, ne_eq, not_false_eq_true, if_true, hp]

/-- Witness for C15: status 500 with an empty body. -/
theorem parseError_panics_witness :
    parseError demoLib [] demoKey = .error (.panic "runtime error: index out of range [-1]") ∧
    (demoClient.do_ demoLib (replyAll (.response 500 [])) emptyWorld (lit "/x") (lit "GET")
      none demoKey).1 = .error (.panic "runtime error: index out of range [-1]") :=
  parseError_panics demoLib demoClient emptyWorld [] 500 (lit "/x") (lit "GET") none demoKey
    rfl rfl (by decide)

theorem toBlocksAux_length : ∀ (n : Nat) (l : List Byte), 16 * n ≤ l.length →
    (toBlocksAux n l).length = n
  | 0, _, _ => rfl
  | n + 1, l, h => by
    have htake : (l.take 16).length = 16 := by rw [List.length_take]; omega
    have hdrop : 16 * n ≤ (l.drop 16).length := by rw [List.length_drop]; omega
    simp only [toBlocksAux, htake, dite_true, List.length_cons,
      toBlocksAux_length n _ hdrop]

theorem cbcDecryptBlocks_length (dec : Block → Block) :
    ∀ (cs : List Block) (iv : Block), (cbcDecryptBlocks dec iv cs).length = cs.length
  | [], _ => rfl
  | c :: cs, iv => by
    simp only [cbcDecryptBlocks, List.length_cons]
    rw [cbcDecryptBlocks_length dec cs]

theorem cbcBuffer_length (dec : Block → Block) (iv : Block) (c : List Byte)
    (hlen : c.length % 16 = 0) :
    (ofBlocks (cbcDecryptBlocks dec iv (toBlocks c))).length = c.length := by
  rw [ofBlocks_length, cbcDecryptBlocks_length]
  unfold toBlocks
  rw [toBlocksAux_length _ _ (by omega)]
  omega

/-- C16 on the code: for a ciphertext of one or more full blocks, `decrypt` reads the
last byte `p` of the CBC-decrypted buffer; when `p` is at most the length of the buffer
it returns the buffer without its last `p` bytes, with no check of the removed bytes;
when `p` exceeds the length, the slice expression in `trimPKCS5` panics. -/
theorem decrypt_full_blocks (lib : Lib) (c : List Byte) (k : Key32)
    (hlen : c.length % 16 = 0) (hpos : 0 < c.length) :
    ∃ p, (ofBlocks (cbcDecryptBlocks (lib.aesDecryptBlock ⟨k.hi, by simp [Key32.hi, k.property]⟩)
          k.lo (toBlocks c))).getLast? = some p ∧
      (p.val ≤ c.length → decrypt lib c k = .ok
        ((ofBlocks (cbcDecryptBlocks (lib.aesDecryptBlock ⟨k.hi, by simp [Key32.hi, k.property]⟩)
          k.lo (toBlocks c))).take (c.length - p.val))) ∧
      (c.length < p.val →
        decrypt lib c k = .error (.panic "runtime error: slice bounds out of range")) := by
  have hbl := cbcBuffer_length (lib.aesDecryptBlock ⟨k.hi, by simp [Key32.hi, k.property]⟩)
    k.lo c hlen
  have hne : ofBlocks (cbcDecryptBlocks (lib.aesDecryptBlock
      ⟨k.hi, by simp [Key32.hi, k.property]⟩) k.lo (toBlocks c)) ≠ [] := by
    intro h
    rw [h] at hbl
    simp at hbl
    omega
  obtain ⟨p, hp⟩ : ∃ p, (ofBlocks (cbcDecryptBlocks (lib.aesDecryptBlock
      ⟨k.hi, by simp [Key32.hi, k.property]⟩) k.lo (toBlocks c))).getLast? = some p :=
    ⟨_, List.getLast?_eq_getLast _ hne⟩
  have hdec : decrypt lib c k = trimPKCS5 (ofBlocks (cbcDecryptBlocks (lib.aesDecryptBlock
      ⟨k.hi, by simp [Key32.hi, k.property]⟩) k.lo (toBlocks c))) := by
    unfold decrypt
    rw [aesNewCipher_hi]
    simp only [bind, Except.bind, cbcDecrypterCryptBlocks, hlen, ne_eq, not_true_eq_false,
      if_false]
  refine ⟨p, hp, ?_, ?_⟩
  · intro hle
    rw [hdec]
    unfold trimPKCS5
    simp only [hp, hbl, hle, if_true]
  · intro hgt
    rw [hdec]
    unfold trimPKCS5
    simp only [hp, hbl]
    rw [if_neg (by omega)]

theorem decrypt_zero_block :
    decrypt demoLib (List.replicate 16 0) demoKey =
      .error (.panic "runtime error: slice bounds out of range") := by
  decide

/-- Witness for C16: sixteen zero bytes under `demoKey` decrypt to sixteen bytes `0x33`,
and 51 exceeds 16. -/
theorem decrypt_full_blocks_witness :
    decrypt demoLib (List.replicate 16 0) demoKey =
      .error (.panic "runtime error: slice bounds out of range") ∧
    ∃ p, (ofBlocks (cbcDecryptBlocks (demoLib.aesDecryptBlock
          ⟨demoKey.hi, by simp [Key32.hi, demoKey.property]⟩)
          demoKey.lo (toBlocks (List.replicate 16 0)))).getLast? = some p ∧
      (p.val ≤ (List.replicate 16 (0 : Byte)).length →
        decrypt demoLib (List.replicate 16 0) demoKey = .ok
          ((ofBlocks (cbcDecryptBlocks (demoLib.aesDecryptBlock
            ⟨demoKey.hi, by simp [Key32.hi, demoKey.property]⟩)
            demoKey.lo (toBlocks (List.replicate 16 0)))).take
              ((List.replicate 16 (0 : Byte)).length - p.val))) ∧
      ((List.replicate 16 (0 : Byte)).length < p.val →
        decrypt demoLib (List.replicate 16 0) demoKey =
          .error (.panic "runtime error: slice bounds out of range")) :=
  ⟨decrypt_zero_block,
   decrypt_full_blocks demoLib (List.replicate 16 0) demoKey (by decide) (by decide)⟩

/-! ### Secrets and the configuration hash -/

/-- C17: for every email, password and realm, `createSecret` is the SHA-256 digest of
lower-case(email) followed by the password and the realm, so two emails with the same
lower-casing give the same secret; with SHA-256 and `ToLower` as the Go library computes
them on these inputs, `createSecret("Test@Acme.tld", "123456", "something")` equals
`createSecret("test@acme.tld", "123456", "something")` and is the 32-byte golden vector
`ee06c831...2df01e57` of `TestCreateSecret`. -/
theorem createSecret_spec (lib : Lib) :
    (∀ email password realm : Str,
      createSecret lib email password realm =
        lib.sha256 (lib.toLower email ++ password ++ realm)) ∧
    (∀ e1 e2 password realm : Str, lib.toLower e1 = lib.toLower e2 →
      createSecret lib e1 password realm = createSecret lib e2 password realm) ∧
    (lib.sha256 = sha256 →
      lib.toLower (lit "Test@Acme.tld") = lit "test@acme.tld" →
      lib.toLower (lit "test@acme.tld") = lit "test@acme.tld" →
      createSecret lib (lit "Test@Acme.tld") (lit "123456") (lit "something") =
        createSecret lib (lit "test@acme.tld") (lit "123456") (lit "something") ∧
      (createSecret lib (lit "test@acme.tld") (lit "123456") (lit "something")).val =
        goldenSecret) := by
  refine ⟨fun _ _ _ => rfl, ?_, ?_⟩
  · intro e1 e2 password realm h
    unfold createSecret
    rw [h]
  · intro hsha h1 h2
    unfold createSecret
    rw [h1, h2, hsha]
    exact ⟨rfl, sha256_golden⟩

/-- Witness for C17, with the reference SHA-256 and ASCII lower-casing. -/
theorem createSecret_spec_witness :
    createSecret goLib (lit "Test@Acme.tld") (lit "123456") (lit "something") =
      createSecret goLib (lit "test@acme.tld") (lit "123456") (lit "something") ∧
    (createSecret goLib (lit "test@acme.tld") (lit "123456") (lit "something")).val =
      goldenSecret :=
  (createSecret_spec goLib).2.2 rfl asciiLower_Test asciiLower_test

theorem foldl_apply_frame : ∀ (opts : List ClientOption) (c : jDownloaderClient),
    (opts.foldl (fun c o => o.apply c) c).configHash = c.configHash ∧
    (opts.foldl (fun c o => o.apply c) c).loginSecret = c.loginSecret ∧
    (opts.foldl (fun c o => o.apply c) c).deviceSecret = c.deviceSecret ∧
    (opts.foldl (fun c o => o.apply c) c).serverEncryptionToken = c.serverEncryptionToken ∧
    (opts.foldl (fun c o => o.apply c) c).deviceEncryptionToken = c.deviceEncryptionToken ∧
    (opts.foldl (fun c o => o.apply c) c).sessionToken = c.sessionToken ∧
    (opts.foldl (fun c o => o.apply c) c).regainToken = c.regainToken ∧
    (opts.foldl (fun c o => o.apply c) c).connected = c.connected
  | [], _ => ⟨rfl, rfl, rfl, rfl, rfl, rfl, rfl, rfl⟩
  | o :: os, c => by
    rw [List.foldl_cons]
    have ih := foldl_apply_frame os (o.apply c)
    cases o <;> exact ih

theorem acceptSession_configHash (lib : Lib) (c : jDownloaderClient) (w : World)
    (data : List Byte) : (acceptSession lib c w data).client.configHash = c.configHash := by
  unfold acceptSession
  split
  · rfl
  · split
    · rfl
    · split <;> rfl

theorem Connect_configHash (lib : Lib) (T : Transport) (j : jDownloaderClient) (w : World) :
    (j.Connect lib T w).client.configHash = j.configHash := by
  rw [Connect_eq]
  split
  · rfl
  · rfl
  · exact acceptSession_configHash lib _ _ _

theorem Reconnect_configHash (lib : Lib) (T : Transport) (j : jDownloaderClient) (w : World) :
    (j.Reconnect lib T w).client.configHash = j.configHash := by
  rw [Reconnect_eq]
  split
  · rfl
  · exact acceptSession_configHash lib _ _ _

theorem reconnectIfNecessary_configHash (lib : Lib) (T : Transport) (j : jDownloaderClient)
    (w : World) (nowCheck nowSet : Int) :
    (j.reconnectIfNecessary lib T w nowCheck nowSet).client.configHash = j.configHash := by
  unfold jDownloaderClient.reconnectIfNecessary
  split
  · exact Connect_configHash lib T _ w
  · rfl

theorem deviceStep_configHash (lib : Lib) (T : Transport) (d : jDevice)
    (c : jDownloaderClient) (w : World) (action : Str) (marshal : Bool) (params : List Iface) :
    (deviceStep lib T d c w action marshal params).client.configHash = c.configHash := by
  rcases deviceStep_client lib T d c w action marshal params with h | h
  · rw [h]
  · rw [h]; rfl

theorem doDevice_configHash (lib : Lib) (T : Transport) (d : jDevice) (j : jDownloaderClient)
    (w : World) (nowCheck nowSet : Int) (action : Str) (marshal : Bool) (params : List Iface) :
    (d.doDevice lib T j w nowCheck nowSet action marshal params).client.configHash =
      j.configHash := by
  rw [doDevice_eq]
  split
  · exact reconnectIfNecessary_configHash lib T j w nowCheck nowSet
  · rw [deviceStep_configHash]
    exact reconnectIfNecessary_configHash lib T j w nowCheck nowSet

theorem ListDevices_configHash (lib : Lib) (T : Transport) (j : jDownloaderClient) (w : World)
    (nowCheck nowSet : Int) :
    (j.ListDevices lib T w nowCheck nowSet).client.configHash = j.configHash := by
  rw [ListDevices_eq]
  split
  · exact reconnectIfNecessary_configHash lib T j w nowCheck nowSet
  · rw [listStep_client]
    exact reconnectIfNecessary_configHash lib T j w nowCheck nowSet

/-- C18: for every email, password and list of client options,
`NewClient(email, password, ...).ConfigHash()` is the base64 encoding of SHA-256 over the
raw concatenation of email and password (no lower-casing); with the standard base64
encoder it has 44 characters; and `Connect`, `Reconnect`, `Disconnect`, `ListDevices`
and device calls leave the configuration hash of a client as it was. -/
theorem ConfigHash_spec (lib : Lib) (now : Int) (email password : Str)
    (opts : List ClientOption) :
    (NewClient lib now email password opts).ConfigHash =
      lib.base64Encode (lib.sha256 (email ++ password)).val ∧
    (lib.base64Encode = base64Std →
      (NewClient lib now email password opts).ConfigHash =
        base64Std (lib.sha256 (email ++ password)).val ∧
      (NewClient lib now email password opts).ConfigHash.length = 44) ∧
    (∀ (T : Transport) (j : jDownloaderClient) (w : World) (d : jDevice)
      (nowCheck nowSet : Int) (action : Str) (marshal : Bool) (params : List Iface),
      (j.Connect lib T w).client.ConfigHash = j.ConfigHash ∧
      (j.Reconnect lib T w).client.ConfigHash = j.ConfigHash ∧
      (j.Disconnect lib T w).client.ConfigHash = j.ConfigHash ∧
      (j.ListDevices lib T w nowCheck nowSet).client.ConfigHash = j.ConfigHash ∧
      (d.doDevice lib T j w nowCheck nowSet action marshal params).client.ConfigHash =
        j.ConfigHash) := by
  have h0 : (NewClient lib now email password opts).ConfigHash =
      lib.base64Encode (lib.sha256 (email ++ password)).val :=
    (foldl_apply_frame opts _).1
  refine ⟨h0, ?_, ?_⟩
  · intro hb
    rw [h0, hb, base64Std_length, (lib.sha256 (email ++ password)).property]
    exact ⟨rfl, rfl⟩
  · intro T j w d nowCheck nowSet action marshal params
    refine ⟨Connect_configHash lib T j w, Reconnect_configHash lib T j w, ?_,
      ListDevices_configHash lib T j w nowCheck nowSet,
      doDevice_configHash lib T d j w nowCheck nowSet action marshal params⟩
    show (j.Disconnect lib T w).client.configHash = j.configHash
    rw [Disconnect_client]
    rfl

/-- Witness for C18, with the reference SHA-256 and base64 encoder. -/
theorem ConfigHash_spec_witness :
    goFresh.ConfigHash = base64Std (sha256 (lit "test@acme.tld" ++ lit "123456")).val ∧
    goFresh.ConfigHash.length = 44 :=
  (ConfigHash_spec goLib 0 (lit "test@acme.tld") (lit "123456") []).2.1 rfl

theorem goFresh_ConfigHash_value :
    goFresh.ConfigHash = lit "mIBFyHASYs+mAgq/1+8qg1CQnFxOVLITSzO4X3A46m4=" := by
  decide

/-! ### The keys of a fresh client -/

theorem foldl_apply_email : ∀ (opts : List ClientOption) (c : jDownloaderClient),
    (opts.foldl (fun c o => o.apply c) c).email = c.email
  | [], _ => rfl
  | o :: os, c => by
    rw [List.foldl_cons, foldl_apply_email os]
    cases o <;> rfl

theorem NewClient_fields (lib : Lib) (now : Int) (email password : Str)
    (opts : List ClientOption) :
    (NewClient lib now email password opts).loginSecret =
      createSecret lib email password (lit "server") ∧
    (NewClient lib now email password opts).deviceSecret =
      createSecret lib email password (lit "device") ∧
    (NewClient lib now email password opts).serverEncryptionToken = zeroKey ∧
    (NewClient lib now email password opts).deviceEncryptionToken = zeroKey := by
  have h := foldl_apply_frame opts
    { connected := false, email := email, counter := 0, appKey := appName,
      loginSecret := createSecret lib email password (lit "server"),
      deviceSecret := createSecret lib email password (lit "device"),
      serverEncryptionToken := zeroKey, deviceEncryptionToken := zeroKey,
      timeout := 15 * 10 ^ 9, sessionToken := [], regainToken := [],
      configHash := hashConfigKeys lib email password, lastCall := now,
      endpoint := apiEndpoint, afterCallFn := false }
  exact ⟨h.2.1, h.2.2.1, h.2.2.2.1, h.2.2.2.2.1⟩

/-- C19, as stated, fails: right after `NewClient` with the credentials of
`TestCreateSecret` (and SHA-256 as in the Go library), the server key lineage is 32 zero
bytes and differs from `loginSecret`, and the device key lineage differs from
`deviceSecret`. -/
theorem NewClient_keys_not_roots :
    goFresh.serverEncryptionToken.val = List.replicate 32 0 ∧
    goFresh.serverEncryptionToken ≠ goFresh.loginSecret ∧
    goFresh.deviceEncryptionToken ≠ goFresh.deviceSecret := by
  decide

theorem acceptSession_ok_keys (lib : Lib) (c : jDownloaderClient) (w : World)
    (data : List Byte) (u : Unit) (h : (acceptSession lib c w data).result = .ok u) :
    ∃ t, (acceptSession lib c w data).client.serverEncryptionToken =
        lib.sha256 (c.serverEncryptionToken.val ++ t) ∧
      (acceptSession lib c w data).client.deviceEncryptionToken =
        lib.sha256 (c.deviceEncryptionToken.val ++ t) := by
  cases hs : lib.unmarshalSession data with
  | none => simp [acceptSession, hs] at h
  | some s =>
    by_cases hr : c.counter = s.ResponseID
    · cases ht : lib.hexDecode s.SessionToken with
      | none => simp [acceptSession, hs, hr, ht] at h
      | some t =>
        refine ⟨t, ?_, ?_⟩ <;>
          simp only [acceptSession, hs, hr, ht, ne_eq, not_true_eq_false, if_false]
    · simp [acceptSession, hs, hr] at h

theorem Connect_error_keys (lib : Lib) (T : Transport) (j : jDownloaderClient) (w : World)
    (f : Failure) (h : (j.Connect lib T w).result = .error f) :
    (j.Connect lib T w).client.serverEncryptionToken = j.loginSecret ∧
    (j.Connect lib T w).client.deviceEncryptionToken = j.deviceSecret := by
  rw [Connect_eq] at h ⊢
  split at h
  · rename_i e he
    simp only [he]
    exact ⟨rfl, rfl⟩
  · rename_i m hm
    simp only [hm]
    exact ⟨rfl, rfl⟩
  · rename_i data hd
    rw [acceptSession_error_connected lib _ _ data f h]
    exact ⟨rfl, rfl⟩

theorem Connect_ok_keys (lib : Lib) (T : Transport) (j : jDownloaderClient) (w : World)
    (u : Unit) (h : (j.Connect lib T w).result = .ok u) :
    ∃ t, (j.Connect lib T w).client.serverEncryptionToken =
        lib.sha256 (j.loginSecret.val ++ t) ∧
      (j.Connect lib T w).client.deviceEncryptionToken =
        lib.sha256 (j.deviceSecret.val ++ t) := by
  rw [Connect_eq] at h ⊢
  split at h
  · cases h
  · cases h
  · exact acceptSession_ok_keys lib _ _ _ u h

theorem Connect_events_prefix (lib : Lib) (T : Transport) (j : jDownloaderClient) (w : World) :
    ∃ rest, (j.Connect lib T w).world.events =
      w.events ++ [.write .serverEncryptionToken, .write .deviceEncryptionToken,
        .rid j.nextRid.1, .lock, .transport, .unlock] ++ rest := by
  cases h : (j.Connect lib T w).result with
  | error f => exact ⟨[], by rw [Connect_events_error lib T j w f h, List.append_nil]⟩
  | ok u =>
    refine ⟨sessionWrites, ?_⟩
    rw [Connect_events_ok lib T j w u h, List.append_assoc]
    rfl

/-- C19, amended: immediately after construction by `NewClient`, `loginSecret` is
`createSecret(email, password, "server")` and `deviceSecret` is
`createSecret(email, password, "device")`, while both key lineages
(`serverEncryptionToken`, `deviceEncryptionToken`) are 32 zero bytes. A `Connect` on the
fresh client assigns the root secrets to the lineages before its exchange and signs with
`loginSecret`: when it fails the lineages are the root secrets, when it succeeds they are
`SHA-256(root ++ t)` for the bytes `t` of the session token; a `Reconnect` or
`Disconnect` issued before any `Connect` signs with the all-zero key. -/
theorem NewClient_keys (lib : Lib) (now : Int) (email password : Str)
    (opts : List ClientOption) (T : Transport) (w : World) :
    (NewClient lib now email password opts).loginSecret =
      createSecret lib email password (lit "server") ∧
    (NewClient lib now email password opts).deviceSecret =
      createSecret lib email password (lit "device") ∧
    (NewClient lib now email password opts).serverEncryptionToken = zeroKey ∧
    (NewClient lib now email password opts).deviceEncryptionToken = zeroKey ∧
    (∀ f, ((NewClient lib now email password opts).Connect lib T w).result = .error f →
      ((NewClient lib now email password opts).Connect lib T w).client.serverEncryptionToken =
        createSecret lib email password (lit "server") ∧
      ((NewClient lib now email password opts).Connect lib T w).client.deviceEncryptionToken =
        createSecret lib email password (lit "device")) ∧
    (∀ u, ((NewClient lib now email password opts).Connect lib T w).result = .ok u →
      ∃ t,
        ((NewClient lib now email password opts).Connect lib T w).client.serverEncryptionToken =
          lib.sha256 ((createSecret lib email password (lit "server")).val ++ t) ∧
        ((NewClient lib now email password opts).Connect lib T w).client.deviceEncryptionToken =
          lib.sha256 ((createSecret lib email password (lit "device")).val ++ t)) ∧
    (∃ rest, ((NewClient lib now email password opts).Connect lib T w).world.events =
      w.events ++ [.write .serverEncryptionToken, .write .deviceEncryptionToken, .rid 1,
        .lock, .transport, .unlock] ++ rest) ∧
    ((NewClient lib now email password opts).Connect lib T w).world.dispatched =
      w.dispatched ++ [{ method := .post
                         url := (NewClient lib now email password opts).endpoint ++
                           serverUri lib (lit "/my/connect")
                             [qp lib (lit "email") (lib.toLower email),
                              qp lib (lit "appkey")
                                (lib.toLower (NewClient lib now email password opts).appKey)]
                             1 (createSecret lib email password (lit "server"))
                         body := none }] ∧
    ((NewClient lib now email password opts).Reconnect lib T w).world.dispatched =
      w.dispatched ++ [{ method := .get
                         url := (NewClient lib now email password opts).endpoint ++
                           serverUri lib (lit "/my/reconnect")
                             [qp lib paramSessionToken [], qp lib (lit "regaintoken") []]
                             1 zeroKey
                         body := none }] ∧
    ((NewClient lib now email password opts).Disconnect lib T w).world.dispatched =
      w.dispatched ++ [{ method := .post
                         url := (NewClient lib now email password opts).endpoint ++
                           serverUri lib (lit "/my/disconnect")
                             [qp lib paramSessionToken []] 1 zeroKey
                         body := none }] := by
  obtain ⟨hlogin, hdevice, hserver, hdev⟩ := NewClient_fields lib now email password opts
  have hframe := foldl_apply_frame opts
    { connected := false, email := email, counter := 0, appKey := appName,
      loginSecret := createSecret lib email password (lit "server"),
      deviceSecret := createSecret lib email password (lit "device"),
      serverEncryptionToken := zeroKey, deviceEncryptionToken := zeroKey,
      timeout := 15 * 10 ^ 9, sessionToken := [], regainToken := [],
      configHash := hashConfigKeys lib email password, lastCall := now,
      endpoint := apiEndpoint, afterCallFn := false }
  have hsession : (NewClient lib now email password opts).sessionToken = [] := hframe.2.2.2.2.2.1
  have hregain : (NewClient lib now email password opts).regainToken = [] :=
    hframe.2.2.2.2.2.2.1
  have hemail : (NewClient lib now email password opts).email = email :=
    (foldl_apply_email opts _).trans rfl
  have hrid : (NewClient lib now email password opts).nextRid.1 = 1 := by
    rw [nextRid_fst, NewClient_counter]
    decide
  refine ⟨hlogin, hdevice, hserver, hdev, ?_, ?_, ?_, ?_, ?_, ?_⟩
  · intro f hf
    rw [← hlogin, ← hdevice]
    exact Connect_error_keys lib T _ w f hf
  · intro u hu
    rw [← hlogin, ← hdevice]
    exact Connect_ok_keys lib T _ w u hu
  · rw [← hrid]
    exact Connect_events_prefix lib T _ w
  · rw [Connect_dispatched]
    unfold connectRequest
    rw [hrid, hemail, hlogin]
  · rw [Reconnect_eq]
    have hreq : reconnectRequest lib (NewClient lib now email password opts) =
        { method := .get
          url := (NewClient lib now email password opts).endpoint ++
            serverUri lib (lit "/my/reconnect")
              [qp lib paramSessionToken [], qp lib (lit "regaintoken") []] 1 zeroKey
          body := none } := by
      unfold reconnectRequest
      rw [hrid, hsession, hregain, hserver]
    rw [← hreq]
    split
    · exact worldAfter_dispatched _ _ _
    · rw [acceptSession_dispatched]
      exact worldAfter_dispatched _ _ _
  · rw [Disconnect_eq]
    have hreq : disconnectRequest lib (NewClient lib now email password opts) =
        { method := .post
          url := (NewClient lib now email password opts).endpoint ++
            serverUri lib (lit "/my/disconnect") [qp lib paramSessionToken []] 1 zeroKey
          body := none } := by
      unfold disconnectRequest
      rw [hrid, hsession, hserver]
    rw [← hreq]
    split <;> exact worldAfter_dispatched _ _ _

/-- Witness for the amended C19: with the credentials of `TestCreateSecret`, a `Connect`
whose HTTP request fails leaves both lineages at the root secrets; and a `Connect` on a
fresh client that succeeds leaves them at the digests rolled from the root secrets. -/
theorem NewClient_keys_witness :
    ((goFresh.Connect goLib failingTransport emptyWorld).client.serverEncryptionToken =
        createSecret goLib (lit "test@acme.tld") (lit "123456") (lit "server") ∧
      (goFresh.Connect goLib failingTransport emptyWorld).client.deviceEncryptionToken =
        createSecret goLib (lit "test@acme.tld") (lit "123456") (lit "device")) ∧
    ∃ t,
      (demoFresh.Connect demoLib (replyWith (demoBody 1)) emptyWorld).client.serverEncryptionToken =
        demoLib.sha256 ((createSecret demoLib [] [] (lit "server")).val ++ t) ∧
      (demoFresh.Connect demoLib (replyWith (demoBody 1)) emptyWorld).client.deviceEncryptionToken =
        demoLib.sha256 ((createSecret demoLib [] [] (lit "device")).val ++ t) :=
  ⟨(NewClient_keys goLib 0 (lit "test@acme.tld") (lit "123456") [] failingTransport
      emptyWorld).2.2.2.2.1 (.error (.wrap "API doServer failed" .transport)) (by decide),
   (NewClient_keys demoLib 0 [] [] [] (replyWith (demoBody 1)) emptyWorld).2.2.2.2.2.1 ()
      (by decide)⟩

/-! ### Padding and ciphertext length -/

theorem toBlocks_length (l : List Byte) : (toBlocks l).length = l.length / 16 := by
  unfold toBlocks
  exact toBlocksAux_length _ l (Nat.mul_div_le _ _)

theorem padded_length_mod (n b : Nat) (hb : 0 < b) : (n + (b - n % b)) % b = 0 := by
  have hmod : n % b < b := Nat.mod_lt _ hb
  have hdiv : b * (n / b) + n % b = n := Nat.div_add_mod n b
  have hsum : n + (b - n % b) = b * (n / b) + b := by omega
  rw [hsum, Nat.add_mod_right, Nat.mul_mod_right]

theorem encrypt_length (lib : Lib) (x : List Byte) (k : Key32) :
    ∃ c, encrypt lib x k = .ok c ∧ c.length = 16 * (x.length / 16 + 1) := by
  refine ⟨_, encrypt_eq lib x k, ?_⟩
  rw [ofBlocks_length, cbcEncryptBlocks_length, toBlocks_length, List.length_append,
    List.length_replicate]
  omega

/-- C21: for every byte sequence `x` and block size `b` with `1 ≤ b ≤ 255`,
`padPKCS7(x, b)` is `x` followed by `p` copies of the byte `p`, where
`p = b - (len(x) mod b)`; `1 ≤ p ≤ b`, a full block of padding when `len(x)` is a multiple
of `b`; the length of the result is positive and a multiple of `b`; and for every key
`encrypt(x, k)` succeeds with a ciphertext of length `16 * (len(x) / 16 + 1)`. -/
theorem padPKCS7_spec (x : List Byte) (b : Nat) (h1 : 1 ≤ b) (h2 : b ≤ 255) :
    padPKCS7 x (b : Int) =
      .ok (x ++ List.replicate (b - x.length % b)
        (byteOfInt ((b - x.length % b : Nat) : Int))) ∧
    (byteOfInt ((b - x.length % b : Nat) : Int)).val = b - x.length % b ∧
    1 ≤ b - x.length % b ∧
    b - x.length % b ≤ b ∧
    (x.length % b = 0 → b - x.length % b = b) ∧
    0 < (x ++ List.replicate (b - x.length % b)
        (byteOfInt ((b - x.length % b : Nat) : Int))).length ∧
    (x ++ List.replicate (b - x.length % b)
        (byteOfInt ((b - x.length % b : Nat) : Int))).length % b = 0 ∧
    (∀ (lib : Lib) (k : Key32),
      ∃ c, encrypt lib x k = .ok c ∧ c.length = 16 * (x.length / 16 + 1)) := by
  have hmod : x.length % b < b := Nat.mod_lt _ h1
  have hlen : (x ++ List.replicate (b - x.length % b)
      (byteOfInt ((b - x.length % b : Nat) : Int))).length = x.length + (b - x.length % b) := by
    rw [List.length_append, List.length_replicate]
  refine ⟨padPKCS7_pos x b h1 (by omega), byteOfInt_val _ (by omega), by omega, by omega,
    fun h => by omega, by rw [hlen]; omega, ?_, fun lib k => encrypt_length lib x k⟩
  rw [hlen]
  exact padded_length_mod _ _ h1

/-- Witness for C21: five bytes padded to a block size of 4, and seventeen bytes padded
to 255. -/
theorem padPKCS7_spec_witness :
    padPKCS7 [1, 2, 3, 4, 5] 4 = .ok [1, 2, 3, 4, 5, 3, 3, 3] ∧
    (∀ (lib : Lib) (k : Key32),
      ∃ c, encrypt lib (List.replicate 17 0) k = .ok c ∧
        c.length = 16 * ((List.replicate 17 (0 : Byte)).length / 16 + 1)) :=
  ⟨(padPKCS7_spec [1, 2, 3, 4, 5] 4 (by decide) (by decide)).1,
   (padPKCS7_spec (List.replicate 17 0) 255 (by decide) (by decide)).2.2.2.2.2.2.2⟩

/-! ### Serialising the parameters of a device call -/

theorem singleNil_iff (params : List Iface) :
    (params.length = 1 ∧ params.head? = some Iface.nil) ↔ params = [Iface.nil] := by
  constructor
  · rintro ⟨hl, hh⟩
    match params, hl, hh with
    | [p], _, hh =>
      simp only [List.head?_cons, Option.some.injEq] at hh
      rw [hh]
  · intro h
    rw [h]
    exact ⟨rfl, rfl⟩

theorem serializeLoop_false (lib : Lib) : ∀ params : List Iface,
    serializeLoop lib false params = .ok params
  | [] => rfl
  | p :: rest => by
    simp [serializeLoop, serializeLoop_false lib rest]

theorem serializeLoop_true_ok (lib : Lib) : ∀ params : List Iface,
    (∀ p ∈ params, ∃ s, lib.marshalParam p = some s) →
    ∃ ps, serializeLoop lib true params = .ok ps ∧
      List.Forall₂ (fun p q => ∃ s, lib.marshalParam p = some s ∧ q = Iface.string s) params ps
  | [], _ => ⟨[], rfl, List.Forall₂.nil⟩
  | p :: rest, h => by
    obtain ⟨s, hs⟩ := h p (List.mem_cons_self _ _)
    obtain ⟨ps, hps, hall⟩ := serializeLoop_true_ok lib rest
      (fun q hq => h q (List.mem_cons_of_mem _ hq))
    refine ⟨Iface.string s :: ps, ?_, List.Forall₂.cons ⟨s, hs, rfl⟩ hall⟩
    simp [serializeLoop, hs, hps]

theorem serializeLoop_true_error (lib : Lib) : ∀ params : List Iface,
    (∃ p ∈ params, lib.marshalParam p = none) →
    serializeLoop lib true params =
      .error (.error (.wrap "unable to marshal parameter into json string" .json))
  | [], h => by
    obtain ⟨p, hp, _⟩ := h
    cases hp
  | p :: rest, h => by
    cases hm : lib.marshalParam p with
    | none => simp [serializeLoop, hm]
    | some s =>
      have hrest : ∃ q ∈ rest, lib.marshalParam q = none := by
        obtain ⟨q, hq, hnone⟩ := h
        rcases List.mem_cons.mp hq with rfl | hq'
        · rw [hm] at hnone
          cases hnone
        · exact ⟨q, hq', hnone⟩
      simp [serializeLoop, hm, serializeLoop_true_error lib rest hrest]

theorem serializeLoop_error_iff (lib : Lib) (marshal : Bool) (params : List Iface) :
    (∃ f, serializeLoop lib marshal params = .error f) ↔
      (marshal = true ∧ ∃ p ∈ params, lib.marshalParam p = none) := by
  constructor
  · rintro ⟨f, hf⟩
    cases marshal with
    | false =>
      rw [serializeLoop_false] at hf
      cases hf
    | true =>
      refine ⟨rfl, ?_⟩
      by_contra hno
      have hall : ∀ p ∈ params, ∃ s, lib.marshalParam p = some s := by
        intro p hp
        cases hm : lib.marshalParam p with
        | none => exact absurd ⟨p, hp, hm⟩ hno
        | some s => exact ⟨s, rfl⟩
      obtain ⟨ps, hps, _⟩ := serializeLoop_true_ok lib params hall
      rw [hps] at hf
      cases hf
  · rintro ⟨hm, hex⟩
    rw [hm]
    exact ⟨_, serializeLoop_true_error lib params hex⟩

theorem serializeParams_not_single (lib : Lib) (marshal : Bool) (params : List Iface)
    (h : params ≠ [Iface.nil]) :
    serializeParams lib marshal params =
      match serializeLoop lib marshal params with
      | .error f => .error f
      | .ok ps => .ok (some ps) := by
  unfold serializeParams
  rw [if_neg (fun hc => h ((singleNil_iff params).mp hc))]

/-- C22: `serializeParams(marshal, params)`: when `params` is exactly one nil value the
result is nil; otherwise, with `marshal` false the result is `params` itself, and with
`marshal` true and every parameter marshallable the result has the length and order of
`params`, each element being the JSON text of the parameter as a string; it returns an
error exactly when `marshal` is true and some parameter cannot be JSON-marshalled (nil
itself can always be marshalled). -/
theorem serializeParams_spec (lib : Lib) (marshal : Bool) (params : List Iface) :
    (params = [Iface.nil] → serializeParams lib marshal params = .ok none) ∧
    (params ≠ [Iface.nil] → marshal = false →
      serializeParams lib marshal params = .ok (some params)) ∧
    (params ≠ [Iface.nil] → marshal = true →
      (∀ p ∈ params, ∃ s, lib.marshalParam p = some s) →
      ∃ ps, serializeParams lib marshal params = .ok (some ps) ∧
        ps.length = params.length ∧
        List.Forall₂ (fun p q => ∃ s, lib.marshalParam p = some s ∧ q = Iface.string s)
          params ps) ∧
    (params ≠ [Iface.nil] →
      ((∃ f, serializeParams lib marshal params = .error f) ↔
        (marshal = true ∧ ∃ p ∈ params, lib.marshalParam p = none))) ∧
    ((∃ s, lib.marshalParam Iface.nil = some s) →
      ((∃ f, serializeParams lib marshal params = .error f) ↔
        (marshal = true ∧ ∃ p ∈ params, lib.marshalParam p = none))) := by
  have hiff : params ≠ [Iface.nil] →
      ((∃ f, serializeParams lib marshal params = .error f) ↔
        (marshal = true ∧ ∃ p ∈ params, lib.marshalParam p = none)) := by
    intro hne
    rw [serializeParams_not_single lib marshal params hne,
      ← serializeLoop_error_iff lib marshal params]
    constructor
    · rintro ⟨f, hf⟩
      split at hf
      · rename_i f' hf'
        exact ⟨f', hf'⟩
      · cases hf
    · rintro ⟨f, hf⟩
      exact ⟨f, by rw [hf]⟩
  have hsingle : params = [Iface.nil] → serializeParams lib marshal params = .ok none := by
    intro h
    unfold serializeParams
    rw [if_pos ((singleNil_iff params).mpr h)]
  refine ⟨hsingle, ?_, ?_, hiff, ?_⟩
  · intro hne hm
    rw [serializeParams_not_single lib marshal params hne, hm, serializeLoop_false]
  · intro hne hm hall
    rw [hm]
    obtain ⟨ps, hps, hf⟩ := serializeLoop_true_ok lib params hall
    refine ⟨ps, ?_, hf.length_eq.symm, hf⟩
    rw [serializeParams_not_single lib true params hne, hps]
  · rintro ⟨s, hs⟩
    by_cases hne : params = [Iface.nil]
    · constructor
      · rintro ⟨f, hf⟩
        rw [hsingle hne] at hf
        cases hf
      · rintro ⟨_, q, hq, hnone⟩
        rw [hne, List.mem_singleton] at hq
        rw [hq, hs] at hnone
        cases hnone
    · exact hiff hne

/-- Witness for C22: a single nil, a list that marshals, and a list with a value that
cannot be marshalled. -/
theorem serializeParams_spec_witness :
    serializeParams demoLib true [Iface.nil] = .ok none ∧
    serializeParams demoLib false [Iface.value ⟨0⟩, Iface.nil] =
      .ok (some [Iface.value ⟨0⟩, Iface.nil]) ∧
    (∃ ps, serializeParams demoLib true [Iface.string [1], Iface.nil] = .ok (some ps) ∧
      ps.length = [Iface.string [1], Iface.nil].length ∧
      List.Forall₂ (fun p q => ∃ s, demoLib.marshalParam p = some s ∧ q = Iface.string s)
        [Iface.string [1], Iface.nil] ps) ∧
    (∃ f, serializeParams demoLib true [Iface.string [1], Iface.value ⟨0⟩] = .error f) :=
  ⟨(serializeParams_spec demoLib true [Iface.nil]).1 rfl,
   (serializeParams_spec demoLib false [Iface.value ⟨0⟩, Iface.nil]).2.1 (by decide) rfl,
   (serializeParams_spec demoLib true [Iface.string [1], Iface.nil]).2.2.1 (by decide) rfl
     (by
       intro p hp
       rcases List.mem_cons.mp hp with rfl | hp
       · exact ⟨_, rfl⟩
       · rw [List.mem_singleton.mp hp]
         exact ⟨_, rfl⟩),
   ((serializeParams_spec demoLib true [Iface.string [1], Iface.value ⟨0⟩]).2.2.2.1
     (by decide)).mpr ⟨rfl, Iface.value ⟨0⟩, by simp, rfl⟩⟩

/-! ### A failed `Reconnect` -/

theorem Reconnect_error_client (lib : Lib) (T : Transport) (j : jDownloaderClient) (w : World)
    (f : Failure) (h : (j.Reconnect lib T w).result = .error f) :
    (j.Reconnect lib T w).client = j.nextRid.2 := by
  rw [Reconnect_eq] at h ⊢
  split at h
  · rename_i f' hf'
    simp only [hf']
  · exact acceptSession_error_connected lib _ _ _ f h

/-- C23: if `Reconnect` does not return nil, for whatever reason (transport failure,
non-200 status, decode failure, invalid JSON, rid mismatch, non-hex session token),
then `sessionToken`, `regainToken`, `serverEncryptionToken`, `deviceEncryptionToken` and
the connected flag are as before the call: the client afterwards is the client before
with only the request counter changed, by the `int64` increment, which is `counter + 1`
below the largest `int64`. -/
theorem Reconnect_error_frame (lib : Lib) (T : Transport) (j : jDownloaderClient) (w : World)
    (f : Failure) (h : (j.Reconnect lib T w).result = .error f) :
    (j.Reconnect lib T w).client = { j with counter := wrapInt64 (j.counter + 1) } ∧
    (j.Reconnect lib T w).client.sessionToken = j.sessionToken ∧
    (j.Reconnect lib T w).client.regainToken = j.regainToken ∧
    (j.Reconnect lib T w).client.serverEncryptionToken = j.serverEncryptionToken ∧
    (j.Reconnect lib T w).client.deviceEncryptionToken = j.deviceEncryptionToken ∧
    (j.Reconnect lib T w).client.connected = j.connected ∧
    (minInt64 ≤ j.counter → j.counter < maxInt64 →
      (j.Reconnect lib T w).client.counter = j.counter + 1) := by
  rw [Reconnect_error_client lib T j w f h]
  refine ⟨rfl, rfl, rfl, rfl, rfl, rfl, ?_⟩
  intro h0 h1
  show wrapInt64 (j.counter + 1) = j.counter + 1
  unfold minInt64 at h0
  unfold maxInt64 at h1
  exact wrapInt64_of_range _ (by omega) (by omega)

/-- Witness for C23: a transport failure and a rid mismatch on a connected client. -/
theorem Reconnect_error_frame_witness :
    (demoClient.Reconnect demoLib failingTransport emptyWorld).client =
      { demoClient with counter := wrapInt64 (demoClient.counter + 1) } ∧
    (demoClient.Reconnect demoLib (replyWith (demoBody 9)) emptyWorld).client.connected =
      demoClient.connected ∧
    (demoClient.Reconnect demoLib (replyWith (demoBody 9)) emptyWorld).client.counter =
      demoClient.counter + 1 :=
  ⟨(Reconnect_error_frame demoLib failingTransport demoClient emptyWorld
      (.error .transport) (by rw [Reconnect_eq]; rfl)).1,
   (Reconnect_error_frame demoLib (replyWith (demoBody 9)) demoClient emptyWorld
      (.error (.mismatchedRid 1 9))
      (by rw [Reconnect_mismatch_eq demoLib (replyWith (demoBody 9)) demoClient emptyWorld
            (demoBody 9) [9] { SessionToken := [10, 11], RegainToken := [12], ResponseID := 9 }
            rfl (by decide) rfl (by decide)]; rfl)).2.2.2.2.2.1,
   (Reconnect_error_frame demoLib (replyWith (demoBody 9)) demoClient emptyWorld
      (.error (.mismatchedRid 1 9))
      (by rw [Reconnect_mismatch_eq demoLib (replyWith (demoBody 9)) demoClient emptyWorld
            (demoBody 9) [9] { SessionToken := [10, 11], RegainToken := [12], ResponseID := 9 }
            rfl (by decide) rfl (by decide)]; rfl)).2.2.2.2.2.2 (by decide) (by decide)⟩

/-! ### The configuration hash depends on the concatenation only -/

theorem lit_ab : lit "ab" = lit "a" ++ lit "b" := by decide

theorem lit_bc : lit "bc" = lit "b" ++ lit "c" := by decide

theorem NewClient_ConfigHash (lib : Lib) (now : Int) (email password : Str)
    (opts : List ClientOption) :
    (NewClient lib now email password opts).ConfigHash = hashConfigKeys lib email password :=
  (foldl_apply_frame opts _).1

/-- C24: the configuration hash depends only on the concatenation of its inputs: for all
strings `a`, `b`, `c`, `hashConfigKeys(a ++ b, c) = hashConfigKeys(a, b ++ c)`; so the
two different credential pairs `("ab", "c")` and `("a", "bc")` give clients with the
same `ConfigHash`, whatever the options. -/
theorem hashConfigKeys_concat (lib : Lib) :
    (∀ a b c : Str, hashConfigKeys lib (a ++ b) c = hashConfigKeys lib a (b ++ c)) ∧
    ((lit "ab", lit "c") ≠ (lit "a", lit "bc")) ∧
    hashConfigKeys lib (lit "ab") (lit "c") = hashConfigKeys lib (lit "a") (lit "bc") ∧
    (∀ (now1 now2 : Int) (opts1 opts2 : List ClientOption),
      (NewClient lib now1 (lit "ab") (lit "c") opts1).ConfigHash =
        (NewClient lib now2 (lit "a") (lit "bc") opts2).ConfigHash) := by
  have hgen : ∀ a b c : Str, hashConfigKeys lib (a ++ b) c = hashConfigKeys lib a (b ++ c) := by
    intro a b c
    unfold hashConfigKeys
    rw [List.append_assoc]
  have hex : hashConfigKeys lib (lit "ab") (lit "c") =
      hashConfigKeys lib (lit "a") (lit "bc") := by
    rw [lit_ab, lit_bc]
    exact hgen _ _ _
  refine ⟨hgen, by decide, hex, ?_⟩
  intro now1 now2 opts1 opts2
  rw [NewClient_ConfigHash, NewClient_ConfigHash]
  exact hex

theorem goLib_ConfigHash_collision :
    (NewClient goLib 0 (lit "ab") (lit "c") []).ConfigHash =
      lit "ungWv48Bz+pBQUDeXa4iI7ADYaOWF3qctBD/YfIAFa0=" ∧
    (NewClient goLib 0 (lit "a") (lit "bc") []).ConfigHash =
      lit "ungWv48Bz+pBQUDeXa4iI7ADYaOWF3qctBD/YfIAFa0=" := by
  decide

/-! ### Request ids over a run of calls -/

theorem issuedRids_append : ∀ a b : List Event,
    issuedRids (a ++ b) = issuedRids a ++ issuedRids b
  | [], _ => rfl
  | e :: a, b => by
    cases e <;> simp [issuedRids, issuedRids_append a b]

theorem ridsFrom_length : ∀ (n : Nat) (c : Int), (ridsFrom c n).length = n
  | 0, _ => rfl
  | n + 1, c => by simp [ridsFrom, ridsFrom_length n]

theorem ridsFrom_append : ∀ (n m : Nat) (c : Int),
    ridsFrom c n ++ ridsFrom ((ridsFrom c n).getLastD c) m = ridsFrom c (n + m)
  | 0, m, c => by simp [ridsFrom]
  | n + 1, m, c => by
    have ih := ridsFrom_append n m (wrapInt64 (c + 1))
    have hnm : n + 1 + m = (n + m) + 1 := by omega
    rw [hnm]
    simp only [ridsFrom, List.getLastD_cons, List.cons_append, ih]

theorem ridsFrom_getLastD_append : ∀ (n m : Nat) (c : Int),
    (ridsFrom ((ridsFrom c n).getLastD c) m).getLastD ((ridsFrom c n).getLastD c) =
      (ridsFrom c (n + m)).getLastD c
  | 0, m, c => by simp [ridsFrom]
  | n + 1, m, c => by
    have ih := ridsFrom_getLastD_append n m (wrapInt64 (c + 1))
    have hnm : n + 1 + m = (n + m) + 1 := by omega
    rw [hnm]
    simp only [ridsFrom, List.getLastD_cons, ih]

theorem ridsFrom_closed : ∀ (n s : Nat) (c : Int), c = wrapInt64 s →
    ridsFrom c n = (List.range' s n).map fun i : Nat => wrapInt64 ((i : Int) + 1)
  | 0, _, _, _ => rfl
  | n + 1, s, c, hc => by
    have hhead : wrapInt64 (c + 1) = wrapInt64 ((s : Int) + 1) := by
      rw [hc, wrapInt64_succ]
    have ih := ridsFrom_closed n (s + 1) (wrapInt64 (c + 1)) (by rw [hhead]; push_cast; rfl)
    rw [hhead] at ih
    simp only [ridsFrom, List.range'_succ, List.map_cons, ih, hhead]

theorem IssuedBetween.refl (j : jDownloaderClient) (w : World) : IssuedBetween j w j w :=
  ⟨0, by simp [ridsFrom], rfl⟩

theorem IssuedBetween.trans {j j2 j3 : jDownloaderClient} {w w2 w3 : World}
    (h1 : IssuedBetween j w j2 w2) (h2 : IssuedBetween j2 w2 j3 w3) :
    IssuedBetween j w j3 w3 := by
  obtain ⟨n, hn, hc⟩ := h1
  obtain ⟨m, hm, hc2⟩ := h2
  refine ⟨n + m, ?_, ?_⟩
  · rw [hm, hn, hc, List.append_assoc, ridsFrom_append]
  · rw [hc2, hc, ridsFrom_getLastD_append]

theorem IssuedBetween.none {j j2 : jDownloaderClient} {w w2 : World} (es : List Event)
    (he : w2.events = w.events ++ es) (hr : issuedRids es = [])
    (hc : j2.counter = j.counter) : IssuedBetween j w j2 w2 :=
  ⟨0, by rw [he, issuedRids_append, hr]; rfl, hc⟩

theorem IssuedBetween.one {j j2 : jDownloaderClient} {w w2 : World} (es : List Event)
    (he : w2.events = w.events ++ es) (hr : issuedRids es = [j.nextRid.1])
    (hc : j2.counter = j.nextRid.1) : IssuedBetween j w j2 w2 :=
  ⟨1, by rw [he, issuedRids_append, hr]; rfl, hc⟩

theorem Reconnect_counter (lib : Lib) (T : Transport) (j : jDownloaderClient) (w : World) :
    (j.Reconnect lib T w).client.counter = j.nextRid.1 := by
  rw [Reconnect_eq]
  split
  · rfl
  · exact acceptSession_counter lib _ _ _

theorem Connect_issued (lib : Lib) (T : Transport) (j : jDownloaderClient) (w : World) :
    IssuedBetween j w (j.Connect lib T w).client (j.Connect lib T w).world := by
  cases h : (j.Connect lib T w).result with
  | error f =>
    exact IssuedBetween.one _ (Connect_events_error lib T j w f h) rfl (Connect_counter lib T j w)
  | ok u =>
    exact IssuedBetween.one _ (Connect_events_ok lib T j w u h) rfl (Connect_counter lib T j w)

theorem Reconnect_issued (lib : Lib) (T : Transport) (j : jDownloaderClient) (w : World) :
    IssuedBetween j w (j.Reconnect lib T w).client (j.Reconnect lib T w).world := by
  cases h : (j.Reconnect lib T w).result with
  | error f =>
    exact IssuedBetween.one _ (Reconnect_events_error lib T j w f h) rfl
      (Reconnect_counter lib T j w)
  | ok u =>
    exact IssuedBetween.one _ (Reconnect_events_ok lib T j w u h) rfl
      (Reconnect_counter lib T j w)

theorem Disconnect_issued (lib : Lib) (T : Transport) (j : jDownloaderClient) (w : World) :
    IssuedBetween j w (j.Disconnect lib T w).client (j.Disconnect lib T w).world :=
  IssuedBetween.one _ (Disconnect_events lib T j w) rfl (by rw [Disconnect_client]; rfl)

theorem reconnectIfNecessary_cases (lib : Lib) (T : Transport) (j : jDownloaderClient)
    (w : World) (nowCheck nowSet : Int) :
    j.reconnectIfNecessary lib T w nowCheck nowSet =
      { result := .ok (), client := j, world := w } ∨
    j.reconnectIfNecessary lib T w nowCheck nowSet =
      jDownloaderClient.Connect lib T { j with lastCall := nowSet } w := by
  unfold jDownloaderClient.reconnectIfNecessary
  split
  · exact Or.inr rfl
  · exact Or.inl rfl

theorem reconnectIfNecessary_issued (lib : Lib) (T : Transport) (j : jDownloaderClient)
    (w : World) (nowCheck nowSet : Int) :
    IssuedBetween j w (j.reconnectIfNecessary lib T w nowCheck nowSet).client
      (j.reconnectIfNecessary lib T w nowCheck nowSet).world := by
  rcases reconnectIfNecessary_cases lib T j w nowCheck nowSet with h | h
  · rw [h]
    exact IssuedBetween.refl j w
  · rw [h]
    exact Connect_issued lib T { j with lastCall := nowSet } w

theorem listStep_events (lib : Lib) (T : Transport) (c : jDownloaderClient) (w : World) :
    (listStep lib T c w).world.events =
      w.events ++ [.rid c.nextRid.1, .lock, .transport, .unlock] := by
  unfold listStep
  split
  · exact worldAfter_events _ _ _
  · split <;> exact worldAfter_events _ _ _

theorem deviceStep_trace (lib : Lib) (T : Transport) (d : jDevice) (c : jDownloaderClient)
    (w : World) (action : Str) (marshal : Bool) (params : List Iface) :
    ((deviceStep lib T d c w action marshal params).client = c ∧
      (deviceStep lib T d c w action marshal params).world = w) ∨
    ((deviceStep lib T d c w action marshal params).client = c.nextRid.2 ∧
      (deviceStep lib T d c w action marshal params).world.events =
        w.events ++ [.rid c.nextRid.1]) ∨
    ((deviceStep lib T d c w action marshal params).client = c.nextRid.2 ∧
      (deviceStep lib T d c w action marshal params).world.events =
        w.events ++ [.rid c.nextRid.1, .lock, .transport, .unlock]) := by
  unfold deviceStep
  split
  · exact Or.inl ⟨rfl, rfl⟩
  · split
    · exact Or.inr (Or.inl ⟨rfl, rfl⟩)
    · split
      · exact Or.inr (Or.inl ⟨rfl, rfl⟩)
      · split
        · exact Or.inr (Or.inr ⟨rfl, worldAfter_events _ _ _⟩)
        · split <;> exact Or.inr (Or.inr ⟨rfl, worldAfter_events _ _ _⟩)

theorem deviceStep_issued (lib : Lib) (T : Transport) (d : jDevice) (c : jDownloaderClient)
    (w : World) (action : Str) (marshal : Bool) (params : List Iface) :
    IssuedBetween c w (deviceStep lib T d c w action marshal params).client
      (deviceStep lib T d c w action marshal params).world := by
  rcases deviceStep_trace lib T d c w action marshal params with ⟨h1, h2⟩ | ⟨h1, h2⟩ | ⟨h1, h2⟩
  · rw [h1, h2]
    exact IssuedBetween.refl c w
  · exact IssuedBetween.one _ h2 rfl (by rw [h1]; rfl)
  · exact IssuedBetween.one _ h2 rfl (by rw [h1]; rfl)

theorem listStep_issued (lib : Lib) (T : Transport) (c : jDownloaderClient) (w : World) :
    IssuedBetween c w (listStep lib T c w).client (listStep lib T c w).world :=
  IssuedBetween.one _ (listStep_events lib T c w) rfl (by rw [listStep_client]; rfl)

theorem doDevice_issued (lib : Lib) (T : Transport) (d : jDevice) (j : jDownloaderClient)
    (w : World) (nowCheck nowSet : Int) (action : Str) (marshal : Bool) (params : List Iface) :
    IssuedBetween j w (d.doDevice lib T j w nowCheck nowSet action marshal params).client
      (d.doDevice lib T j w nowCheck nowSet action marshal params).world := by
  rw [doDevice_eq]
  split
  · exact reconnectIfNecessary_issued lib T j w nowCheck nowSet
  · exact (reconnectIfNecessary_issued lib T j w nowCheck nowSet).trans
      (deviceStep_issued lib T d _ _ action marshal params)

theorem ListDevices_issued (lib : Lib) (T : Transport) (j : jDownloaderClient) (w : World)
    (nowCheck nowSet : Int) :
    IssuedBetween j w (j.ListDevices lib T w nowCheck nowSet).client
      (j.ListDevices lib T w nowCheck nowSet).world := by
  rw [ListDevices_eq]
  split
  · exact reconnectIfNecessary_issued lib T j w nowCheck nowSet
  · exact (reconnectIfNecessary_issued lib T j w nowCheck nowSet).trans
      (listStep_issued lib T _ _)

theorem runCall_issued (lib : Lib) (T : Transport) (j : jDownloaderClient) (w : World)
    (c : Call) : IssuedBetween j w (runCall lib T j w c).1 (runCall lib T j w c).2 := by
  cases c with
  | connect => exact Connect_issued lib T j w
  | reconnect => exact Reconnect_issued lib T j w
  | disconnect => exact Disconnect_issued lib T j w
  | listDevices nowCheck nowSet => exact ListDevices_issued lib T j w nowCheck nowSet
  | device d nowCheck nowSet action marshal params =>
    exact doDevice_issued lib T d j w nowCheck nowSet action marshal params

theorem runCalls_issued (lib : Lib) (T : Transport) : ∀ (calls : List Call)
    (j : jDownloaderClient) (w : World),
    IssuedBetween j w (runCalls lib T j w calls).1 (runCalls lib T j w calls).2
  | [], j, w => IssuedBetween.refl j w
  | c :: cs, j, w =>
    (runCall_issued lib T j w c).trans (runCalls_issued lib T cs _ _)

theorem idsOfRun_fresh (lib : Lib) (T : Transport) (now : Int) (email password : Str)
    (opts : List ClientOption) (calls : List Call) :
    ∃ n, idsOfRun lib T (NewClient lib now email password opts) calls = ridsFrom 0 n ∧
      (runCalls lib T (NewClient lib now email password opts) emptyWorld calls).1.counter =
        (ridsFrom 0 n).getLastD 0 := by
  obtain ⟨n, hn, hc⟩ := runCalls_issued lib T calls (NewClient lib now email password opts)
    emptyWorld
  rw [NewClient_counter] at hn hc
  exact ⟨n, hn, hc⟩

theorem ridsFrom_zero (n : Nat) :
    ridsFrom 0 n = (List.range n).map fun i : Nat => wrapInt64 ((i : Int) + 1) := by
  rw [List.range_eq_range']
  exact ridsFrom_closed n 0 0 (by decide)

theorem ridsFrom_zero_small (n : Nat) (h : (n : Int) < 2 ^ 63) :
    ridsFrom 0 n = (List.range n).map fun i : Nat => (i : Int) + 1 := by
  rw [ridsFrom_zero]
  apply List.map_congr_left
  intro i hi
  have hi2 : i < n := List.mem_range.mp hi
  exact wrapInt64_of_range _ (by omega) (by omega)

theorem ridsFrom_zero_pairwise (n : Nat) (h : (n : Int) < 2 ^ 63) :
    List.Pairwise (· < ·) (ridsFrom 0 n) := by
  rw [ridsFrom_zero_small n h, List.pairwise_map]
  exact (List.pairwise_lt_range n).imp (fun hab => by omega)

theorem doDevice_fresh_trace (lib : Lib) (T : Transport) (d : jDevice) (j : jDownloaderClient)
    (w : World) (nowCheck nowSet : Int) (action : Str) (marshal : Bool) (params : List Iface)
    (p : Option (List Iface)) (plaintext : List Byte)
    (hc : j.connected = true) (ht : nowCheck - j.lastCall ≤ 30 * 10 ^ 9)
    (hser : serializeParams lib marshal params = .ok p)
    (hmar : lib.marshalAction
      { Url := action, Params := p, RequestId := j.nextRid.1, ApiVersion := 1 } = some plaintext) :
    ∃ ciphertext, encrypt lib plaintext j.deviceEncryptionToken = .ok ciphertext ∧
      (d.doDevice lib T j w nowCheck nowSet action marshal params).world.dispatched =
        w.dispatched ++ [deviceRequest lib d j action (lib.base64Encode ciphertext)] ∧
      (d.doDevice lib T j w nowCheck nowSet action marshal params).world.events =
        w.events ++ [.rid j.nextRid.1, .lock, .transport, .unlock] ∧
      (d.doDevice lib T j w nowCheck nowSet action marshal params).client.counter =
        j.nextRid.1 := by
  obtain ⟨ciphertext, henc⟩ := encrypt_ok lib plaintext j.deviceEncryptionToken
  refine ⟨ciphertext, henc, ?_⟩
  rw [doDevice_fresh lib T d j w nowCheck nowSet action marshal params hc ht]
  unfold deviceStep
  simp only [hser, hmar, henc]
  split
  · exact ⟨worldAfter_dispatched _ _ _, worldAfter_events _ _ _, rfl⟩
  · split <;> exact ⟨worldAfter_dispatched _ _ _, worldAfter_events _ _ _, rfl⟩

/-- C8: on one client instance, created by `NewClient` with counter 0, the request ids
returned by the successive `nextRid` calls of any sequence of `Connect`, `Reconnect`,
`Disconnect`, `ListDevices` and device calls (any transport, devices, parameters and
clock readings) are the `int64` increments `1, 2, 3, ...` in this order: below `2^63`
ids they are exactly `1, ..., K`, strictly increasing and without repetition, the first
being 1. `currentRid` after the run is the last id issued (0 when none was) and only
reads the counter. The id a call takes is the one it sends: `doServer` puts it in the
`rid` fragment of the URI it dispatches, and `doDevice` in the envelope it encrypts. -/
theorem request_ids_increasing (lib : Lib) (T : Transport) (now : Int) (email password : Str)
    (opts : List ClientOption) (calls : List Call) :
    (NewClient lib now email password opts).counter = 0 ∧
    idsOfRun lib T (NewClient lib now email password opts) calls =
      (List.range (idsOfRun lib T (NewClient lib now email password opts) calls).length).map
        (fun i : Nat => wrapInt64 ((i : Int) + 1)) ∧
    (((idsOfRun lib T (NewClient lib now email password opts) calls).length : Int) < 2 ^ 63 →
      idsOfRun lib T (NewClient lib now email password opts) calls =
        (List.range (idsOfRun lib T (NewClient lib now email password opts) calls).length).map
          (fun i : Nat => (i : Int) + 1) ∧
      List.Pairwise (· < ·) (idsOfRun lib T (NewClient lib now email password opts) calls) ∧
      (idsOfRun lib T (NewClient lib now email password opts) calls).Nodup) ∧
    (∀ n, (idsOfRun lib T (NewClient lib now email password opts) calls).head? = some n →
      n = 1) ∧
    (runCalls lib T (NewClient lib now email password opts) emptyWorld calls).1.currentRid =
      (idsOfRun lib T (NewClient lib now email password opts) calls).getLastD 0 ∧
    (∀ j : jDownloaderClient, j.currentRid = j.counter) ∧
    (∀ (j : jDownloaderClient) (w : World) (path method : Str) (args : Option (List Str))
      (data : Option (List Byte)) (key : Key32),
      (j.doServer lib T w path method args data key).world.events =
        w.events ++ [.rid j.nextRid.1, .lock, .transport, .unlock] ∧
      (j.doServer lib T w path method args data key).client.counter = j.nextRid.1 ∧
      ∃ req, (j.doServer lib T w path method args data key).world.dispatched =
          w.dispatched ++ [req] ∧
        req.url = j.endpoint ++ signedUri lib path (args.getD [])
          (lib.queryEscape (lib.formatInt j.nextRid.1)) key) ∧
    (∀ (d : jDevice) (j : jDownloaderClient) (w : World) (nowCheck nowSet : Int)
      (action : Str) (marshal : Bool) (params : List Iface) (p : Option (List Iface))
      (plaintext : List Byte),
      j.connected = true → nowCheck - j.lastCall ≤ 30 * 10 ^ 9 →
      serializeParams lib marshal params = .ok p →
      lib.marshalAction
        { Url := action, Params := p, RequestId := j.nextRid.1, ApiVersion := 1 }
        = some plaintext →
      ∃ ciphertext, encrypt lib plaintext j.deviceEncryptionToken = .ok ciphertext ∧
        (d.doDevice lib T j w nowCheck nowSet action marshal params).world.dispatched =
          w.dispatched ++ [deviceRequest lib d j action (lib.base64Encode ciphertext)] ∧
        (d.doDevice lib T j w nowCheck nowSet action marshal params).world.events =
          w.events ++ [.rid j.nextRid.1, .lock, .transport, .unlock] ∧
        (d.doDevice lib T j w nowCheck nowSet action marshal params).client.counter =
          j.nextRid.1) := by
  obtain ⟨n, hn, hc⟩ := idsOfRun_fresh lib T now email password opts calls
  have hlen : (idsOfRun lib T (NewClient lib now email password opts) calls).length = n := by
    rw [hn, ridsFrom_length]
  refine ⟨NewClient_counter lib now email password opts, ?_, ?_, ?_, ?_, fun _ => rfl, ?_, ?_⟩
  · rw [hlen, hn]
    exact ridsFrom_zero n
  · intro hK
    rw [hlen] at hK ⊢
    rw [hn]
    have hp := ridsFrom_zero_pairwise n hK
    exact ⟨ridsFrom_zero_small n hK, hp, hp.imp (fun hab => ne_of_lt hab)⟩
  · intro k hk
    rw [hn] at hk
    cases n with
    | zero => simp [ridsFrom] at hk
    | succ m =>
      simp only [ridsFrom, List.head?_cons, Option.some.injEq] at hk
      rw [← hk]
      decide
  · rw [hn]
    exact hc
  · intro j w path method args data key
    exact ⟨doServer_events lib T j w path method args data key, rfl,
      doServer_dispatched lib T j w path method args data key⟩
  · intro d j w nowCheck nowSet action marshal params p plaintext hcon ht hser hmar
    exact doDevice_fresh_trace lib T d j w nowCheck nowSet action marshal params p plaintext
      hcon ht hser hmar

/-- Witness for C8: a fresh client on which `Connect`, a device call, `ListDevices`,
`Disconnect` and `Reconnect` are called in this order; the ids issued are 1 to 5. -/
theorem request_ids_increasing_witness :
    ((idsOfRun demoLib (replyWith (demoBody 1)) (NewClient demoLib 0 [] [] [])
      [.connect, .device demoDevice 0 0 (lit "/x") false [], .listDevices 0 0, .disconnect,
        .reconnect]).length : Int) < 2 ^ 63 ∧
    idsOfRun demoLib (replyWith (demoBody 1)) (NewClient demoLib 0 [] [] [])
      [.connect, .device demoDevice 0 0 (lit "/x") false [], .listDevices 0 0, .disconnect,
        .reconnect] = [1, 2, 3, 4, 5] ∧
    List.Pairwise (· < ·)
      (idsOfRun demoLib (replyWith (demoBody 1)) (NewClient demoLib 0 [] [] [])
        [.connect, .device demoDevice 0 0 (lit "/x") false [], .listDevices 0 0, .disconnect,
          .reconnect]) ∧
    (idsOfRun demoLib (replyWith (demoBody 1)) (NewClient demoLib 0 [] [] [])
      [.connect, .device demoDevice 0 0 (lit "/x") false [], .listDevices 0 0, .disconnect,
        .reconnect]).Nodup :=
  ⟨by decide, by decide,
   ((request_ids_increasing demoLib (replyWith (demoBody 1)) 0 [] [] []
      [.connect, .device demoDevice 0 0 (lit "/x") false [], .listDevices 0 0, .disconnect,
        .reconnect]).2.2.1 (by decide)).2.1,
   ((request_ids_increasing demoLib (replyWith (demoBody 1)) 0 [] [] []
      [.connect, .device demoDevice 0 0 (lit "/x") false [], .listDevices 0 0, .disconnect,
        .reconnect]).2.2.1 (by decide)).2.2⟩

/-! ### The transport lock and the session fields -/

theorem lockHeld_append : ∀ (a b : List Event) (h : Bool),
    lockHeld h (a ++ b) = lockHeld (lockHeld h a) b
  | [], _, _ => rfl
  | e :: a, b, h => by
    cases e <;> simp [lockHeld, lockHeld_append a b]

theorem writesUnderLock_append : ∀ (a b : List Event) (h : Bool),
    writesUnderLock h (a ++ b) = writesUnderLock h a ++ writesUnderLock (lockHeld h a) b
  | [], _, _ => rfl
  | e :: a, b, h => by
    cases e <;> cases h <;> simp [writesUnderLock, lockHeld, writesUnderLock_append a b]

theorem transportsOutsideLock_append : ∀ (a b : List Event) (h : Bool),
    transportsOutsideLock h (a ++ b) =
      transportsOutsideLock h a + transportsOutsideLock (lockHeld h a) b
  | [], _, _ => by simp [transportsOutsideLock, lockHeld]
  | e :: a, b, h => by
    have ih := transportsOutsideLock_append a b
    cases e with
    | transport =>
      cases h
      · show transportsOutsideLock false (a ++ b) + 1 =
          (transportsOutsideLock false a + 1) + transportsOutsideLock (lockHeld false a) b
        rw [ih]
        omega
      · simp [transportsOutsideLock, lockHeld, ih]
    | rid n => simp [transportsOutsideLock, lockHeld, ih]
    | lock => simp [transportsOutsideLock, lockHeld, ih]
    | unlock => simp [transportsOutsideLock, lockHeld, ih]
    | write f => simp [transportsOutsideLock, lockHeld, ih]

theorem LockDiscipline.extend {w w2 : World} (es : List Event)
    (he : w2.events = w.events ++ es) (h1 : lockHeld false es = false)
    (h2 : writesUnderLock false es = []) (h3 : transportsOutsideLock false es = 0)
    (hw : LockDiscipline w) : LockDiscipline w2 := by
  obtain ⟨hl, hu, ht⟩ := hw
  refine ⟨?_, ?_, ?_⟩
  · rw [he, lockHeld_append, hl, h1]
  · rw [he, writesUnderLock_append, hl, hu, h2]
    rfl
  · rw [he, transportsOutsideLock_append, hl, ht, h3]

theorem Connect_lock (lib : Lib) (T : Transport) (j : jDownloaderClient) (w : World)
    (hw : LockDiscipline w) : LockDiscipline (j.Connect lib T w).world := by
  cases h : (j.Connect lib T w).result with
  | error f => exact hw.extend _ (Connect_events_error lib T j w f h) rfl rfl rfl
  | ok u => exact hw.extend _ (Connect_events_ok lib T j w u h) rfl rfl rfl

theorem Reconnect_lock (lib : Lib) (T : Transport) (j : jDownloaderClient) (w : World)
    (hw : LockDiscipline w) : LockDiscipline (j.Reconnect lib T w).world := by
  cases h : (j.Reconnect lib T w).result with
  | error f => exact hw.extend _ (Reconnect_events_error lib T j w f h) rfl rfl rfl
  | ok u => exact hw.extend _ (Reconnect_events_ok lib T j w u h) rfl rfl rfl

theorem Disconnect_lock (lib : Lib) (T : Transport) (j : jDownloaderClient) (w : World)
    (hw : LockDiscipline w) : LockDiscipline (j.Disconnect lib T w).world :=
  hw.extend _ (Disconnect_events lib T j w) rfl rfl rfl

theorem reconnectIfNecessary_lock (lib : Lib) (T : Transport) (j : jDownloaderClient)
    (w : World) (nowCheck nowSet : Int) (hw : LockDiscipline w) :
    LockDiscipline (j.reconnectIfNecessary lib T w nowCheck nowSet).world := by
  rcases reconnectIfNecessary_cases lib T j w nowCheck nowSet with h | h
  · rw [h]
    exact hw
  · rw [h]
    exact Connect_lock lib T _ w hw

theorem deviceStep_lock (lib : Lib) (T : Transport) (d : jDevice) (c : jDownloaderClient)
    (w : World) (action : Str) (marshal : Bool) (params : List Iface)
    (hw : LockDiscipline w) :
    LockDiscipline (deviceStep lib T d c w action marshal params).world := by
  rcases deviceStep_trace lib T d c w action marshal params with ⟨_, h2⟩ | ⟨_, h2⟩ | ⟨_, h2⟩
  · rw [h2]
    exact hw
  · exact hw.extend _ h2 rfl rfl rfl
  · exact hw.extend _ h2 rfl rfl rfl

theorem listStep_lock (lib : Lib) (T : Transport) (c : jDownloaderClient) (w : World)
    (hw : LockDiscipline w) : LockDiscipline (listStep lib T c w).world :=
  hw.extend _ (listStep_events lib T c w) rfl rfl rfl

theorem runCall_lock (lib : Lib) (T : Transport) (j : jDownloaderClient) (w : World)
    (c : Call) (hw : LockDiscipline w) : LockDiscipline (runCall lib T j w c).2 := by
  cases c with
  | connect => exact Connect_lock lib T j w hw
  | reconnect => exact Reconnect_lock lib T j w hw
  | disconnect => exact Disconnect_lock lib T j w hw
  | listDevices nowCheck nowSet =>
    show LockDiscipline (j.ListDevices lib T w nowCheck nowSet).world
    rw [ListDevices_eq]
    split
    · exact reconnectIfNecessary_lock lib T j w nowCheck nowSet hw
    · exact listStep_lock lib T _ _ (reconnectIfNecessary_lock lib T j w nowCheck nowSet hw)
  | device d nowCheck nowSet action marshal params =>
    show LockDiscipline (d.doDevice lib T j w nowCheck nowSet action marshal params).world
    rw [doDevice_eq]
    split
    · exact reconnectIfNecessary_lock lib T j w nowCheck nowSet hw
    · exact deviceStep_lock lib T d _ _ action marshal params
        (reconnectIfNecessary_lock lib T j w nowCheck nowSet hw)

theorem runCalls_lock (lib : Lib) (T : Transport) : ∀ (calls : List Call)
    (j : jDownloaderClient) (w : World), LockDiscipline w →
    LockDiscipline (runCalls lib T j w calls).2
  | [], _, _, hw => hw
  | c :: cs, j, w, hw => runCalls_lock lib T cs _ _ (runCall_lock lib T j w c hw)

/-- C20, as stated, fails: a `Connect` on a fresh client that succeeds assigns the two
key lineages before the transport lock is taken and the two tokens and the two key
lineages after it has been released, so all six assignments are made while the lock is
not held, and none while it is held; a `Reconnect` that succeeds makes its four
assignments after the lock has been released. -/
theorem Connect_writes_without_lock :
    (demoFresh.Connect demoLib (replyWith (demoBody 1)) emptyWorld).result = .ok () ∧
    (demoFresh.Connect demoLib (replyWith (demoBody 1)) emptyWorld).world.events =
      [.write .serverEncryptionToken, .write .deviceEncryptionToken, .rid 1, .lock,
        .transport, .unlock, .write .sessionToken, .write .regainToken,
        .write .serverEncryptionToken, .write .deviceEncryptionToken] ∧
    writesOutsideLock false
        (demoFresh.Connect demoLib (replyWith (demoBody 1)) emptyWorld).world.events =
      [.serverEncryptionToken, .deviceEncryptionToken, .sessionToken, .regainToken,
        .serverEncryptionToken, .deviceEncryptionToken] ∧
    writesUnderLock false
        (demoFresh.Connect demoLib (replyWith (demoBody 1)) emptyWorld).world.events = [] ∧
    (demoClient.Reconnect demoLib (replyWith (demoBody 1)) emptyWorld).result = .ok () ∧
    writesOutsideLock false
        (demoClient.Reconnect demoLib (replyWith (demoBody 1)) emptyWorld).world.events =
      [.sessionToken, .regainToken, .serverEncryptionToken, .deviceEncryptionToken] ∧
    writesUnderLock false
        (demoClient.Reconnect demoLib (replyWith (demoBody 1)) emptyWorld).world.events = [] := by
  decide

/-- C20, amended: the transport lock is taken and released inside `do`, around the call
of the HTTP client only. The assignments to `sessionToken`, `regainToken`,
`serverEncryptionToken` and `deviceEncryptionToken` are made by `Connect` and
`Reconnect` while the lock is not held: `Connect` assigns the two key lineages before
its exchange takes the lock, and `Connect` and `Reconnect`, when the reply is accepted,
assign the two tokens and the two key lineages after the exchange has released it; a
call that fails makes no assignment after its exchange. In every sequence of calls on a
client no assignment to these fields is made while the lock is held, every call of the
HTTP client is made while it is held, and the lock is free when the calls have
returned. -/
theorem session_writes_outside_lock (lib : Lib) (T : Transport) (j : jDownloaderClient)
    (w : World) :
    (∀ (path method : Str) (data : Option (List Byte)) (key : Key32),
      (j.do_ lib T w path method data key).2.events =
        w.events ++ [.lock, .transport, .unlock]) ∧
    (∀ f, (j.Connect lib T w).result = .error f →
      (j.Connect lib T w).world.events =
        w.events ++ [.write .serverEncryptionToken, .write .deviceEncryptionToken,
          .rid j.nextRid.1, .lock, .transport, .unlock]) ∧
    (∀ u, (j.Connect lib T w).result = .ok u →
      (j.Connect lib T w).world.events =
        w.events ++ [.write .serverEncryptionToken, .write .deviceEncryptionToken,
          .rid j.nextRid.1, .lock, .transport, .unlock, .write .sessionToken,
          .write .regainToken, .write .serverEncryptionToken,
          .write .deviceEncryptionToken]) ∧
    (∀ f, (j.Reconnect lib T w).result = .error f →
      (j.Reconnect lib T w).world.events =
        w.events ++ [.rid j.nextRid.1, .lock, .transport, .unlock]) ∧
    (∀ u, (j.Reconnect lib T w).result = .ok u →
      (j.Reconnect lib T w).world.events =
        w.events ++ [.rid j.nextRid.1, .lock, .transport, .unlock, .write .sessionToken,
          .write .regainToken, .write .serverEncryptionToken,
          .write .deviceEncryptionToken]) ∧
    (∀ calls : List Call,
      writesUnderLock false (runCalls lib T j emptyWorld calls).2.events = [] ∧
      transportsOutsideLock false (runCalls lib T j emptyWorld calls).2.events = 0 ∧
      lockHeld false (runCalls lib T j emptyWorld calls).2.events = false) := by
  refine ⟨fun path method data key => do_events lib T j w path method data key,
    fun f h => Connect_events_error lib T j w f h,
    fun u h => Connect_events_ok lib T j w u h,
    fun f h => Reconnect_events_error lib T j w f h,
    fun u h => Reconnect_events_ok lib T j w u h, ?_⟩
  intro calls
  obtain ⟨h1, h2, h3⟩ := runCalls_lock lib T calls j emptyWorld ⟨rfl, rfl, rfl⟩
  exact ⟨h2, h3, h1⟩

/-- Witness for the amended C20: a `Connect` on a fresh client that succeeds, and a
`Reconnect` on a connected client whose exchange fails. -/
theorem session_writes_outside_lock_witness :
    (demoFresh.Connect demoLib (replyWith (demoBody 1)) emptyWorld).world.events =
      emptyWorld.events ++ [.write .serverEncryptionToken, .write .deviceEncryptionToken,
        .rid demoFresh.nextRid.1, .lock, .transport, .unlock, .write .sessionToken,
        .write .regainToken, .write .serverEncryptionToken,
        .write .deviceEncryptionToken] ∧
    (demoClient.Reconnect demoLib failingTransport emptyWorld).world.events =
      emptyWorld.events ++ [.rid demoClient.nextRid.1, .lock, .transport, .unlock] :=
  ⟨(session_writes_outside_lock demoLib (replyWith (demoBody 1)) demoFresh emptyWorld).2.2.1
      () (by decide),
   (session_writes_outside_lock demoLib failingTransport demoClient emptyWorld).2.2.2.1
      (.error .transport) (by decide)⟩

end JDownloader
